import Mathlib

/-!
# GoToCard recommendation engine

A shallow embedding of `backend/internal/service/recommendation_service.go`,
of `getBenefitPatterns` of `backend/internal/service/scraping_service.go`, and of
the parts of `backend/internal/models/models.go` and
`backend/internal/repository/card_repository.go` that they use.

Modelling conventions.

* Go `float64` is the type `Float64` below: a value is the rational it denotes,
  and every arithmetic operation and every decimal constant is rounded to the
  nearest binary64 value, ties to even, with gradual underflow, operation by
  operation as on amd64 (no fused multiply-add). The exponent range is not
  bounded above: results beyond the largest finite binary64 value, infinities,
  NaN and the sign of zero are not modelled, nor is a division by zero (the only
  divisor in the embedded code is the constant 100). The theorems quantify over
  all values of `Float64`, the binary64 values among them; the examples use
  binary64 values only.
* Go `strings.ToLower` follows the Unicode case tables; `getBenefitPatterns`
  takes it as a parameter, and the theorems hold for every such function.
* Go `uint` identifiers are natural numbers (they are only compared).
* Go `error` values are modelled by their message, a `String`;
  `fmt.Errorf("...: %w", err)` prepends its prefix to the message.
* gorm timestamps and the preloaded relationship fields of the models are
  left out; `DeletedAt` is kept as the flag `Deleted` (gorm soft delete).
-/

namespace GoToCard

/-! ## Binary64 arithmetic -/

/-- Nearest natural number of a non-negative rational, ties to the even
neighbour. -/
def roundHalfEven (x : ℚ) : Nat :=
  let f := ⌊x⌋.toNat
  let r := x - (f : ℚ)
  if r < 1 / 2 then f
  else if 1 / 2 < r then f + 1
  else if f % 2 = 0 then f else f + 1

/-- The number of halvings that bring `n` below 2, at most `fuel` of them. -/
def log2Fuel : Nat → Nat → Nat
  | 0, _ => 0
  | fuel + 1, n => if n < 2 then 0 else log2Fuel fuel (n / 2) + 1

/-- The binary logarithm of a positive natural number, rounded down. -/
def ilog2 (n : Nat) : Nat := log2Fuel n n

/-- The power of two with integer exponent `k`. -/
def pow2 (k : ℤ) : ℚ :=
  if 0 ≤ k then ((2 ^ k.toNat : ℕ) : ℚ) else 1 / ((2 ^ (-k).toNat : ℕ) : ℚ)

/-- The binade of a positive rational `a`: the `k` with `2^k ≤ a < 2^(k+1)`. -/
def binade (a : ℚ) : ℤ :=
  let k : ℤ := (ilog2 a.num.toNat : ℤ) - (ilog2 a.den : ℤ)
  if pow2 k ≤ a then k else k - 1

/-- The spacing of the binary64 values around a positive rational: 53 significant
bits, the exponent not going below that of the subnormal numbers. -/
def ulp (a : ℚ) : ℚ := pow2 (max (binade a) (-1022) - 52)

/-- Rounding of a non-negative rational to the nearest binary64 value, ties to
even. -/
def rndPos (a : ℚ) : ℚ := if a = 0 then 0 else (roundHalfEven (a / ulp a) : ℚ) * ulp a

/-- Rounding of a rational to the nearest binary64 value, ties to even. -/
def rnd64 (x : ℚ) : ℚ := if x < 0 then -(rndPos (-x)) else rndPos x

/-- A Go `float64`: the rational number it denotes. The operations and literals
below yield binary64 values only. -/
structure Float64 where
  val : ℚ
  deriving DecidableEq, Repr

instance : Add Float64 := ⟨fun a b => ⟨rnd64 (a.val + b.val)⟩⟩

instance : Sub Float64 := ⟨fun a b => ⟨rnd64 (a.val - b.val)⟩⟩

instance : Mul Float64 := ⟨fun a b => ⟨rnd64 (a.val * b.val)⟩⟩

instance : Div Float64 := ⟨fun a b => ⟨rnd64 (a.val / b.val)⟩⟩

instance : Neg Float64 := ⟨fun a => ⟨rnd64 (-a.val)⟩⟩

instance (n : Nat) : OfNat Float64 n := ⟨⟨rnd64 n⟩⟩

instance : OfScientific Float64 :=
  ⟨fun m s e => ⟨rnd64 (OfScientific.ofScientific m s e)⟩⟩

instance : LinearOrder Float64 :=
  LinearOrder.lift' Float64.val (fun a b h => by cases a; cases b; simp_all)

instance (a b : Float64) : Decidable (a ≤ b) := inferInstanceAs (Decidable (a.val ≤ b.val))

instance (a b : Float64) : Decidable (a < b) := inferInstanceAs (Decidable (a.val < b.val))

/-- Nearest integer of a rational, halves rounded away from zero. -/
def roundHalfAway (x : ℚ) : ℚ :=
  if 0 ≤ x then ((⌊x + 1 / 2⌋ : ℤ) : ℚ) else -((⌊-x + 1 / 2⌋ : ℤ) : ℚ)

/-! ## Data model (`models.go`) -/

/-- The `models.Category` entity. -/
structure Category where
  ID : Nat
  Name : String
  Description : String
  Icon : String
  deriving DecidableEq, Repr

/-- The `models.CardBenefit` entity: the reward rule of one (card, category) pair. -/
structure CardBenefit where
  ID : Nat
  CardID : Nat
  CategoryID : Nat
  CashbackRate : Float64
  PointsRate : Float64
  MilesRate : Float64
  Cap : Float64
  MinSpend : Float64
  Description : String
  deriving DecidableEq, Repr

/-- The `models.CreditCard` entity with its `CardBenefits` relationship. -/
structure CreditCard where
  ID : Nat
  Name : String
  Bank : String
  CardType : String
  AnnualFee : Float64
  IsActive : Bool
  CardBenefits : List CardBenefit
  deriving DecidableEq, Repr

/-- The `models.UserSpending` entity. -/
structure UserSpending where
  ID : Nat
  UserID : Nat
  CategoryID : Nat
  Amount : Float64
  Month : Int
  Year : Int
  deriving DecidableEq, Repr

/-- The `models.Recommendation` row; `Deleted` stands for a non-null `DeletedAt`. -/
structure Recommendation where
  ID : Nat
  UserID : Nat
  CategoryID : Nat
  CardID : Nat
  Score : Float64
  EstimatedReward : Float64
  Reason : String
  Deleted : Bool
  deriving DecidableEq, Repr

/-- The `models.RecommendationResponse` DTO, the candidate shape of the engine. -/
structure RecommendationResponse where
  ID : Nat
  Card : CreditCard
  Category : Category
  Score : Float64
  EstimatedReward : Float64
  Reason : String
  deriving DecidableEq, Repr

/-! ## Reward calculator and card scorer -/

/-- The method `calculateReward` of `recommendation_service.go`. -/
def calculateReward (monthlySpent : Float64) (benefit : CardBenefit) : Float64 :=
  if monthlySpent < benefit.MinSpend then 0
  else
    let spentAmount :=
      if benefit.Cap > 0 ∧ monthlySpent > benefit.Cap then benefit.Cap else monthlySpent
    if benefit.CashbackRate > 0 then spentAmount * (benefit.CashbackRate / 100)
    else if benefit.PointsRate > 0 then spentAmount * (benefit.PointsRate / 100) * 0.01
    else if benefit.MilesRate > 0 then spentAmount * (benefit.MilesRate / 100) * 0.015
    else 0

/-- Go `math.Round`: nearest integer, halves rounded away from zero. -/
def mathRound (x : Float64) : Float64 := ⟨roundHalfAway x.val⟩

/-- The method `calculateScore` of `recommendation_service.go`. -/
def calculateScore (netBenefit annualFee : Float64) (benefit : CardBenefit) : Float64 :=
  let score := netBenefit
  let score := if benefit.CashbackRate > 0 then score + benefit.CashbackRate * 10 else score
  let score := if benefit.PointsRate > 0 then score + benefit.PointsRate * 8 else score
  let score := if benefit.MilesRate > 0 then score + benefit.MilesRate * 12 else score
  let score := score - annualFee * 0.5
  let score := max 0 (min 100 score)
  mathRound (score * 100) / 100

/-! ## Reason strings (`fmt.Sprintf` with the verbs `%.Nf`) -/

/-- Left-pads the digit string `s` with zeros up to width `w`. -/
def padZeros (w : Nat) (s : String) : String :=
  String.mk (List.replicate (w - s.length) '0') ++ s

/-- The decimal expansion of the rational `x` with `prec` digits after the point,
correctly rounded, ties to even (what `strconv` does to the exact value). -/
def fmtFixedQ (prec : Nat) (x : ℚ) : String :=
  let n := roundHalfEven (|x| * (10 : ℚ) ^ prec)
  let sign := if x < 0 then "-" else ""
  let whole := toString (n / 10 ^ prec)
  if prec = 0 then sign ++ whole
  else sign ++ whole ++ "." ++ padZeros prec (toString (n % 10 ^ prec))

/-- The verb `%.Nf` of Go `fmt` with precision `prec`, applied to `x`. -/
def fmtFixed (prec : Nat) (x : Float64) : String := fmtFixedQ prec x.val

/-- The method `generateReason` of `recommendation_service.go`. -/
def generateReason (benefit : CardBenefit) (monthlyReward annualFee : Float64) : String :=
  let annualReward := monthlyReward * 12
  let netBenefit := annualReward - annualFee
  let reason := "Earn " ++ fmtFixed 2 benefit.CashbackRate ++ "% "
  let reason :=
    if benefit.PointsRate > 0 then "Earn " ++ fmtFixed 1 benefit.PointsRate ++ "x points "
    else reason
  let reason :=
    if benefit.MilesRate > 0 then "Earn " ++ fmtFixed 1 benefit.MilesRate ++ "x miles "
    else reason
  let reason :=
    reason ++ "on this category. Expected monthly reward: $" ++ fmtFixed 2 monthlyReward
  let reason :=
    if annualFee > 0 then reason ++ ", Annual fee: $" ++ fmtFixed 0 annualFee else reason
  reason ++ ", Net annual benefit: $" ++ fmtFixed 2 netBenefit

/-! ## Collaborators (`repository.go`, `card_repository.go`) -/

/-- The read-side repositories as the service sees them: what each query
returns, an error message or the rows. -/
structure Stores where
  /-- The query `UserSpending.GetByUserID`. -/
  spendingByUser : Nat → Except String (List UserSpending)
  /-- The query `CreditCard.GetActiveCards`. -/
  activeCards : Except String (List CreditCard)
  /-- The query `Category.GetByID`. -/
  categoryByID : Nat → Except String Category

deriving instance DecidableEq for Except

/-- Outcomes of the write operations of the recommendation repository during one
run: `deleteErr` is the error of `DeleteByUserID` (if any) and `createErr i` the
error of the `Create` call issued at loop index `i` (if any). -/
structure Faults where
  deleteErr : Option String
  createErr : Nat → Option String

/-- A call received by the recommendation repository. -/
inductive RecCall where
  | deleteByUserID (userID : Nat)
  | create (rec : Recommendation)
  deriving DecidableEq, Repr

/-- The `recommendations` table: its rows in insertion order, the next primary
key, and (ghost) the write calls received so far. -/
structure RecDb where
  rows : List Recommendation
  nextID : Nat
  calls : List RecCall
  deriving DecidableEq, Repr

/-- The effect of a successful `DeleteByUserID` on one row: gorm soft-deletes the
rows of the user that are not deleted yet. -/
def softDelete (userID : Nat) (r : Recommendation) : Recommendation :=
  if r.UserID = userID ∧ r.Deleted = false then { r with Deleted := true } else r

/-- The method `recommendationRepository.DeleteByUserID`: one statement, executed
directly on the connection; a failing statement changes no row. -/
def RecDb.DeleteByUserID (err : Option String) (userID : Nat) (db : RecDb) :
    Option String × RecDb :=
  let db := { db with calls := db.calls ++ [RecCall.deleteByUserID userID] }
  match err with
  | some e => (some e, db)
  | none =>
    (none, { db with rows := db.rows.map (softDelete userID) })

/-- The method `recommendationRepository.Create`: one insert, executed directly
on the connection; a failing insert adds no row. -/
def RecDb.Create (err : Option String) (rec : Recommendation) (db : RecDb) :
    Option String × RecDb :=
  let db := { db with calls := db.calls ++ [RecCall.create rec] }
  match err with
  | some e => (some e, db)
  | none => (none, { db with rows := db.rows ++ [{ rec with ID := db.nextID }],
                              nextID := db.nextID + 1 })

/-- The rows `recommendationRepository.GetByUserID` finds for a user: the rows of
the user that are not soft-deleted, in table order. -/
def RecDb.rowsByUser (db : RecDb) (userID : Nat) : List Recommendation :=
  db.rows.filter fun r => r.UserID = userID ∧ r.Deleted = false

/-! ## Language runtime -/

/-- The `less` function handed to `sort.Slice`: `a` goes before `b` when its
score is greater. -/
def scoreLess (a b : RecommendationResponse) : Prop := a.Score > b.Score

instance : DecidableRel scoreLess :=
  fun (a b : RecommendationResponse) => inferInstanceAs (Decidable (a.Score > b.Score))

/-- What the Go language leaves open in a run and the engine depends on: the
order in which `range` visits the entries of a map (each entry once), and the
arrangement `sort.Slice` produces (a rearrangement of the slice in which no
later element is `less` than an earlier one; equal elements in any order). -/
structure Runtime where
  rangeMap : List (Nat × Float64) → List (Nat × Float64)
  rangeMap_perm : ∀ m, (rangeMap m).Perm m
  sortSlice : List RecommendationResponse → List RecommendationResponse
  sortSlice_perm : ∀ l, (sortSlice l).Perm l
  sortSlice_sorted : ∀ l, (sortSlice l).Pairwise fun a b => ¬ scoreLess b a

/-- The order "score at least as high", by which the reference runtime sorts. -/
def scoreGE (a b : RecommendationResponse) : Prop := b.Score ≤ a.Score

instance : DecidableRel scoreGE :=
  fun (a b : RecommendationResponse) => inferInstanceAs (Decidable (b.Score ≤ a.Score))

/-- A reference runtime: `range` visits the entries in insertion order and
`sort.Slice` is a stable insertion sort. -/
def stdRuntime : Runtime where
  rangeMap := id
  rangeMap_perm := fun m => List.Perm.refl m
  sortSlice := List.insertionSort scoreGE
  sortSlice_perm := fun l => List.perm_insertionSort scoreGE l
  sortSlice_sorted := fun l => by
    haveI : IsTotal RecommendationResponse scoreGE := ⟨fun a b => le_total b.Score a.Score⟩
    haveI : IsTrans RecommendationResponse scoreGE := ⟨fun a b c h1 h2 => le_trans h2 h1⟩
    exact (List.sorted_insertionSort scoreGE l).imp fun h => not_lt.mpr h

/-! ## Spending aggregator and recommendation generator -/

/-- The statement `m[k] += v` on a `map[uint]float64`, the map being the list of
its entries: an absent key starts from the zero value. -/
def mapAdd : List (Nat × Float64) → Nat → Float64 → List (Nat × Float64)
  | [], k, v => [(k, 0 + v)]
  | (k', v') :: rest, k, v =>
    if k' = k then (k', v' + v) :: rest else (k', v') :: mapAdd rest k v

/-- The value stored under key `k`, if any. -/
def mapGet : List (Nat × Float64) → Nat → Option Float64
  | [], _ => none
  | (k', v') :: rest, k => if k' = k then some v' else mapGet rest k

/-- The map `categorySpending` built by the first loop of `GenerateRecommendations`. -/
def categorySpending (spendings : List UserSpending) : List (Nat × Float64) :=
  spendings.foldl (fun m spending => mapAdd m spending.CategoryID spending.Amount) []

/-- The inner loop of `calculateBestCardsForCategory`: the first benefit of the
card whose `CategoryID` is the requested one. -/
def bestBenefit (card : CreditCard) (categoryID : Nat) : Option CardBenefit :=
  card.CardBenefits.find? fun benefit => benefit.CategoryID = categoryID

/-- The body of the card loop of `calculateBestCardsForCategory` for one card:
nothing when the card has no benefit for the category, else its candidate. -/
def cardCandidate (category : Category) (categoryID : Nat) (monthlySpent : Float64)
    (card : CreditCard) : Option RecommendationResponse :=
  match bestBenefit card categoryID with
  | none => none
  | some benefit =>
    let reward := calculateReward monthlySpent benefit
    let annualReward := reward * 12
    let netBenefit := annualReward - card.AnnualFee
    let score := calculateScore netBenefit card.AnnualFee benefit
    let reason := generateReason benefit reward card.AnnualFee
    some { ID := 0, Card := card, Category := category, Score := score,
           EstimatedReward := reward, Reason := reason }

/-- The method `calculateBestCardsForCategory` of `recommendation_service.go`. -/
def calculateBestCardsForCategory (st : Stores) (categoryID : Nat) (monthlySpent : Float64)
    (cards : List CreditCard) : List RecommendationResponse :=
  match st.categoryByID categoryID with
  | .error _ => []
  | .ok category => cards.filterMap (cardCandidate category categoryID monthlySpent)

/-- The second loop of `GenerateRecommendations`: the candidates of every entry of
the spending map, appended in the order `range` visits the entries. -/
def generateCandidates (rt : Runtime) (st : Stores) (spendingMap : List (Nat × Float64))
    (cards : List CreditCard) : List RecommendationResponse :=
  ((rt.rangeMap spendingMap).map fun entry =>
    calculateBestCardsForCategory st entry.1 entry.2 cards).flatten

/-- The row `saveRecommendations` builds from a candidate before inserting it. -/
def newRecommendation (userID : Nat) (r : RecommendationResponse) : Recommendation :=
  { ID := 0, UserID := userID, CategoryID := r.Category.ID, CardID := r.Card.ID,
    Score := r.Score, EstimatedReward := r.EstimatedReward, Reason := r.Reason,
    Deleted := false }

/-- The insert loop of `saveRecommendations`, from loop index `i` on. -/
def saveLoop (f : Faults) (userID : Nat) :
    Nat → List RecommendationResponse → RecDb → Option String × RecDb
  | _, [], db => (none, db)
  | i, r :: rest, db =>
    match db.Create (f.createErr i) (newRecommendation userID r) with
    | (some e, db') => (some e, db')
    | (none, db') => saveLoop f userID (i + 1) rest db'

/-- The method `saveRecommendations` of `recommendation_service.go`. -/
def saveRecommendations (f : Faults) (userID : Nat)
    (recommendations : List RecommendationResponse) (db : RecDb) : Option String × RecDb :=
  match db.DeleteByUserID f.deleteErr userID with
  | (some e, db') => (some e, db')
  | (none, db') =>
    let count := if recommendations.length > 10 then 10 else recommendations.length
    saveLoop f userID 0 (recommendations.take count) db'

/-- The method `GenerateRecommendations` of `recommendation_service.go`: the value
returned to the caller and the table after the call. -/
def GenerateRecommendations (rt : Runtime) (st : Stores) (f : Faults) (userID : Nat)
    (db : RecDb) : Except String (List RecommendationResponse) × RecDb :=
  match st.spendingByUser userID with
  | .error e => (.error ("failed to get user spending: " ++ e), db)
  | .ok spendings =>
    match st.activeCards with
    | .error e => (.error ("failed to get active cards: " ++ e), db)
    | .ok cards =>
      let recommendations := generateCandidates rt st (categorySpending spendings) cards
      let recommendations := rt.sortSlice recommendations
      match saveRecommendations f userID recommendations db with
      | (some e, db') => (.error ("failed to save recommendations: " ++ e), db')
      | (none, db') =>
        (.ok (if recommendations.length > 10 then recommendations.take 10 else recommendations),
         db')

/-! ## The specification's formulas -/

/-- The reward policy in the words of the specification (§4.2), its formulas
taken in exact arithmetic: zero below the minimum spend; effective spend
`min(spend, cap)` when `cap > 0`; first matching unit among cashback, points
(0.01 per point) and miles (0.015 per mile). -/
def specReward (s : Float64) (b : CardBenefit) : ℚ :=
  if s < b.MinSpend then 0
  else
    let e : ℚ := if b.Cap > 0 then min s.val b.Cap.val else s.val
    if b.CashbackRate > 0 then e * b.CashbackRate.val / 100
    else if b.PointsRate > 0 then e * b.PointsRate.val / 100 * 0.01
    else if b.MilesRate > 0 then e * b.MilesRate.val / 100 * 0.015
    else 0

/-- The reward formulas of the specification (§4.2) evaluated in `float64` as they
are written, the product before the division by 100. -/
def specRewardFloat (s : Float64) (b : CardBenefit) : Float64 :=
  if s < b.MinSpend then 0
  else
    let e := if b.Cap > 0 then min s b.Cap else s
    if b.CashbackRate > 0 then e * b.CashbackRate / 100
    else if b.PointsRate > 0 then e * b.PointsRate / 100 * 0.01
    else if b.MilesRate > 0 then e * b.MilesRate / 100 * 0.015
    else 0

/-- The weighting bonus of one unit in the words of the specification (§4.3), in
exact arithmetic: `weight * rate`, added whenever the rate is positive. -/
def specBonus (weight : ℚ) (rate : Float64) : ℚ := if rate > 0 then weight * rate.val else 0

/-- Restriction of `x` to the interval `[lo, hi]`, in exact arithmetic. -/
def clamp (x lo hi : ℚ) : ℚ := max lo (min hi x)

/-- Rounding to two decimal places, in exact arithmetic. -/
def round2 (x : ℚ) : ℚ := roundHalfAway (x * 100) / 100

/-- The composite score in the words of the specification (§4.3), its formula taken
in exact arithmetic. -/
def specScore (netBenefit annualFee : Float64) (b : CardBenefit) : ℚ :=
  round2 (clamp (netBenefit.val + specBonus 10 b.CashbackRate + specBonus 8 b.PointsRate
    + specBonus 12 b.MilesRate - 0.5 * annualFee.val) 0 100)

/-- The weighting bonus of one unit as the code adds it: `rate * weight` in
`float64` on top of the running score when the rate is positive, nothing
otherwise. -/
def addBonus (score rate weight : Float64) : Float64 :=
  if rate > 0 then score + rate * weight else score

/-- The reward formula of the credited unit on an effective spend `e`. -/
def unitReward (e : Float64) (b : CardBenefit) : Float64 :=
  if b.CashbackRate > 0 then e * (b.CashbackRate / 100)
  else if b.PointsRate > 0 then e * (b.PointsRate / 100) * 0.01
  else if b.MilesRate > 0 then e * (b.MilesRate / 100) * 0.015
  else 0

/-- The running `float64` sum of the amounts of the records of category `c`, taken
from zero in record order. -/
def categoryTotal (spendings : List UserSpending) (c : Nat) : Float64 :=
  ((spendings.filter fun s => s.CategoryID = c).map fun s => s.Amount).foldl
    (fun total amount => total + amount) 0

/-- The sum of the amounts of the records of category `c` in exact arithmetic. -/
def exactTotal (spendings : List UserSpending) (c : Nat) : ℚ :=
  ((spendings.filter fun s => s.CategoryID = c).map fun s => s.Amount.val).sum

/-- The ranked list of `GenerateRecommendations`: the candidates after `sort.Slice`. -/
def rankedCandidates (rt : Runtime) (st : Stores) (spendings : List UserSpending)
    (cards : List CreditCard) : List RecommendationResponse :=
  rt.sortSlice (generateCandidates rt st (categorySpending spendings) cards)

/-- The rows the table holds for the candidates `recs` of a user once they have
been inserted in order, the first one receiving the primary key `n`. -/
def storedAs (userID : Nat) : Nat → List RecommendationResponse → List Recommendation
  | _, [] => []
  | n, r :: rest => { newRecommendation userID r with ID := n } :: storedAs userID (n + 1) rest

/-! ## Example data -/

/-- The category Dining. -/
def dining : Category := ⟨1, "Dining", "", ""⟩

/-- The category Groceries. -/
def groceries : Category := ⟨2, "Groceries", "", ""⟩

/-- A Dining rule: 6% cashback, cap 500, no minimum spend. -/
def diningRule : CardBenefit := ⟨1, 1, 1, 6, 0, 0, 500, 0, ""⟩

/-- A Groceries rule: 5% cashback, no cap, no minimum spend. -/
def groceriesRule : CardBenefit := ⟨2, 1, 2, 5, 0, 0, 0, 0, ""⟩

/-- A card without annual fee holding a Dining rule and a Groceries rule. -/
def demoCard : CreditCard := ⟨1, "Everyday", "OCBC", "visa", 0, true, [diningRule, groceriesRule]⟩

/-- Spending of user 1: 600 on Dining and 200 on Groceries. -/
def demoSpendings : List UserSpending := [⟨1, 1, 1, 600, 3, 2024⟩, ⟨2, 1, 2, 200, 3, 2024⟩]

/-- Spending of user 1: a single Dining record of amount 0. -/
def zeroSpendings : List UserSpending := [⟨1, 1, 1, 0, 3, 2024⟩]

/-- The category table holding Dining and Groceries. -/
def demoCategoryByID (c : Nat) : Except String Category :=
  if c = 1 then .ok dining else if c = 2 then .ok groceries else .error "record not found"

/-- Stores in which user 1 has `demoSpendings` and `demoCard` is the only active card. -/
def demoStores : Stores :=
  ⟨fun u => .ok (if u = 1 then demoSpendings else []), .ok [demoCard], demoCategoryByID⟩

/-- Stores in which user 1 has `zeroSpendings` and `demoCard` is the only active card. -/
def zeroStores : Stores :=
  ⟨fun u => .ok (if u = 1 then zeroSpendings else []), .ok [demoCard], demoCategoryByID⟩

/-- A run in which every write succeeds. -/
def noFaults : Faults := ⟨none, fun _ => none⟩

/-- A run in which the second insert (loop index 1) fails. -/
def secondInsertFails : Faults := ⟨none, fun i => if i = 1 then some "connection lost" else none⟩

/-- A table in which user 1 has one stored recommendation and user 2 another. -/
def demoDb : RecDb :=
  ⟨[⟨1, 1, 2, 7, 55, 4, "old", false⟩, ⟨2, 2, 1, 7, 40, 3, "other", false⟩], 3, []⟩

/-- The string `s` contains the string `clause`. -/
def containsStr (s clause : String) : Prop := ∃ pre post : String, s = pre ++ clause ++ post

/-- A Dining rule with two rates set: 6% cashback and 2 miles, no cap. -/
def cashbackMilesRule : CardBenefit := ⟨3, 1, 1, 6, 0, 2, 0, 0, ""⟩

/-- A Dining rule with two rates set: 6% cashback and 3 points, no cap. -/
def cashbackPointsRule : CardBenefit := ⟨4, 1, 1, 6, 3, 0, 0, 0, ""⟩

/-- The opening of the reason string: the unit clause that is left after the
three assignments of `generateReason`. -/
def reasonUnit (b : CardBenefit) : String :=
  if b.MilesRate > 0 then "Earn " ++ fmtFixed 1 b.MilesRate ++ "x miles "
  else if b.PointsRate > 0 then "Earn " ++ fmtFixed 1 b.PointsRate ++ "x points "
  else "Earn " ++ fmtFixed 2 b.CashbackRate ++ "% "

/-- A card without annual fee whose only rule is the Dining rule. -/
def diningOnlyCard : CreditCard := ⟨1, "Everyday", "OCBC", "visa", 0, true, [diningRule]⟩

/-- Spending of user 1: a single record, 600 on Dining. -/
def diningSpendings : List UserSpending := [⟨1, 1, 1, 600, 3, 2024⟩]

/-- Stores in which user 1 has `diningSpendings` and `diningOnlyCard` is the only
active card. -/
def diningStores : Stores :=
  ⟨fun u => .ok (if u = 1 then diningSpendings else []), .ok [diningOnlyCard], demoCategoryByID⟩

/-- The candidate of the Dining scenario. -/
def diningCandidate : RecommendationResponse :=
  { ID := 0, Card := diningOnlyCard, Category := dining, Score := 100, EstimatedReward := 30,
    Reason := "Earn 6.00% on this category. Expected monthly reward: $30.00, Net annual benefit: $360.00" }

/-- Stores whose spending query fails. -/
def spendingDown : Stores :=
  ⟨fun _ => .error "connection refused", .ok [demoCard], demoCategoryByID⟩

/-- Stores whose card catalog query fails. -/
def cardsDown : Stores :=
  ⟨fun u => .ok (if u = 1 then demoSpendings else []), .error "connection refused",
   demoCategoryByID⟩

/-- Stores like `demoStores` in which the lookup of the Dining category fails. -/
def diningLookupDown : Stores :=
  ⟨fun u => .ok (if u = 1 then demoSpendings else []), .ok [demoCard],
   fun c => if c = 2 then .ok groceries else .error "record not found"⟩

/-- A run in which `DeleteByUserID` fails. -/
def deleteFails : Faults := ⟨some "connection lost", fun _ => none⟩

/-- The tuple (cardID, categoryID, score, estimatedReward) of a stored row. -/
def recTuple (r : Recommendation) : Nat × Nat × Float64 × Float64 :=
  (r.CardID, r.CategoryID, r.Score, r.EstimatedReward)

/-- The tuples of the rows stored for a user. -/
def storedTuples (db : RecDb) (userID : Nat) : List (Nat × Nat × Float64 × Float64) :=
  (db.rowsByUser userID).map recTuple

/-- The tuple (cardID, categoryID, score, estimatedReward) of a candidate. -/
def candidateTuple (r : RecommendationResponse) : Nat × Nat × Float64 × Float64 :=
  (r.Card.ID, r.Category.ID, r.Score, r.EstimatedReward)

/-- The effect on the table of one write call that succeeds. -/
def applyCall (db : RecDb) (call : RecCall) : RecDb :=
  match call with
  | .deleteByUserID userID => (db.DeleteByUserID none userID).2
  | .create rec => (db.Create none rec).2

/-- The table after a sequence of write calls that all succeed, the calls being
executed one at a time in order. -/
def runCalls (calls : List RecCall) (db : RecDb) : RecDb := calls.foldl applyCall db

/-- The insert calls of one run of `saveRecommendations`, in the order it issues
them. -/
def createCalls (userID : Nat) (recommendations : List RecommendationResponse) : List RecCall :=
  (recommendations.take 10).map fun r => RecCall.create (newRecommendation userID r)

/-- The write calls of one run of `saveRecommendations`, in the order it issues
them: the delete, then one insert per candidate kept. -/
def replaceCalls (userID : Nat) (recommendations : List RecommendationResponse) : List RecCall :=
  RecCall.deleteByUserID userID :: createCalls userID recommendations

/-- An interleaving of the calls of two runs: each run keeps its own order, and
the schedule says whose call the store executes next (`true` for the first run);
when the schedule or one run is exhausted the remaining calls follow. -/
def interleave : List Bool → List RecCall → List RecCall → List RecCall
  | _, [], callsB => callsB
  | _, callsA, [] => callsA
  | [], callsA, callsB => callsA ++ callsB
  | true :: schedule, a :: callsA, callsB => a :: interleave schedule callsA callsB
  | false :: schedule, callsA, b :: callsB => b :: interleave schedule callsA callsB

/-- The tuple of the row an insert call adds; a delete call adds none. -/
def callTuple : RecCall → Option (Nat × Nat × Float64 × Float64)
  | .create rec => some (recTuple rec)
  | .deleteByUserID _ => none

/-- The ranked candidates of user 1 in `demoStores`, the Dining one first. -/
def demoRanked : List RecommendationResponse :=
  [{ ID := 0, Card := demoCard, Category := dining, Score := 100, EstimatedReward := 30,
     Reason := "Earn 6.00% on this category. Expected monthly reward: $30.00, Net annual benefit: $360.00" },
   { ID := 0, Card := demoCard, Category := groceries, Score := 100, EstimatedReward := 10,
     Reason := "Earn 5.00% on this category. Expected monthly reward: $10.00, Net annual benefit: $120.00" }]

/-- The ranked candidates of user 1 in `zeroStores`: the Dining candidate of a
spend of zero. -/
def zeroRanked : List RecommendationResponse :=
  [{ ID := 0, Card := demoCard, Category := dining, Score := 60, EstimatedReward := 0,
     Reason := "Earn 6.00% on this category. Expected monthly reward: $0.00, Net annual benefit: $0.00" }]

/-- A Dining rule with 7% cashback, no cap and no minimum spend. -/
def sevenPercentRule : CardBenefit := ⟨7, 1, 1, 7, 0, 0, 0, 0, ""⟩

/-- A Dining rule with 7% cashback, cap 100 and no minimum spend. -/
def sevenPercentCapRule : CardBenefit := ⟨8, 1, 1, 7, 0, 0, 100, 0, ""⟩

/-- A Dining rule with 1% cashback, no cap and no minimum spend. -/
def onePercentRule : CardBenefit := ⟨9, 1, 1, 1, 0, 0, 0, 0, ""⟩

/-- Spending of user 1: two Dining records, of amounts 2^53 and 1. -/
def largeSpendings : List UserSpending :=
  [⟨1, 1, 1, 9007199254740992, 3, 2024⟩, ⟨2, 1, 1, 1, 3, 2024⟩]

/-- A runtime that differs from the reference one in the order of `range` only:
the entries of a map are visited in reverse insertion order. -/
def revRangeRuntime : Runtime :=
  { stdRuntime with
    rangeMap := List.reverse
    rangeMap_perm := fun m => List.reverse_perm m }

/-- Six active cards, each holding the Dining rule and the Groceries rule. -/
def sixCards : List CreditCard :=
  [1, 2, 3, 4, 5, 6].map fun i =>
    ⟨i, "Everyday", "OCBC", "visa", 0, true, [diningRule, groceriesRule]⟩

/-- Stores in which user 1 has `demoSpendings` and the active cards are `sixCards`:
twelve candidates, all of score 100. -/
def tieStores : Stores :=
  ⟨fun u => .ok (if u = 1 then demoSpendings else []), .ok sixCards, demoCategoryByID⟩

/-- A Dining rule with 10% cashback and a minimum spend of 500. -/
def thresholdRule : CardBenefit := ⟨5, 2, 1, 10, 0, 0, 0, 500, ""⟩

/-- A card without annual fee whose only rule is `thresholdRule`. -/
def thresholdCard : CreditCard := ⟨2, "Premier", "DBS", "visa", 0, true, [thresholdRule]⟩

/-- A second Dining rule, 1% cashback, placed after the first one on a card. -/
def laterDiningRule : CardBenefit := ⟨6, 3, 1, 1, 0, 0, 0, 0, ""⟩

/-- A card without annual fee holding two Dining rules. -/
def twoRuleCard : CreditCard :=
  ⟨3, "Duo", "DBS", "visa", 0, true, [diningRule, laterDiningRule]⟩

/-- Spending of user 1 with two Dining records in different months and years and
one Groceries record. -/
def repeatedSpendings : List UserSpending :=
  [⟨1, 1, 1, 600, 3, 2024⟩, ⟨2, 1, 2, 200, 3, 2024⟩, ⟨3, 1, 1, 150, 11, 2023⟩]

/-! ## Recommendation reader -/

/-- A `models.Recommendation` as `recommendationRepository.GetByUserID` returns it:
the row with its `Category` and `Card` relationships preloaded. -/
structure PreloadedRecommendation where
  row : Recommendation
  Category : Category
  Card : CreditCard
  deriving DecidableEq, Repr

/-- The tables `Preload` reads: the category and the card stored under a primary
key (the zero value when there is none). -/
structure Catalog where
  categoryOf : Nat → Category
  cardOf : Nat → CreditCard

/-- The method `recommendationRepository.GetByUserID`: on error `err`, else the
visible rows of the user in table order, each with its category and card. -/
def RecDb.GetByUserID (err : Option String) (cat : Catalog) (userID : Nat) (db : RecDb) :
    Except String (List PreloadedRecommendation) :=
  match err with
  | some e => .error e
  | none => .ok ((db.rowsByUser userID).map fun r =>
      { row := r, Category := cat.categoryOf r.CategoryID, Card := cat.cardOf r.CardID })

/-- The method `GetRecommendationsByUser` of `recommendation_service.go`: the value
returned to the caller and the table after the call. -/
def GetRecommendationsByUser (err : Option String) (cat : Catalog) (userID : Nat) (db : RecDb) :
    Except String (List RecommendationResponse) × RecDb :=
  match db.GetByUserID err cat userID with
  | .error e => (.error e, db)
  | .ok recs =>
    (.ok (recs.map fun rec =>
      { ID := rec.row.ID, Card := rec.Card, Category := rec.Category, Score := rec.row.Score,
        EstimatedReward := rec.row.EstimatedReward, Reason := rec.row.Reason }), db)

/-- A catalog holding Dining, Groceries and `demoCard`. -/
def demoCatalog : Catalog :=
  ⟨fun c => if c = 1 then dining else if c = 2 then groceries else ⟨0, "", "", ""⟩,
   fun k => if k = 1 then demoCard else ⟨0, "", "", "", 0, false, []⟩⟩

/-! ## Benefit patterns of scraped cards (`scraping_service.go`) -/

/-- The helper type `ScrapedCard`. -/
structure ScrapedCard where
  Name : String
  Bank : String
  AnnualFee : Float64
  CashbackRate : Float64
  MinIncome : Float64
  Description : String
  Source : String
  deriving DecidableEq, Repr

/-- The helper type `BenefitPattern`. -/
structure BenefitPattern where
  Rate : Float64
  Points : Float64
  Cap : Float64
  MinSpend : Float64
  deriving DecidableEq, Repr

/-- Whether the characters `s` begin with the characters `sub`. -/
def startsWithChars : List Char → List Char → Bool
  | _, [] => true
  | [], _ :: _ => false
  | c :: s, d :: sub => c == d && startsWithChars s sub

/-- Whether the characters `sub` occur consecutively in the characters `s`. -/
def containsChars : List Char → List Char → Bool
  | [], sub => sub.isEmpty
  | c :: s, sub => startsWithChars (c :: s) sub || containsChars s sub

/-- Go `strings.Contains`. -/
def stringsContains (s sub : String) : Bool := containsChars s.data sub.data

/-- Go `strings.ToLower` on a string of ASCII characters only: the letters `A` to
`Z` become `a` to `z`, every other character is kept. (On other strings
`strings.ToLower` follows the Unicode case tables, which are not reproduced;
`getBenefitPatterns` below takes the lowering function as a parameter.) -/
def asciiToLower (s : String) : String := String.mk (s.data.map Char.toLower)

/-- The statement `patterns[k] = v` on a `map[string]BenefitPattern`, the map being
the list of its entries. -/
def patternSet : List (String × BenefitPattern) → String → BenefitPattern →
    List (String × BenefitPattern)
  | [], k, v => [(k, v)]
  | (k', v') :: rest, k, v =>
    if k' = k then (k', v) :: rest else (k', v') :: patternSet rest k v

/-- The value stored under key `k`, if any. -/
def patternGet : List (String × BenefitPattern) → String → Option BenefitPattern
  | [], _ => none
  | (k', v') :: rest, k => if k' = k then some v' else patternGet rest k

/-- A sequence of assignments `patterns[k] = v`, carried out in order. -/
def assignAll (m : List (String × BenefitPattern)) (l : List (String × BenefitPattern)) :
    List (String × BenefitPattern) :=
  l.foldl (fun m e => patternSet m e.1 e.2) m

/-- The variable `baseRate` of `getBenefitPatterns`. -/
def patternBaseRate (cardData : ScrapedCard) : Float64 :=
  if cardData.CashbackRate > 0 then cardData.CashbackRate else 1.0

/-- The assignments of the first `switch` of `getBenefitPatterns`, on the card
name; `toLower` is `strings.ToLower`. -/
def namePatterns (toLower : String → String) (cardData : ScrapedCard) (baseRate : Float64) :
    List (String × BenefitPattern) :=
  if stringsContains (toLower cardData.Name) "dining" then
    [("Dining", ⟨baseRate * 3, 0, 2000, 0⟩), ("Groceries", ⟨baseRate * 1.5, 0, 1500, 0⟩)]
  else if stringsContains (toLower cardData.Name) "travel" ||
      stringsContains (toLower cardData.Name) "miles" then
    [("Travel", ⟨0, 2.0, 0, 0⟩), ("Transport", ⟨0, 2.0, 1000, 0⟩), ("Online", ⟨0, 2.0, 2000, 0⟩)]
  else if stringsContains (toLower cardData.Name) "cashback" then
    [("Dining", ⟨baseRate * 2, 0, 1500, 0⟩), ("Groceries", ⟨baseRate * 2, 0, 1500, 0⟩),
     ("Online", ⟨baseRate * 2, 0, 2000, 0⟩)]
  else []

/-- The assignments of the second `switch` of `getBenefitPatterns`, on the bank. -/
def bankPatterns (cardData : ScrapedCard) : List (String × BenefitPattern) :=
  if cardData.Bank = "OCBC" then
    [("Dining", ⟨6.0, 0, 2000, 0⟩), ("Groceries", ⟨3.0, 0, 2000, 0⟩), ("Petrol", ⟨6.0, 0, 1000, 0⟩)]
  else if cardData.Bank = "HSBC" then
    [("Online", ⟨4.0, 0, 2500, 0⟩), ("Dining", ⟨4.0, 0, 2000, 0⟩), ("Groceries", ⟨4.0, 0, 2000, 0⟩)]
  else if cardData.Bank = "UOB" then
    [("Online", ⟨5.0, 0, 2000, 500⟩), ("Dining", ⟨5.0, 0, 2000, 500⟩)]
  else if cardData.Bank = "Maybank" then
    [("Dining", ⟨5.0, 0, 1500, 0⟩), ("Groceries", ⟨5.0, 0, 1500, 0⟩), ("Petrol", ⟨8.0, 0, 1000, 0⟩)]
  else []

/-- The slice `allCategories` of `getBenefitPatterns`. -/
def allCategories : List String :=
  ["Dining", "Groceries", "Petrol", "Shopping", "Transport", "Travel", "Entertainment",
   "Healthcare", "Bills", "Online"]

/-- The last loop of `getBenefitPatterns`: a category without entry gets the base
rate. -/
def fillPatterns (baseRate : Float64) (m : List (String × BenefitPattern)) :
    List (String × BenefitPattern) :=
  allCategories.foldl
    (fun m category =>
      if (patternGet m category).isSome then m
      else patternSet m category ⟨baseRate, 0, 1000, 0⟩) m

/-- The method `getBenefitPatterns` of `scraping_service.go`; `toLower` is the
library function `strings.ToLower`. -/
def getBenefitPatterns (toLower : String → String) (cardData : ScrapedCard) :
    List (String × BenefitPattern) :=
  let patterns : List (String × BenefitPattern) := []
  let baseRate := patternBaseRate cardData
  let patterns := assignAll patterns (namePatterns toLower cardData baseRate)
  let patterns := assignAll patterns (bankPatterns cardData)
  fillPatterns baseRate patterns

/-- A scraped HSBC card whose name contains "Dining", with a cashback rate of 2:
the card-name pattern sets Dining to rate 6, the bank pattern sets it to rate 4. -/
def hsbcDiningCard : ScrapedCard := ⟨"HSBC Dining Card", "HSBC", 0, 2, 30000, "", "SingSaver"⟩

/-- A scraped card of a bank without pattern whose name contains "Miles", without
cashback rate. -/
def citiMilesCard : ScrapedCard := ⟨"Citi PremierMiles", "Citibank", 0, 0, 30000, "", "SingSaver"⟩

/-! ## Binary64 arithmetic: theorems -/

/-- Rounding leaves a natural number as it is. -/
theorem roundHalfEven_natCast (n : Nat) : roundHalfEven (n : ℚ) = n := by
  unfold roundHalfEven
  simp

/-- Rounding to the nearest natural number is monotone. -/
theorem roundHalfEven_mono {x y : ℚ} (h : x ≤ y) :
    roundHalfEven x ≤ roundHalfEven y := by
  have hle : ⌊x⌋.toNat ≤ ⌊y⌋.toNat := Int.toNat_le_toNat (Int.floor_mono h)
  rcases Nat.lt_or_eq_of_le hle with hlt | heq
  · have h1 : roundHalfEven x ≤ ⌊x⌋.toNat + 1 := by
      unfold roundHalfEven
      simp only
      split_ifs <;> omega
    have h2 : ⌊y⌋.toNat ≤ roundHalfEven y := by
      unfold roundHalfEven
      simp only
      split_ifs <;> omega
    omega
  · unfold roundHalfEven
    simp only
    rw [← heq]
    split_ifs <;> first | omega | (exfalso; linarith)

/-- With enough fuel the halving count of a positive number is its binary logarithm. -/
theorem log2Fuel_spec : ∀ (fuel n : Nat), 0 < n → n ≤ fuel →
    2 ^ log2Fuel fuel n ≤ n ∧ n < 2 ^ (log2Fuel fuel n + 1)
  | 0, n, h0, h => by omega
  | fuel + 1, n, h0, h => by
    unfold log2Fuel
    split_ifs with h2
    · simp
      omega
    · have ih := log2Fuel_spec fuel (n / 2) (by omega) (by omega)
      rw [pow_succ, pow_succ 2 (log2Fuel fuel (n / 2) + 1)]
      omega

/-- The binary logarithm of a positive number `n`: `2^k ≤ n < 2^(k+1)`. -/
theorem ilog2_spec {n : Nat} (h : 0 < n) : 2 ^ ilog2 n ≤ n ∧ n < 2 ^ (ilog2 n + 1) :=
  log2Fuel_spec n n h le_rfl

/-- The function `pow2` is the power of two. -/
theorem pow2_eq (k : ℤ) : pow2 k = (2 : ℚ) ^ k := by
  unfold pow2
  split_ifs with h
  · lift k to ℕ using h
    simp
  · obtain ⟨n, rfl⟩ := Int.exists_eq_neg_ofNat (le_of_lt (not_le.mp h))
    simp [zpow_neg]

/-- The binade of a positive rational `a`: `2^k ≤ a < 2^(k+1)`. -/
theorem binade_spec {a : ℚ} (ha : 0 < a) :
    (2 : ℚ) ^ binade a ≤ a ∧ a < (2 : ℚ) ^ (binade a + 1) := by
  have hnum : 0 < a.num := Rat.num_pos.mpr ha
  have hN : 0 < a.num.toNat := by omega
  have hD : 0 < a.den := a.den_pos
  obtain ⟨hp1, hp2⟩ := ilog2_spec hN
  obtain ⟨hq1, hq2⟩ := ilog2_spec hD
  have hNq : ((a.num.toNat : ℕ) : ℚ) = (a.num : ℚ) := by
    have : ((a.num.toNat : ℕ) : ℤ) = a.num := Int.toNat_of_nonneg hnum.le
    exact_mod_cast congrArg (Int.cast : ℤ → ℚ) this
  have ha_eq : a = (a.num.toNat : ℚ) / (a.den : ℚ) := by
    rw [hNq]
    exact (Rat.num_div_den a).symm
  set N := a.num.toNat with hNdef
  set D := a.den with hDdef
  set p := ilog2 N with hpdef
  set q := ilog2 D with hqdef
  have hDq : (0 : ℚ) < (D : ℚ) := by exact_mod_cast hD
  have hp1q : (2 : ℚ) ^ p ≤ N := by exact_mod_cast hp1
  have hp2q : (N : ℚ) < 2 ^ (p + 1) := by exact_mod_cast hp2
  have hq1q : (2 : ℚ) ^ q ≤ D := by exact_mod_cast hq1
  have hq2q : (D : ℚ) < 2 ^ (q + 1) := by exact_mod_cast hq2
  have h2q : (0 : ℚ) < 2 ^ q := by positivity
  have hup : a < (2 : ℚ) ^ ((p : ℤ) - (q : ℤ) + 1) := by
    have e : (2 : ℚ) ^ ((p : ℤ) - (q : ℤ) + 1) = 2 ^ (p + 1) / 2 ^ q := by
      rw [show (p : ℤ) - (q : ℤ) + 1 = ((p + 1 : ℕ) : ℤ) - ((q : ℕ) : ℤ) by push_cast; ring,
        zpow_sub₀ (two_ne_zero), zpow_natCast, zpow_natCast]
    rw [e, ha_eq, div_lt_div_iff₀ hDq h2q]
    calc (N : ℚ) * 2 ^ q ≤ N * D := by gcongr
      _ < 2 ^ (p + 1) * D := by gcongr
  have hlo : (2 : ℚ) ^ ((p : ℤ) - (q : ℤ) - 1) < a := by
    have e : (2 : ℚ) ^ ((p : ℤ) - (q : ℤ) - 1) = 2 ^ p / 2 ^ (q + 1) := by
      rw [show (p : ℤ) - (q : ℤ) - 1 = ((p : ℕ) : ℤ) - ((q + 1 : ℕ) : ℤ) by push_cast; ring,
        zpow_sub₀ (two_ne_zero), zpow_natCast, zpow_natCast]
    have h2q1 : (0 : ℚ) < 2 ^ (q + 1) := by positivity
    have hNpos : (0 : ℚ) < N := by exact_mod_cast hN
    rw [e, ha_eq, div_lt_div_iff₀ h2q1 hDq]
    calc (2 : ℚ) ^ p * D < 2 ^ p * 2 ^ (q + 1) := by gcongr
      _ ≤ N * 2 ^ (q + 1) := by gcongr
  unfold binade
  simp only [← hNdef, ← hDdef, ← hpdef, ← hqdef, pow2_eq]
  split_ifs with hk
  · exact ⟨hk, hup⟩
  · refine ⟨hlo.le, ?_⟩
    rw [sub_add_cancel]
    exact not_le.mp hk

/-- The binade is monotone on the positive rationals. -/
theorem binade_mono {a b : ℚ} (ha : 0 < a) (h : a ≤ b) : binade a ≤ binade b := by
  by_contra hlt
  have hlt : binade b + 1 ≤ binade a := by omega
  have h1 := (binade_spec ha).1
  have h2 := (binade_spec (lt_of_lt_of_le ha h)).2
  have h3 : (2 : ℚ) ^ (binade b + 1) ≤ 2 ^ binade a := zpow_le_zpow_right₀ (by norm_num) hlt
  linarith

/-- The spacing around `a` as a power of two. -/
theorem ulp_eq (a : ℚ) : ulp a = (2 : ℚ) ^ (max (binade a) (-1022) - 52) := by
  unfold ulp
  rw [pow2_eq]

/-- The spacing is positive. -/
theorem ulp_pos (a : ℚ) : 0 < ulp a := by
  rw [ulp_eq]
  positivity

/-- Rounding a magnitude gives a non-negative value. -/
theorem rndPos_nonneg (a : ℚ) : 0 ≤ rndPos a := by
  unfold rndPos
  split_ifs
  · exact le_rfl
  · exact mul_nonneg (Nat.cast_nonneg _) (ulp_pos a).le

/-- Rounding of magnitudes is monotone: within one binade by the monotonicity of
the nearest natural number, across binades because the power of two between the
two arguments is itself a rounded value. -/
theorem rndPos_mono {a b : ℚ} (ha : 0 ≤ a) (h : a ≤ b) : rndPos a ≤ rndPos b := by
  rcases eq_or_lt_of_le ha with h0 | hpos
  · rw [← h0]
    simpa [rndPos] using rndPos_nonneg b
  have hbpos : 0 < b := lt_of_lt_of_le hpos h
  have hbin := binade_mono hpos h
  unfold rndPos
  rw [if_neg hpos.ne', if_neg hbpos.ne']
  have hua := ulp_pos a
  have hub := ulp_pos b
  rcases eq_or_lt_of_le (max_le_max_right (-1022) hbin) with he | he
  · have hu : ulp a = ulp b := by rw [ulp_eq, ulp_eq, he]
    rw [hu]
    have : roundHalfEven (a / ulp b) ≤ roundHalfEven (b / ulp b) :=
      roundHalfEven_mono (div_le_div_of_nonneg_right h hub.le)
    have hc : ((roundHalfEven (a / ulp b) : ℕ) : ℚ) ≤ (roundHalfEven (b / ulp b) : ℕ) := by
      exact_mod_cast this
    exact mul_le_mul_of_nonneg_right hc hub.le
  · set ea := max (binade a) (-1022) with hea
    set eb := max (binade b) (-1022) with heb
    have hebb : eb = binade b := by
      rcases le_total (binade b) (-1022) with hb | hb
      · exfalso
        have : eb = -1022 := max_eq_right hb
        have : -1022 ≤ ea := le_max_right _ _
        omega
      · exact max_eq_left hb
    have hA : a < (2 : ℚ) ^ (ea + 1) :=
      lt_of_lt_of_le (binade_spec hpos).2
        (zpow_le_zpow_right₀ (by norm_num) (by have := le_max_left (binade a) (-1022); omega))
    have hB : (2 : ℚ) ^ eb ≤ b := by
      rw [hebb]
      exact (binade_spec hbpos).1
    have hAB : (2 : ℚ) ^ (ea + 1) ≤ 2 ^ eb := zpow_le_zpow_right₀ (by norm_num) (by omega)
    have hua_eq : ulp a = (2 : ℚ) ^ (ea - 52) := ulp_eq a
    have hub_eq : ulp b = (2 : ℚ) ^ (eb - 52) := ulp_eq b
    have h1 : a / ulp a ≤ ((2 ^ 53 : ℕ) : ℚ) := by
      rw [div_le_iff₀ hua, hua_eq]
      have : ((2 ^ 53 : ℕ) : ℚ) * 2 ^ (ea - 52) = 2 ^ (ea + 1) := by
        rw [show ea + 1 = (53 : ℤ) + (ea - 52) by ring, zpow_add₀ (two_ne_zero)]
        norm_num
      rw [this]
      exact hA.le
    have h2 : ((2 ^ 52 : ℕ) : ℚ) ≤ b / ulp b := by
      rw [le_div_iff₀ hub, hub_eq]
      have : ((2 ^ 52 : ℕ) : ℚ) * 2 ^ (eb - 52) = 2 ^ eb := by
        rw [show eb = (52 : ℤ) + (eb - 52) by ring, zpow_add₀ (two_ne_zero)]
        norm_num
      rw [this]
      exact hB
    have r1 : roundHalfEven (a / ulp a) ≤ 2 ^ 53 := by
      have := roundHalfEven_mono h1
      rwa [roundHalfEven_natCast] at this
    have r2 : 2 ^ 52 ≤ roundHalfEven (b / ulp b) := by
      have := roundHalfEven_mono h2
      rwa [roundHalfEven_natCast] at this
    have c1 : ((roundHalfEven (a / ulp a) : ℕ) : ℚ) * ulp a ≤ 2 ^ (ea + 1) := by
      have : ((roundHalfEven (a / ulp a) : ℕ) : ℚ) ≤ ((2 ^ 53 : ℕ) : ℚ) := by exact_mod_cast r1
      calc ((roundHalfEven (a / ulp a) : ℕ) : ℚ) * ulp a ≤ ((2 ^ 53 : ℕ) : ℚ) * ulp a :=
            mul_le_mul_of_nonneg_right this hua.le
        _ = 2 ^ (ea + 1) := by
            rw [hua_eq, show ea + 1 = (53 : ℤ) + (ea - 52) by ring, zpow_add₀ (two_ne_zero)]
            norm_num
    have c2 : (2 : ℚ) ^ eb ≤ ((roundHalfEven (b / ulp b) : ℕ) : ℚ) * ulp b := by
      have : ((2 ^ 52 : ℕ) : ℚ) ≤ ((roundHalfEven (b / ulp b) : ℕ) : ℚ) := by exact_mod_cast r2
      calc (2 : ℚ) ^ eb = ((2 ^ 52 : ℕ) : ℚ) * ulp b := by
            rw [hub_eq]
            nth_rewrite 1 [show eb = (52 : ℤ) + (eb - 52) by ring]
            rw [zpow_add₀ (two_ne_zero)]
            norm_num
        _ ≤ ((roundHalfEven (b / ulp b) : ℕ) : ℚ) * ulp b :=
            mul_le_mul_of_nonneg_right this hub.le
    linarith

/-- Zero is rounded to zero. -/
theorem rnd64_zero : rnd64 0 = 0 := by
  simp [rnd64, rndPos]

/-- Rounding to the nearest binary64 value is monotone. -/
theorem rnd64_mono {x y : ℚ} (h : x ≤ y) : rnd64 x ≤ rnd64 y := by
  unfold rnd64
  split_ifs with hx hy hy
  · exact neg_le_neg (rndPos_mono (by linarith) (by linarith))
  · have := rndPos_nonneg (-x)
    have := rndPos_nonneg y
    linarith
  · exfalso
    linarith
  · exact rndPos_mono (not_lt.mp hx) h

/-- A non-negative rational is rounded to a non-negative value. -/
theorem rnd64_nonneg {x : ℚ} (h : 0 ≤ x) : 0 ≤ rnd64 x := by
  have := rnd64_mono h
  rwa [rnd64_zero] at this

/-- The order of `Float64` is that of the denoted rationals. -/
theorem Float64.le_def {a b : Float64} : a ≤ b ↔ a.val ≤ b.val := Iff.rfl

/-- The literal `0` denotes zero. -/
theorem Float64.val_zero : (0 : Float64).val = 0 := by decide!

/-- The literal `100` denotes one hundred. -/
theorem Float64.val_hundred : (100 : Float64).val = 100 := by decide!

/-- Non-negativity in `Float64` is that of the denoted rational. -/
theorem Float64.zero_le_iff {a : Float64} : 0 ≤ a ↔ 0 ≤ a.val := by
  rw [Float64.le_def, Float64.val_zero]

/-- The `float64` sum is monotone in both operands. -/
theorem fadd_le_fadd {a b c d : Float64} (h1 : a ≤ c) (h2 : b ≤ d) : a + b ≤ c + d :=
  rnd64_mono (add_le_add h1 h2)

/-- The `float64` difference is monotone in the first operand and antitone in the
second. -/
theorem fsub_le_fsub {a b c d : Float64} (h1 : a ≤ c) (h2 : d ≤ b) : a - b ≤ c - d :=
  rnd64_mono (sub_le_sub h1 h2)

/-- The `float64` product is monotone in its first factor when the second is
non-negative. -/
theorem fmul_le_fmul_right {a b c : Float64} (h : a ≤ b) (hc : 0 ≤ c) : a * c ≤ b * c :=
  rnd64_mono (mul_le_mul_of_nonneg_right h (Float64.zero_le_iff.mp hc))

/-- The `float64` product is monotone in its second factor when the first is
non-negative. -/
theorem fmul_le_fmul_left {a b c : Float64} (h : a ≤ b) (hc : 0 ≤ c) : c * a ≤ c * b :=
  rnd64_mono (mul_le_mul_of_nonneg_left h (Float64.zero_le_iff.mp hc))

/-- The `float64` quotient by a non-negative divisor is monotone in the dividend. -/
theorem fdiv_le_fdiv_right {a b c : Float64} (h : a ≤ b) (hc : 0 ≤ c) : a / c ≤ b / c :=
  rnd64_mono (div_le_div_of_nonneg_right h (Float64.zero_le_iff.mp hc))

/-- The `float64` product of non-negative values is non-negative. -/
theorem fmul_nonneg {a b : Float64} (ha : 0 ≤ a) (hb : 0 ≤ b) : 0 ≤ a * b :=
  Float64.zero_le_iff.mpr
    (rnd64_nonneg (mul_nonneg (Float64.zero_le_iff.mp ha) (Float64.zero_le_iff.mp hb)))

/-- The `float64` quotient of non-negative values is non-negative. -/
theorem fdiv_nonneg {a b : Float64} (ha : 0 ≤ a) (hb : 0 ≤ b) : 0 ≤ a / b :=
  Float64.zero_le_iff.mpr
    (rnd64_nonneg (div_nonneg (Float64.zero_le_iff.mp ha) (Float64.zero_le_iff.mp hb)))

/-- The `float64` product is commutative. -/
theorem fmul_comm (a b : Float64) : a * b = b * a :=
  congrArg Float64.mk (congrArg rnd64 (mul_comm a.val b.val))

/-- Zero times any value is zero. -/
theorem fzero_mul (a : Float64) : 0 * a = 0 := by
  show (⟨rnd64 ((0 : Float64).val * a.val)⟩ : Float64) = 0
  rw [Float64.val_zero, zero_mul, rnd64_zero]
  rfl

/-- Zero minus a value is its negation. -/
theorem fzero_sub (a : Float64) : 0 - a = -a := by
  show (⟨rnd64 ((0 : Float64).val - a.val)⟩ : Float64) = ⟨rnd64 (-a.val)⟩
  rw [Float64.val_zero, zero_sub]
/-! ## Reward calculator: theorems -/

/-- The effective spend is what `calculateReward` credits once the minimum spend
is met. -/
theorem calculateReward_of_min_met (s : Float64) (b : CardBenefit) (h : ¬ s < b.MinSpend) :
    calculateReward s b =
      unitReward (if b.Cap > 0 ∧ s > b.Cap then b.Cap else s) b := by
  simp only [calculateReward, unitReward, h, if_false]

/-- C1, as stated, fails: on the rule "7% cashback" a spend of 100 earns
`100 * (7 / 100)` in `float64`, which is `7 + 2^-50` (printed 7.000000000000001),
while the formula `e * CashbackRate / 100` of the specification gives 7, in exact
arithmetic and in `float64` alike. -/
theorem calculateReward_rounding_counterexample :
    ¬ (100 : Float64) < sevenPercentRule.MinSpend ∧ ¬ sevenPercentRule.Cap > 0 ∧
    sevenPercentRule.CashbackRate > 0 ∧
    calculateReward 100 sevenPercentRule = ⟨7 + 1 / 2 ^ 50⟩ ∧
    specReward 100 sevenPercentRule = 7 ∧
    specRewardFloat 100 sevenPercentRule = 7 ∧
    (calculateReward 100 sevenPercentRule).val ≠ specReward 100 sevenPercentRule ∧
    calculateReward 100 sevenPercentRule ≠ specRewardFloat 100 sevenPercentRule := by
  decide!

/-- C1, amended: `calculateReward` is zero below the minimum spend; from the
minimum spend on, with the effective spend `e = min(s, Cap)` when `Cap > 0` and
`e = s` otherwise, it is the `float64` value of `e * (CashbackRate / 100)` if
`CashbackRate > 0`, else of `e * (PointsRate / 100) * 0.01` if `PointsRate > 0`,
else of `e * (MilesRate / 100) * 0.015` if `MilesRate > 0`, else zero, the rate
being divided by 100 first and every operation rounded. Only one unit is
credited: with a positive cashback rate the result does not depend on the points
and miles rates, and with no positive cashback rate and a positive points rate it
does not depend on the miles rate. -/
theorem calculateReward_policy (s : Float64) (b : CardBenefit) :
    calculateReward s b =
      (if s < b.MinSpend then 0
       else unitReward (if b.Cap > 0 then min s b.Cap else s) b) ∧
    (b.CashbackRate > 0 → ∀ p m : Float64,
      calculateReward s { b with PointsRate := p, MilesRate := m } = calculateReward s b) ∧
    (¬ b.CashbackRate > 0 → b.PointsRate > 0 → ∀ m : Float64,
      calculateReward s { b with MilesRate := m } = calculateReward s b) := by
  refine ⟨?_, ?_, ?_⟩
  · by_cases hmin : s < b.MinSpend
    · simp [calculateReward, hmin]
    · rw [calculateReward_of_min_met s b hmin, if_neg hmin]
      by_cases hcap : b.Cap > 0
      · by_cases hs : s > b.Cap
        · have hmin' : min s b.Cap = b.Cap := min_eq_right (le_of_lt hs)
          simp only [hcap, hs, hmin', and_self, if_true]
        · have hmin' : min s b.Cap = s := min_eq_left (not_lt.mp hs)
          simp only [hcap, hs, hmin', and_false, if_true, if_false]
      · simp only [hcap, false_and, if_false]
  · intro hc p m
    simp [calculateReward, hc]
  · intro hc hp m
    simp [calculateReward, hc, hp]

/-- Witness of the amended C1 on the rule "6% cashback, cap 500" with a spend
of 600: the reward is that of the effective spend 500, whatever points and miles
rates are also set. -/
theorem calculateReward_policy_witness :
    calculateReward 600 ⟨1, 1, 1, 6, 0, 0, 500, 0, ""⟩ =
      (if (600 : Float64) < 0 then 0
       else unitReward (if (500 : Float64) > 0 then min 600 500 else 600)
        ⟨1, 1, 1, 6, 0, 0, 500, 0, ""⟩) ∧
    calculateReward 600 ⟨1, 1, 1, 6, 3, 2, 500, 0, ""⟩ = calculateReward 600 ⟨1, 1, 1, 6, 0, 0, 500, 0, ""⟩ ∧
    calculateReward 600 ⟨1, 1, 1, 0, 3, 2, 500, 0, ""⟩ = calculateReward 600 ⟨1, 1, 1, 0, 3, 0, 500, 0, ""⟩ :=
  ⟨(calculateReward_policy 600 ⟨1, 1, 1, 6, 0, 0, 500, 0, ""⟩).1,
   (calculateReward_policy 600 ⟨1, 1, 1, 6, 0, 0, 500, 0, ""⟩).2.1 (by decide!) 3 2,
   (calculateReward_policy 600 ⟨1, 1, 1, 0, 3, 0, 500, 0, ""⟩).2.2 (by decide!) (by decide!) 2⟩

/-- The decimal constants of `calculateReward` are non-negative. -/
theorem pointValue_nonneg : (0 : Float64) ≤ 0.01 ∧ (0 : Float64) ≤ 0.015 ∧ (0 : Float64) ≤ 100 := by
  decide!

/-- The reward formula of the credited unit is monotone in the effective spend
when the rates are non-negative. -/
theorem unitReward_mono (b : CardBenefit) (hc : 0 ≤ b.CashbackRate) (hp : 0 ≤ b.PointsRate)
    (hm : 0 ≤ b.MilesRate) {e₁ e₂ : Float64} (h : e₁ ≤ e₂) :
    unitReward e₁ b ≤ unitReward e₂ b := by
  obtain ⟨k1, k2, k3⟩ := pointValue_nonneg
  unfold unitReward
  split_ifs
  · exact fmul_le_fmul_right h (fdiv_nonneg hc k3)
  · exact fmul_le_fmul_right (fmul_le_fmul_right h (fdiv_nonneg hp k3)) k1
  · exact fmul_le_fmul_right (fmul_le_fmul_right h (fdiv_nonneg hm k3)) k2
  · exact le_refl _

/-- The reward formula of the credited unit is non-negative on a non-negative
effective spend when the rates are non-negative. -/
theorem unitReward_nonneg (b : CardBenefit) (hc : 0 ≤ b.CashbackRate) (hp : 0 ≤ b.PointsRate)
    (hm : 0 ≤ b.MilesRate) {e : Float64} (h : 0 ≤ e) : 0 ≤ unitReward e b := by
  obtain ⟨k1, k2, k3⟩ := pointValue_nonneg
  unfold unitReward
  split_ifs
  · exact fmul_nonneg h (fdiv_nonneg hc k3)
  · exact fmul_nonneg (fmul_nonneg h (fdiv_nonneg hp k3)) k1
  · exact fmul_nonneg (fmul_nonneg h (fdiv_nonneg hm k3)) k2
  · exact le_refl _

/-- C4: below the minimum spend the reward is exactly zero, whatever the rates
and the cap; from the minimum spend on, the check does not zero the reward: it is
the formula of the credited unit on the effective spend. -/
theorem calculateReward_minSpend (s : Float64) (b : CardBenefit) :
    (s < b.MinSpend → calculateReward s b = 0) ∧
    (b.MinSpend ≤ s → calculateReward s b =
      unitReward (if b.Cap > 0 ∧ s > b.Cap then b.Cap else s) b) := by
  constructor
  · intro h
    simp [calculateReward, h]
  · intro h
    exact calculateReward_of_min_met s b (not_lt.mpr h)

/-- Witness of C4 on the rule "5% cashback, minimum spend 200": a spend of 199
earns nothing, a spend of 200 earns 10. -/
theorem calculateReward_minSpend_witness :
    calculateReward 199 ⟨1, 1, 1, 5, 0, 0, 0, 200, ""⟩ = 0 ∧
    calculateReward 200 ⟨1, 1, 1, 5, 0, 0, 0, 200, ""⟩ =
      unitReward (if (0 : Float64) > 0 ∧ (200 : Float64) > 0 then 0 else 200)
        ⟨1, 1, 1, 5, 0, 0, 0, 200, ""⟩ :=
  ⟨(calculateReward_minSpend 199 ⟨1, 1, 1, 5, 0, 0, 0, 200, ""⟩).1 (by decide!),
   (calculateReward_minSpend 200 ⟨1, 1, 1, 5, 0, 0, 0, 200, ""⟩).2 (by decide!)⟩

/-- C5, as stated, fails: on the rule "10% cashback, cap 100, minimum spend 200"
a spend of 300 is above the cap and earns 10, while a spend of exactly the cap
is below the minimum spend and earns 0. -/
theorem calculateReward_cap_counterexample :
    (⟨1, 1, 1, 10, 0, 0, 100, 200, ""⟩ : CardBenefit).Cap > 0 ∧
    (300 : Float64) > (⟨1, 1, 1, 10, 0, 0, 100, 200, ""⟩ : CardBenefit).Cap ∧
    calculateReward 300 ⟨1, 1, 1, 10, 0, 0, 100, 200, ""⟩ = 10 ∧
    calculateReward (⟨1, 1, 1, 10, 0, 0, 100, 200, ""⟩ : CardBenefit).Cap
      ⟨1, 1, 1, 10, 0, 0, 100, 200, ""⟩ = 0 ∧
    calculateReward 300 ⟨1, 1, 1, 10, 0, 0, 100, 200, ""⟩ ≠
      calculateReward (⟨1, 1, 1, 10, 0, 0, 100, 200, ""⟩ : CardBenefit).Cap
        ⟨1, 1, 1, 10, 0, 0, 100, 200, ""⟩ := by
  decide!

/-- C5, amended: for a rule with a positive cap and a spend above the cap, the
reward equals the reward at exactly the cap whenever the cap itself meets the
minimum spend (or the spend does not); and any two spends above the cap that
both meet the minimum spend earn the same reward. -/
theorem calculateReward_flat_beyond_cap (s : Float64) (b : CardBenefit) (hcap : b.Cap > 0)
    (hs : s > b.Cap) :
    (b.MinSpend ≤ b.Cap ∨ s < b.MinSpend → calculateReward s b = calculateReward b.Cap b) ∧
    (∀ s' : Float64, s' > b.Cap → b.MinSpend ≤ s → b.MinSpend ≤ s' →
      calculateReward s b = calculateReward s' b) := by
  constructor
  · rintro (h | h)
    · rw [calculateReward_of_min_met s b (not_lt.mpr (le_trans h (le_of_lt hs))),
        calculateReward_of_min_met b.Cap b (not_lt.mpr h)]
      simp [hcap, hs]
    · have h' : b.Cap < b.MinSpend := lt_trans hs h
      simp [calculateReward, h, h']
  · intro s' hs' h h'
    rw [calculateReward_of_min_met s b (not_lt.mpr h),
      calculateReward_of_min_met s' b (not_lt.mpr h')]
    simp [hcap, hs, hs']

/-- Witness of the amended C5 on the rule "6% cashback, cap 500": spends of 600
and 900 earn what a spend of 500 earns. -/
theorem calculateReward_flat_beyond_cap_witness :
    calculateReward 600 ⟨1, 1, 1, 6, 0, 0, 500, 0, ""⟩ =
      calculateReward (⟨1, 1, 1, 6, 0, 0, 500, 0, ""⟩ : CardBenefit).Cap ⟨1, 1, 1, 6, 0, 0, 500, 0, ""⟩ ∧
    calculateReward 600 ⟨1, 1, 1, 6, 0, 0, 500, 0, ""⟩ =
      calculateReward 900 ⟨1, 1, 1, 6, 0, 0, 500, 0, ""⟩ :=
  ⟨(calculateReward_flat_beyond_cap 600 ⟨1, 1, 1, 6, 0, 0, 500, 0, ""⟩ (by decide!) (by decide!)).1
      (Or.inl (by decide!)),
   (calculateReward_flat_beyond_cap 600 ⟨1, 1, 1, 6, 0, 0, 500, 0, ""⟩ (by decide!) (by decide!)).2
      900 (by decide!) (by decide!) (by decide!)⟩

/-- C6: for a rule with non-negative rates (and any cap and minimum spend, in
particular non-negative ones), the reward is monotone non-decreasing in the spend
amount: for all spends `0 ≤ s₁ ≤ s₂` the reward of `s₁` is at most that of `s₂`. -/
theorem calculateReward_mono (b : CardBenefit) (hc : 0 ≤ b.CashbackRate)
    (hp : 0 ≤ b.PointsRate) (hm : 0 ≤ b.MilesRate)
    (s₁ s₂ : Float64) (h0 : 0 ≤ s₁) (h : s₁ ≤ s₂) :
    calculateReward s₁ b ≤ calculateReward s₂ b := by
  by_cases h2 : s₂ < b.MinSpend
  · have h1 : s₁ < b.MinSpend := lt_of_le_of_lt h h2
    simp [calculateReward, h1, h2]
  · rw [calculateReward_of_min_met s₂ b h2]
    by_cases h1 : s₁ < b.MinSpend
    · have hz : calculateReward s₁ b = 0 := by simp [calculateReward, h1]
      rw [hz]
      apply unitReward_nonneg b hc hp hm
      split_ifs with h3
      · exact le_of_lt h3.1
      · exact le_trans h0 h
    · rw [calculateReward_of_min_met s₁ b h1]
      apply unitReward_mono b hc hp hm
      split_ifs with h3 h4 h4
      · exact le_refl _
      · exact le_of_lt (lt_of_lt_of_le h3.2 h)
      · exact not_lt.mp fun hlt => h3 ⟨h4.1, hlt⟩
      · exact h

/-- Witness of C6 on the rule "6% cashback, cap 500, minimum spend 100" with the
spends 50 and 600. -/
theorem calculateReward_mono_witness :
    calculateReward 50 ⟨1, 1, 1, 6, 0, 0, 500, 100, ""⟩ ≤
      calculateReward 600 ⟨1, 1, 1, 6, 0, 0, 500, 100, ""⟩ :=
  calculateReward_mono ⟨1, 1, 1, 6, 0, 0, 500, 100, ""⟩ (by decide!) (by decide!) (by decide!)
    50 600 (by decide!) (by decide!)

/-! ## Card scorer: theorems -/

/-- Values of the constants of `calculateScore`. -/
theorem rnd64_consts : rnd64 100 = 100 ∧ rnd64 10000 = 10000 := by decide!

/-- Rounding to the nearest integer maps the interval `[0, 10000]` into itself. -/
theorem roundHalfAway_mem_Icc {x : ℚ} (h0 : 0 ≤ x) (h1 : x ≤ 10000) :
    0 ≤ roundHalfAway x ∧ roundHalfAway x ≤ 10000 := by
  unfold roundHalfAway
  rw [if_pos h0]
  constructor
  · have : (0 : ℤ) ≤ ⌊x + 1 / 2⌋ := Int.floor_nonneg.mpr (by linarith)
    exact_mod_cast this
  · have : ⌊x + 1 / 2⌋ < (10001 : ℤ) := Int.floor_lt.mpr (by push_cast; linarith)
    have h2 : ⌊x + 1 / 2⌋ ≤ (10000 : ℤ) := by omega
    exact_mod_cast h2

/-- C2, as stated, fails: with net benefit 0, annual fee 0.05 and a 1% cashback
rule the code computes `10 - 0.05 * 0.5` in `float64`, which lies just above
9.975, and returns 9.98, while the formula of the specification gives 9.975,
rounded to 9.97. -/
theorem calculateScore_rounding_counterexample :
    calculateScore 0 0.05 onePercentRule = 9.98 ∧
    specScore 0 0.05 onePercentRule = 997 / 100 ∧
    (calculateScore 0 0.05 onePercentRule).val ≠ specScore 0 0.05 onePercentRule := by
  decide!

/-- C2, amended: `calculateScore` is the `float64` evaluation, in this order, of
the net benefit plus `CashbackRate * 10`, plus `PointsRate * 8`, plus
`MilesRate * 12` (each bonus added whenever its rate is positive), minus
`annualFee * 0.5`, restricted to `[0, 100]`, multiplied by 100, rounded to the
nearest integer and divided by 100, every operation rounded; on net benefit 240,
fee 120 and a 6% cashback rule the sum 240 + 60 - 60 = 240 is clamped to 100. -/
theorem calculateScore_eq_float (netBenefit annualFee : Float64) (b : CardBenefit) :
    calculateScore netBenefit annualFee b =
      mathRound (max 0 (min 100
        (addBonus (addBonus (addBonus netBenefit b.CashbackRate 10) b.PointsRate 8)
          b.MilesRate 12 - annualFee * 0.5)) * 100) / 100 ∧
    calculateScore 240 120 ⟨1, 1, 1, 6, 0, 0, 500, 0, ""⟩ = 100 ∧
    (240 : ℚ) + specBonus 10 6 + specBonus 8 0 + specBonus 12 0 - 0.5 * 120 = 240 := by
  exact ⟨rfl, by decide!, by decide!⟩

/-- Clamping to `[0, 100]` and rounding to two decimals stays within `[0, 100]`. -/
theorem round_clamp_mem_Icc (x : Float64) :
    0 ≤ mathRound (max 0 (min 100 x) * 100) / 100 ∧
    mathRound (max 0 (min 100 x) * 100) / 100 ≤ 100 := by
  obtain ⟨c100, c10000⟩ := rnd64_consts
  have hy0 : (0 : Float64) ≤ max 0 (min 100 x) := le_max_left _ _
  have hy1 : max 0 (min 100 x) ≤ (100 : Float64) := max_le (by decide!) (min_le_left _ _)
  set y := max 0 (min 100 x) with hy
  have hy0v : 0 ≤ y.val := Float64.zero_le_iff.mp hy0
  have hy1v : y.val ≤ 100 := by
    have := Float64.le_def.mp hy1
    rwa [Float64.val_hundred] at this
  have hm0 : 0 ≤ (y * 100).val :=
    rnd64_nonneg (mul_nonneg hy0v (by rw [Float64.val_hundred]; norm_num))
  have hm1 : (y * 100).val ≤ 10000 := by
    have : y.val * (100 : Float64).val ≤ 10000 := by
      rw [Float64.val_hundred]
      linarith
    have := rnd64_mono this
    rwa [c10000] at this
  obtain ⟨ha, hb⟩ := roundHalfAway_mem_Icc hm0 hm1
  constructor
  · apply Float64.zero_le_iff.mpr
    exact rnd64_nonneg (div_nonneg ha (by rw [Float64.val_hundred]; norm_num))
  · apply Float64.le_def.mpr
    rw [Float64.val_hundred]
    have : roundHalfAway (y * 100).val / (100 : Float64).val ≤ 100 := by
      rw [Float64.val_hundred, div_le_iff₀ (by norm_num)]
      linarith
    have := rnd64_mono this
    rwa [c100] at this

/-- The score lies in the closed interval from 0 to 100. -/
theorem calculateScore_mem_Icc (netBenefit annualFee : Float64) (b : CardBenefit) :
    0 ≤ calculateScore netBenefit annualFee b ∧ calculateScore netBenefit annualFee b ≤ 100 := by
  unfold calculateScore
  exact round_clamp_mem_Icc _
/-! ## Spending aggregator: theorems -/

/-- Reading a map after the statement `m[k] += v`. -/
theorem mapGet_mapAdd (m : List (Nat × Float64)) (k : Nat) (v : Float64) (c : Nat) :
    mapGet (mapAdd m k v) c =
      if k = c then some ((mapGet m k).getD 0 + v) else mapGet m c := by
  induction m with
  | nil => simp [mapAdd, mapGet]
  | cons e rest ih =>
    obtain ⟨k', v'⟩ := e
    by_cases h : k' = k
    · subst h
      by_cases hc : k' = c <;> simp [mapAdd, mapGet, hc]
    · by_cases hc : k' = c
      · subst hc
        have : ¬ k = k' := fun h' => h h'.symm
        simp [mapAdd, mapGet, h, this]
      · simp [mapAdd, mapGet, h, hc, ih]

/-- The keys of a map after `m[k] += v`. -/
theorem keys_mapAdd (m : List (Nat × Float64)) (k : Nat) (v : Float64) :
    (mapAdd m k v).map Prod.fst =
      if k ∈ m.map Prod.fst then m.map Prod.fst else m.map Prod.fst ++ [k] := by
  induction m with
  | nil => simp [mapAdd]
  | cons e rest ih =>
    obtain ⟨k', v'⟩ := e
    by_cases h : k' = k
    · subst h
      simp [mapAdd]
    · have h' : ¬ k = k' := fun h' => h h'.symm
      by_cases hm : k ∈ rest.map Prod.fst
      · simp only [mapAdd, h, if_false, List.map_cons, ih, hm, if_true, List.mem_cons, or_true]
      · simp only [mapAdd, h, if_false, List.map_cons, ih, hm, List.mem_cons, h', or_self,
          List.cons_append]

/-- The statement `m[k] += v` keeps the keys of the map distinct. -/
theorem nodup_keys_mapAdd (m : List (Nat × Float64)) (k : Nat) (v : Float64)
    (h : (m.map Prod.fst).Nodup) : ((mapAdd m k v).map Prod.fst).Nodup := by
  rw [keys_mapAdd]
  split_ifs with hk
  · exact h
  · exact List.Nodup.append h (List.nodup_singleton k) (by simpa using hk)

/-- In a map with distinct keys, an entry is what `mapGet` returns for its key. -/
theorem mem_iff_mapGet (m : List (Nat × Float64)) (h : (m.map Prod.fst).Nodup) (c : Nat) (t : Float64) :
    (c, t) ∈ m ↔ mapGet m c = some t := by
  induction m with
  | nil => simp [mapGet]
  | cons e rest ih =>
    obtain ⟨k', v'⟩ := e
    simp only [List.map_cons, List.nodup_cons] at h
    by_cases hc : k' = c
    · subst hc
      have hnot : (k', t) ∉ rest := fun hm => h.1 (List.mem_map_of_mem Prod.fst hm)
      simp only [List.mem_cons, Prod.mk.injEq, true_and, hnot, or_false, mapGet, if_true,
        Option.some.injEq]
      exact eq_comm
    · have hc' : ¬ c = k' := fun h' => hc h'.symm
      simp only [List.mem_cons, Prod.mk.injEq, hc', false_and, false_or, mapGet, hc, if_false]
      exact ih h.2

/-- A key is present exactly when `mapGet` finds a value for it. -/
theorem mem_keys_iff_mapGet (m : List (Nat × Float64)) (c : Nat) :
    c ∈ m.map Prod.fst ↔ (mapGet m c).isSome := by
  induction m with
  | nil => simp [mapGet]
  | cons e rest ih =>
    obtain ⟨k', v'⟩ := e
    by_cases hc : k' = c
    · simp [mapGet, hc]
    · have hc' : ¬ c = k' := fun h' => hc h'.symm
      simp [mapGet, hc, hc', ih]

/-- A category without records has no record to add. -/
theorem filter_category_of_not_mem (sp : List UserSpending) (c : Nat)
    (h : c ∉ sp.map fun s => s.CategoryID) :
    (sp.filter fun s => s.CategoryID = c) = [] := by
  rw [List.filter_eq_nil_iff]
  intro s hs hc
  exact h (List.mem_map.mpr ⟨s, hs, by simpa using hc⟩)

/-- Reading the map after the aggregation loop has run over `sp` from the map `m`:
the value of a category with a record is the running sum of its amounts, in
record order, on top of what the map held. -/
theorem mapGet_foldl_mapAdd (sp : List UserSpending) (m : List (Nat × Float64)) (c : Nat) :
    mapGet (sp.foldl (fun m spending => mapAdd m spending.CategoryID spending.Amount) m) c =
      if c ∈ sp.map (fun s => s.CategoryID) then
        some (((sp.filter fun s => s.CategoryID = c).map fun s => s.Amount).foldl
          (fun total amount => total + amount) ((mapGet m c).getD 0))
      else mapGet m c := by
  induction sp generalizing m with
  | nil => simp
  | cons s sp ih =>
    rw [List.foldl_cons, ih, mapGet_mapAdd]
    by_cases h1 : s.CategoryID = c
    · subst h1
      simp only [List.map_cons, List.mem_cons, true_or, if_true, Option.getD_some,
        List.filter_cons, decide_True, List.foldl_cons]
      split_ifs with h2
      · rfl
      · simp [filter_category_of_not_mem sp _ h2]
    · have h1' : ¬ c = s.CategoryID := fun h' => h1 h'.symm
      simp [h1, h1', List.filter_cons]

/-- The aggregation loop keeps the keys of the map distinct. -/
theorem nodup_keys_foldl_mapAdd (sp : List UserSpending) (m : List (Nat × Float64))
    (h : (m.map Prod.fst).Nodup) :
    ((sp.foldl (fun m spending => mapAdd m spending.CategoryID spending.Amount) m).map
      Prod.fst).Nodup := by
  induction sp generalizing m with
  | nil => simpa using h
  | cons s sp ih =>
    rw [List.foldl_cons]
    exact ih _ (nodup_keys_mapAdd m _ _ h)

/-- The spending map has one entry per category. -/
theorem nodup_keys_categorySpending (sp : List UserSpending) :
    ((categorySpending sp).map Prod.fst).Nodup :=
  nodup_keys_foldl_mapAdd sp [] (by simp)

/-- The value the spending map holds for a category: the sum of the amounts of
its records when it has any (the running `float64` sum, in record order), nothing
otherwise. -/
theorem mapGet_categorySpending (sp : List UserSpending) (c : Nat) :
    mapGet (categorySpending sp) c =
      if c ∈ sp.map (fun s => s.CategoryID) then some (categoryTotal sp c) else none := by
  unfold categorySpending
  rw [mapGet_foldl_mapAdd]
  simp [mapGet, categoryTotal]

/-- The entries of the spending map: each category with a record, with its total. -/
theorem mem_categorySpending (sp : List UserSpending) (c : Nat) (t : Float64) :
    (c, t) ∈ categorySpending sp ↔
      c ∈ sp.map (fun s => s.CategoryID) ∧ t = categoryTotal sp c := by
  rw [mem_iff_mapGet _ (nodup_keys_categorySpending sp), mapGet_categorySpending]
  split_ifs with h
  · simp [h, eq_comm]
  · simp [h]

/-! ## Candidate generation: theorems -/

/-- The candidate of a card, when there is one, in terms of the first matching rule. -/
theorem cardCandidate_eq_some (cat : Category) (c : Nat) (t : Float64) (k : CreditCard)
    (r : RecommendationResponse) (h : cardCandidate cat c t k = some r) :
    ∃ rule, k.CardBenefits.find? (fun b => b.CategoryID = c) = some rule ∧
      r = { ID := 0, Card := k, Category := cat,
            Score := calculateScore (calculateReward t rule * 12 - k.AnnualFee) k.AnnualFee rule,
            EstimatedReward := calculateReward t rule,
            Reason := generateReason rule (calculateReward t rule) k.AnnualFee } := by
  unfold cardCandidate bestBenefit at h
  cases hf : k.CardBenefits.find? (fun b => b.CategoryID = c) with
  | none => simp [hf] at h
  | some rule =>
    simp only [hf, Option.some.injEq] at h
    exact ⟨rule, rfl, h.symm⟩

/-- Every candidate of a category carries the category returned by the lookup. -/
theorem mem_calculateBestCardsForCategory (st : Stores) (c : Nat) (t : Float64)
    (cards : List CreditCard) (r : RecommendationResponse)
    (h : r ∈ calculateBestCardsForCategory st c t cards) :
    ∃ cat, st.categoryByID c = .ok cat ∧ ∃ k ∈ cards, cardCandidate cat c t k = some r := by
  unfold calculateBestCardsForCategory at h
  cases hc : st.categoryByID c with
  | error e => simp [hc] at h
  | ok cat =>
    simp only [hc, List.mem_filterMap] at h
    exact ⟨cat, rfl, h⟩

/-- The candidates come from the entries of the spending map. -/
theorem mem_generateCandidates (rt : Runtime) (st : Stores) (m : List (Nat × Float64))
    (cards : List CreditCard) (r : RecommendationResponse) :
    r ∈ generateCandidates rt st m cards ↔
      ∃ e ∈ m, r ∈ calculateBestCardsForCategory st e.1 e.2 cards := by
  unfold generateCandidates
  simp only [List.mem_flatten, List.mem_map]
  constructor
  · rintro ⟨l, ⟨e, he, rfl⟩, hr⟩
    exact ⟨e, (rt.rangeMap_perm m).mem_iff.mp he, hr⟩
  · rintro ⟨e, he, hr⟩
    exact ⟨_, ⟨e, (rt.rangeMap_perm m).mem_iff.mpr he, rfl⟩, hr⟩

/-- Selecting by key from the concatenated blocks of a map with distinct keys: no
block is selected when the key is absent. -/
theorem filter_blocks_of_not_mem {β : Type} (p : β → Bool) (g : Nat × Float64 → List β) (c : Nat)
    (l : List (Nat × Float64)) (hp : ∀ e ∈ l, ∀ r ∈ g e, (p r = true ↔ e.1 = c))
    (hc : c ∉ l.map Prod.fst) : ((l.map g).flatten).filter p = [] := by
  rw [List.filter_eq_nil_iff]
  intro r hr
  simp only [List.mem_flatten, List.mem_map] at hr
  obtain ⟨_, ⟨e, he, rfl⟩, hre⟩ := hr
  intro hpr
  exact hc ((hp e he r hre).mp hpr ▸ List.mem_map_of_mem Prod.fst he)

/-- Selecting by key from the concatenated blocks of a map with distinct keys: the
block of the key is selected, whatever the order of the entries. -/
theorem filter_blocks_of_mem {β : Type} (p : β → Bool) (g : Nat × Float64 → List β) (c : Nat) (t : Float64)
    (l : List (Nat × Float64)) (hp : ∀ e ∈ l, ∀ r ∈ g e, (p r = true ↔ e.1 = c))
    (hn : (l.map Prod.fst).Nodup) (hc : (c, t) ∈ l) :
    ((l.map g).flatten).filter p = g (c, t) := by
  induction l with
  | nil => simp at hc
  | cons e rest ih =>
    simp only [List.map_cons, List.nodup_cons] at hn
    have hp' : ∀ e' ∈ rest, ∀ r ∈ g e', (p r = true ↔ e'.1 = c) :=
      fun e' he' => hp e' (List.mem_cons_of_mem _ he')
    simp only [List.map_cons, List.flatten_cons, List.filter_append]
    rcases List.mem_cons.mp hc with h | h
    · subst h
      rw [filter_blocks_of_not_mem p g c rest hp' hn.1, List.append_nil,
        List.filter_eq_self]
      intro r hr
      exact (hp (c, t) (List.mem_cons_self _ _) r hr).mpr rfl
    · have hne : ¬ e.1 = c := fun h' => hn.1 (h' ▸ List.mem_map_of_mem Prod.fst h)
      have h1 : (g e).filter p = [] := by
        rw [List.filter_eq_nil_iff]
        intro r hr hpr
        exact hne ((hp e (List.mem_cons_self _ _) r hr).mp hpr)
      rw [h1, List.nil_append]
      exact ih hp' hn.2 h

/-- C9: when the category lookups of the spent categories succeed (each returning
the category of the requested ID), the candidates computed before ranking are, for
each category with a spending record, exactly one candidate per active card that
has a rule for the category (the cards in catalog order, built from the first
such rule), with `EstimatedReward = calculateReward(total, rule)` and
`Score = calculateScore(12 * reward - AnnualFee, AnnualFee, rule)`, the product
and the difference being `float64` operations; a card without a rule for the
category gets no candidate, and no candidate belongs to a category without a
spending record; `total` is the value the spending map holds for the category,
the running `float64` sum of its amounts in record order. -/
theorem generateCandidates_per_category (rt : Runtime) (st : Stores)
    (spendings : List UserSpending) (cards : List CreditCard)
    (hcat : ∀ s ∈ spendings, ∃ cat, st.categoryByID s.CategoryID = .ok cat ∧
      cat.ID = s.CategoryID) :
    (∀ c cat, st.categoryByID c = .ok cat →
      (generateCandidates rt st (categorySpending spendings) cards).filter
          (fun r => r.Category.ID = c) =
        if c ∈ spendings.map (fun s => s.CategoryID) then
          cards.filterMap fun k =>
            (k.CardBenefits.find? fun rule => rule.CategoryID = c).map fun rule =>
              { ID := 0, Card := k, Category := cat,
                Score := calculateScore
                  (12 * calculateReward (categoryTotal spendings c) rule - k.AnnualFee)
                  k.AnnualFee rule,
                EstimatedReward := calculateReward (categoryTotal spendings c) rule,
                Reason := generateReason rule
                  (calculateReward (categoryTotal spendings c) rule) k.AnnualFee }
        else []) ∧
    (∀ r ∈ generateCandidates rt st (categorySpending spendings) cards,
      r.Category.ID ∈ spendings.map (fun s => s.CategoryID) ∧ r.Card ∈ cards ∧
      ∃ rule ∈ r.Card.CardBenefits, rule.CategoryID = r.Category.ID) ∧
    (∀ c ∈ spendings.map (fun s => s.CategoryID),
      mapGet (categorySpending spendings) c = some (categoryTotal spendings c)) := by
  have key : ∀ e ∈ categorySpending spendings, ∃ cat, st.categoryByID e.1 = .ok cat ∧
      cat.ID = e.1 := by
    rintro ⟨c, t⟩ he
    obtain ⟨hc, -⟩ := (mem_categorySpending spendings c t).mp he
    obtain ⟨s, hs, rfl⟩ := List.mem_map.mp hc
    exact hcat s hs
  have own : ∀ e ∈ categorySpending spendings,
      ∀ r ∈ calculateBestCardsForCategory st e.1 e.2 cards,
        r.Category.ID = e.1 ∧ r.Card ∈ cards ∧
        ∃ rule ∈ r.Card.CardBenefits, rule.CategoryID = e.1 := by
    intro e he r hr
    obtain ⟨cat, hcat', hid⟩ := key e he
    obtain ⟨cat', hc', k, hk, hcand⟩ := mem_calculateBestCardsForCategory st _ _ cards r hr
    have hcc : cat' = cat := by
      rw [hcat'] at hc'
      exact (Except.ok.inj hc').symm
    subst hcc
    obtain ⟨rule, hfind, rfl⟩ := cardCandidate_eq_some _ _ _ _ _ hcand
    refine ⟨hid, hk, rule, List.mem_of_find?_eq_some hfind, ?_⟩
    simpa using List.find?_some hfind
  refine ⟨?_, ?_, fun c hc => by rw [mapGet_categorySpending, if_pos hc]⟩
  · intro c cat hc
    have hp : ∀ e ∈ rt.rangeMap (categorySpending spendings),
        ∀ r ∈ calculateBestCardsForCategory st e.1 e.2 cards,
          (decide (r.Category.ID = c) = true ↔ e.1 = c) := by
      intro e he r hr
      have h := (own e ((rt.rangeMap_perm _).mem_iff.mp he) r hr).1
      simp [h]
    have hn : ((rt.rangeMap (categorySpending spendings)).map Prod.fst).Nodup :=
      ((rt.rangeMap_perm _).map Prod.fst).nodup_iff.mpr (nodup_keys_categorySpending spendings)
    unfold generateCandidates
    split_ifs with hmem
    · have hin : (c, categoryTotal spendings c) ∈ rt.rangeMap (categorySpending spendings) :=
        (rt.rangeMap_perm _).mem_iff.mpr ((mem_categorySpending spendings c _).mpr ⟨hmem, rfl⟩)
      rw [filter_blocks_of_mem _ _ c _ _ hp hn hin]
      simp only [calculateBestCardsForCategory, hc]
      congr 1
      funext k
      unfold cardCandidate bestBenefit
      cases k.CardBenefits.find? (fun b => b.CategoryID = c) with
      | none => rfl
      | some rule => simp [fmul_comm]
    · apply filter_blocks_of_not_mem _ _ c _ hp
      intro hk
      have hk' : c ∈ (categorySpending spendings).map Prod.fst :=
        ((rt.rangeMap_perm _).map Prod.fst).mem_iff.mp hk
      obtain ⟨⟨c', t⟩, he, rfl⟩ := List.mem_map.mp hk'
      exact hmem ((mem_categorySpending spendings c' t).mp he).1
  · intro r hr
    obtain ⟨e, he, hre⟩ := (mem_generateCandidates rt st _ cards r).mp hr
    obtain ⟨hid, hk, rule, hrule, hrc⟩ := own e he r hre
    refine ⟨?_, hk, rule, hrule, hrc.trans hid.symm⟩
    rw [hid]
    exact ((mem_categorySpending spendings e.1 e.2).mp he).1

/-- Witness of C9: a card with a Dining rule and a Groceries rule and spending in
both categories yields two candidates, one per category. -/
theorem generateCandidates_per_category_witness :
    (generateCandidates stdRuntime demoStores (categorySpending demoSpendings) [demoCard]).filter
        (fun r => r.Category.ID = 1) =
      [{ ID := 0, Card := demoCard, Category := dining, Score := 100, EstimatedReward := 30,
         Reason := "Earn 6.00% on this category. Expected monthly reward: $30.00, Net annual benefit: $360.00" }] ∧
    (generateCandidates stdRuntime demoStores (categorySpending demoSpendings) [demoCard]).filter
        (fun r => r.Category.ID = 2) =
      [{ ID := 0, Card := demoCard, Category := groceries, Score := 100, EstimatedReward := 10,
         Reason := "Earn 5.00% on this category. Expected monthly reward: $10.00, Net annual benefit: $120.00" }] ∧
    (generateCandidates stdRuntime demoStores (categorySpending demoSpendings) [demoCard]).length = 2 := by
  have hcat : ∀ s ∈ demoSpendings, ∃ cat, demoStores.categoryByID s.CategoryID = .ok cat ∧
      cat.ID = s.CategoryID := by
    intro s hs
    simp only [demoSpendings, List.mem_cons, List.mem_singleton, List.not_mem_nil, or_false] at hs
    rcases hs with rfl | rfl
    · exact ⟨dining, rfl, rfl⟩
    · exact ⟨groceries, rfl, rfl⟩
  have h := generateCandidates_per_category stdRuntime demoStores demoSpendings [demoCard] hcat
  refine ⟨(h.1 1 dining rfl).trans (by decide!), (h.1 2 groceries rfl).trans (by decide!),
    by decide!⟩

/-! ## Persistence: theorems -/

/-- The insert loop when no insert fails: every candidate is appended in order. -/
theorem saveLoop_of_no_fault (f : Faults) (u : Nat) (recs : List RecommendationResponse)
    (i : Nat) (db : RecDb) (h : ∀ j, j < recs.length → f.createErr (i + j) = none) :
    saveLoop f u i recs db =
      (none, { rows := db.rows ++ storedAs u db.nextID recs,
               nextID := db.nextID + recs.length,
               calls := db.calls ++ recs.map fun r => RecCall.create (newRecommendation u r) }) := by
  induction recs generalizing i db with
  | nil => simp [saveLoop, storedAs]
  | cons r rest ih =>
    have h0 : f.createErr i = none := by simpa using h 0 (by simp)
    have h' : ∀ j, j < rest.length → f.createErr (i + 1 + j) = none := by
      intro j hj
      have := h (j + 1) (by simpa using hj)
      rwa [show i + (j + 1) = i + 1 + j by omega] at this
    simp only [saveLoop, RecDb.Create, h0]
    rw [ih (i + 1) _ h']
    simp [storedAs, List.append_assoc, Nat.add_assoc, Nat.add_comm 1]

/-- The insert loop when the insert at offset `k` is the first to fail: the loop
stops with that error, and the `k` rows inserted before it stay in the table. -/
theorem saveLoop_of_fault (f : Faults) (u : Nat) (recs : List RecommendationResponse)
    (i : Nat) (db : RecDb) (k : Nat) (e : String) (hk : k < recs.length)
    (hok : ∀ j, j < k → f.createErr (i + j) = none) (hfail : f.createErr (i + k) = some e) :
    saveLoop f u i recs db =
      (some e, { rows := db.rows ++ storedAs u db.nextID (recs.take k),
                 nextID := db.nextID + k,
                 calls := db.calls ++
                   (recs.take (k + 1)).map fun r => RecCall.create (newRecommendation u r) }) := by
  induction recs generalizing i db k with
  | nil => simp at hk
  | cons r rest ih =>
    cases k with
    | zero =>
      have h0 : f.createErr i = some e := by simpa using hfail
      simp [saveLoop, RecDb.Create, h0, storedAs]
    | succ k =>
      have h0 : f.createErr i = none := by simpa using hok 0 (by omega)
      have hok' : ∀ j, j < k → f.createErr (i + 1 + j) = none := by
        intro j hj
        have := hok (j + 1) (by omega)
        rwa [show i + (j + 1) = i + 1 + j by omega] at this
      have hfail' : f.createErr (i + 1 + k) = some e := by
        rwa [show i + (k + 1) = i + 1 + k by omega] at hfail
      simp only [saveLoop, RecDb.Create, h0]
      rw [ih (i + 1) _ k (by simpa using hk) hok' hfail']
      simp [storedAs, List.append_assoc, Nat.add_assoc, Nat.add_comm 1]

/-- The rows built by the insert loop belong to the user and are not deleted. -/
theorem storedAs_filter (u n : Nat) (recs : List RecommendationResponse) :
    (storedAs u n recs).filter (fun r => r.UserID = u ∧ r.Deleted = false) = storedAs u n recs := by
  rw [List.filter_eq_self]
  induction recs generalizing n with
  | nil => simp [storedAs]
  | cons r rest ih =>
    intro a ha
    rcases List.mem_cons.mp ha with h | h
    · subst h
      simp [newRecommendation]
    · exact ih (n + 1) a h

/-- After a successful delete no earlier row of the user is visible. -/
theorem softDelete_filter (u : Nat) (rows : List Recommendation) :
    (rows.map (softDelete u)).filter (fun r => r.UserID = u ∧ r.Deleted = false) = [] := by
  rw [List.filter_eq_nil_iff]
  intro r hr
  obtain ⟨r', -, rfl⟩ := List.mem_map.mp hr
  unfold softDelete
  split_ifs with h
  · simp
  · simpa using h

/-- The count of inserts: the first ten candidates. -/
theorem take_count (recs : List RecommendationResponse) :
    recs.take (if recs.length > 10 then 10 else recs.length) = recs.take 10 := by
  split_ifs with h
  · rfl
  · rw [List.take_of_length_le (le_refl _), List.take_of_length_le (not_lt.mp h)]

/-- The method `saveRecommendations` when the delete succeeds, in terms of the loop. -/
theorem saveRecommendations_of_delete_ok (f : Faults) (u : Nat)
    (recs : List RecommendationResponse) (db : RecDb) (hd : f.deleteErr = none) :
    saveRecommendations f u recs db =
      saveLoop f u 0 (recs.take 10)
        { rows := db.rows.map (softDelete u), nextID := db.nextID,
          calls := db.calls ++ [RecCall.deleteByUserID u] } := by
  simp only [saveRecommendations, RecDb.DeleteByUserID, hd, take_count]

/-- The method `GenerateRecommendations` once both loads have succeeded. -/
theorem GenerateRecommendations_of_loaded (rt : Runtime) (st : Stores) (f : Faults) (u : Nat)
    (db : RecDb) (sp : List UserSpending) (cards : List CreditCard)
    (hs : st.spendingByUser u = .ok sp) (hc : st.activeCards = .ok cards) :
    GenerateRecommendations rt st f u db =
      match saveRecommendations f u (rankedCandidates rt st sp cards) db with
      | (some e, db') => (.error ("failed to save recommendations: " ++ e), db')
      | (none, db') => (.ok ((rankedCandidates rt st sp cards).take 10), db') := by
  have ht : ∀ l : List RecommendationResponse,
      (if l.length > 10 then l.take 10 else l) = l.take 10 := by
    intro l
    split_ifs with h
    · rfl
    · exact (List.take_of_length_le (not_lt.mp h)).symm
  simp only [GenerateRecommendations, hs, hc, ht, rankedCandidates]

/-- The insert loop returns no error only when every insert was made. -/
theorem saveLoop_of_ok (f : Faults) (u : Nat) (recs : List RecommendationResponse)
    (i : Nat) (db : RecDb) (h : (saveLoop f u i recs db).1 = none) :
    saveLoop f u i recs db =
      (none, { rows := db.rows ++ storedAs u db.nextID recs,
               nextID := db.nextID + recs.length,
               calls := db.calls ++ recs.map fun r => RecCall.create (newRecommendation u r) }) := by
  induction recs generalizing i db with
  | nil => simp [saveLoop, storedAs]
  | cons r rest ih =>
    cases h0 : f.createErr i with
    | some e => simp [saveLoop, RecDb.Create, h0] at h
    | none =>
      simp only [saveLoop, RecDb.Create, h0] at h ⊢
      rw [ih (i + 1) _ h]
      simp [storedAs, List.append_assoc, Nat.add_assoc, Nat.add_comm 1]

/-- The fields of the rows built by the insert loop, primary key apart. -/
theorem storedAs_fields (u n : Nat) (recs : List RecommendationResponse) :
    ((storedAs u n recs).map fun row =>
        (row.UserID, row.CategoryID, row.CardID, row.Score, row.EstimatedReward, row.Reason)) =
      recs.map fun r => (u, r.Category.ID, r.Card.ID, r.Score, r.EstimatedReward, r.Reason) := by
  induction recs generalizing n with
  | nil => simp [storedAs]
  | cons r rest ih => simp [storedAs, newRecommendation, ih]

/-- The rows built by the insert loop carry primary keys from `n` on. -/
theorem storedAs_fresh (u n : Nat) (recs : List RecommendationResponse) :
    ∀ row ∈ storedAs u n recs, n ≤ row.ID := by
  induction recs generalizing n with
  | nil => simp [storedAs]
  | cons r rest ih =>
    intro row hrow
    rcases List.mem_cons.mp hrow with h | h
    · subst h
      exact le_refl _
    · exact le_trans (Nat.le_succ n) (ih (n + 1) row h)

/-- C7, as stated, fails: with two candidates and a failing second insert, the
call returns an error and user 1 is left with the one row inserted before the
failure, not with the row stored before the call. -/
theorem replace_atomicity_counterexample :
    secondInsertFails.createErr 1 = some "connection lost" ∧
    (GenerateRecommendations stdRuntime demoStores secondInsertFails 1 demoDb).1 =
      .error "failed to save recommendations: connection lost" ∧
    demoDb.rowsByUser 1 = [⟨1, 1, 2, 7, 55, 4, "old", false⟩] ∧
    (GenerateRecommendations stdRuntime demoStores secondInsertFails 1 demoDb).2.rowsByUser 1 =
      [⟨3, 1, 1, 1, 100, 30,
        "Earn 6.00% on this category. Expected monthly reward: $30.00, Net annual benefit: $360.00",
        false⟩] ∧
    (GenerateRecommendations stdRuntime demoStores secondInsertFails 1 demoDb).2.rowsByUser 1 ≠
      demoDb.rowsByUser 1 := by
  decide!

/-- C7, amended: the replace step has no rollback. When both loads and the delete
succeed and the insert at loop index `k` is the first to fail, the call returns
the wrapped error, the rows the user had before the call are deleted, and the
user's stored set is exactly the `k` rows inserted before the failure, built
from the first `k` ranked candidates. -/
theorem GenerateRecommendations_insert_failure (rt : Runtime) (st : Stores) (f : Faults)
    (u : Nat) (db : RecDb) (sp : List UserSpending) (cards : List CreditCard) (k : Nat)
    (e : String) (hs : st.spendingByUser u = .ok sp) (hc : st.activeCards = .ok cards)
    (hd : f.deleteErr = none) (hk : k < ((rankedCandidates rt st sp cards).take 10).length)
    (hok : ∀ j, j < k → f.createErr j = none) (hfail : f.createErr k = some e) :
    (GenerateRecommendations rt st f u db).1 =
      .error ("failed to save recommendations: " ++ e) ∧
    (GenerateRecommendations rt st f u db).2.rows =
      db.rows.map (softDelete u) ++ storedAs u db.nextID ((rankedCandidates rt st sp cards).take k) ∧
    (GenerateRecommendations rt st f u db).2.rowsByUser u =
      storedAs u db.nextID ((rankedCandidates rt st sp cards).take k) := by
  have hok' : ∀ j, j < k → f.createErr (0 + j) = none := by simpa using hok
  have hfail' : f.createErr (0 + k) = some e := by simpa using hfail
  have hk10 : k ≤ 10 := by
    have := List.length_take_le 10 (rankedCandidates rt st sp cards)
    omega
  rw [GenerateRecommendations_of_loaded rt st f u db sp cards hs hc,
    saveRecommendations_of_delete_ok f u _ db hd,
    saveLoop_of_fault f u _ 0 _ k e hk hok' hfail']
  simp only [List.take_take, min_eq_left hk10, RecDb.rowsByUser, List.filter_append,
    softDelete_filter, storedAs_filter, List.nil_append, and_self]

/-- Witness of the amended C7: with two candidates and a failing second insert,
user 1 is left with the first new row only. -/
theorem GenerateRecommendations_insert_failure_witness :
    (GenerateRecommendations stdRuntime demoStores secondInsertFails 1 demoDb).1 =
      .error ("failed to save recommendations: " ++ "connection lost") ∧
    (GenerateRecommendations stdRuntime demoStores secondInsertFails 1 demoDb).2.rows =
      demoDb.rows.map (softDelete 1) ++
        storedAs 1 demoDb.nextID ((rankedCandidates stdRuntime demoStores demoSpendings [demoCard]).take 1) ∧
    (GenerateRecommendations stdRuntime demoStores secondInsertFails 1 demoDb).2.rowsByUser 1 =
      storedAs 1 demoDb.nextID ((rankedCandidates stdRuntime demoStores demoSpendings [demoCard]).take 1) :=
  GenerateRecommendations_insert_failure stdRuntime demoStores secondInsertFails 1 demoDb
    demoSpendings [demoCard] 1 "connection lost" rfl rfl rfl (by decide!)
    (fun j hj => by interval_cases j; rfl) rfl

/-- What a successful call of `GenerateRecommendations` has done: both loads and
the delete succeeded, the first ten ranked candidates were returned, and their
rows were appended to the table after the delete. -/
theorem GenerateRecommendations_ok_inv (rt : Runtime) (st : Stores) (f : Faults) (u : Nat)
    (db : RecDb) (recs : List RecommendationResponse)
    (h : (GenerateRecommendations rt st f u db).1 = .ok recs) :
    ∃ sp cards, st.spendingByUser u = .ok sp ∧ st.activeCards = .ok cards ∧
      recs = (rankedCandidates rt st sp cards).take 10 ∧ f.deleteErr = none ∧
      (GenerateRecommendations rt st f u db).2.rows =
        db.rows.map (softDelete u) ++ storedAs u db.nextID recs := by
  cases hs : st.spendingByUser u with
  | error e => simp [GenerateRecommendations, hs] at h
  | ok sp =>
    cases hc : st.activeCards with
    | error e => simp [GenerateRecommendations, hs, hc] at h
    | ok cards =>
      rw [GenerateRecommendations_of_loaded rt st f u db sp cards hs hc] at h ⊢
      cases hd : f.deleteErr with
      | some e => simp [saveRecommendations, RecDb.DeleteByUserID, hd] at h
      | none =>
        rw [saveRecommendations_of_delete_ok f u _ db hd] at h ⊢
        have key := saveLoop_of_ok f u ((rankedCandidates rt st sp cards).take 10) 0
          { rows := db.rows.map (softDelete u), nextID := db.nextID,
            calls := db.calls ++ [RecCall.deleteByUserID u] }
        generalize saveLoop f u 0 ((rankedCandidates rt st sp cards).take 10) _ = res
          at h key ⊢
        obtain ⟨o, db'⟩ := res
        cases o with
        | some e => simp at h
        | none =>
          have hk := key rfl
          simp only [Prod.mk.injEq, true_and] at hk
          subst hk
          simp only [Except.ok.injEq] at h
          subst h
          exact ⟨sp, cards, rfl, rfl, rfl, rfl, rfl⟩

/-- C8: when `GenerateRecommendations(u)` succeeds, the stored rows of `u`
afterwards are exactly the returned candidates, in the same order, each row
carrying `UserID = u` and the candidate's `Category.ID`, `Card.ID`, `Score`,
`EstimatedReward` and `Reason`; the rows `u` had before are all deleted: the
stored rows of `u` are the freshly inserted ones, with new primary keys. -/
theorem GenerateRecommendations_replace_on_success (rt : Runtime) (st : Stores) (f : Faults)
    (u : Nat) (db : RecDb) (recs : List RecommendationResponse)
    (h : (GenerateRecommendations rt st f u db).1 = .ok recs) :
    (((GenerateRecommendations rt st f u db).2.rowsByUser u).map fun row =>
        (row.UserID, row.CategoryID, row.CardID, row.Score, row.EstimatedReward, row.Reason)) =
      (recs.map fun r => (u, r.Category.ID, r.Card.ID, r.Score, r.EstimatedReward, r.Reason)) ∧
    (GenerateRecommendations rt st f u db).2.rowsByUser u = storedAs u db.nextID recs ∧
    (GenerateRecommendations rt st f u db).2.rows =
      db.rows.map (softDelete u) ++ storedAs u db.nextID recs ∧
    (∀ row ∈ (GenerateRecommendations rt st f u db).2.rowsByUser u, db.nextID ≤ row.ID) := by
  obtain ⟨sp, cards, -, -, -, -, hrows⟩ := GenerateRecommendations_ok_inv rt st f u db recs h
  have hby : (GenerateRecommendations rt st f u db).2.rowsByUser u = storedAs u db.nextID recs := by
    simp only [RecDb.rowsByUser, hrows, List.filter_append, softDelete_filter, storedAs_filter,
      List.nil_append]
  refine ⟨?_, hby, hrows, ?_⟩
  · rw [hby, storedAs_fields]
  · rw [hby]
    exact storedAs_fresh u db.nextID recs

/-- Witness of C8: user 1, whose table held one older row, ends with the rows of
the two returned candidates, keyed 3 and 4. -/
theorem GenerateRecommendations_replace_on_success_witness :
    (GenerateRecommendations stdRuntime demoStores noFaults 1 demoDb).2.rowsByUser 1 =
      [⟨3, 1, 1, 1, 100, 30,
        "Earn 6.00% on this category. Expected monthly reward: $30.00, Net annual benefit: $360.00",
        false⟩,
       ⟨4, 1, 2, 1, 100, 10,
        "Earn 5.00% on this category. Expected monthly reward: $10.00, Net annual benefit: $120.00",
        false⟩] :=
  (GenerateRecommendations_replace_on_success stdRuntime demoStores noFaults 1 demoDb
    (rankedCandidates stdRuntime demoStores demoSpendings [demoCard]) (by decide!)).2.1.trans
    (by decide!)

/-- C3: the value returned by `calculateScore` lies in the closed interval from 0 to
100 (the final rounding does not leave it), and every candidate returned by
`GenerateRecommendations` has a score in that interval. -/
theorem score_mem_Icc :
    (∀ (netBenefit annualFee : Float64) (b : CardBenefit),
      0 ≤ calculateScore netBenefit annualFee b ∧ calculateScore netBenefit annualFee b ≤ 100) ∧
    (∀ (rt : Runtime) (st : Stores) (f : Faults) (u : Nat) (db : RecDb)
      (recs : List RecommendationResponse),
      (GenerateRecommendations rt st f u db).1 = .ok recs →
      ∀ r ∈ recs, 0 ≤ r.Score ∧ r.Score ≤ 100) := by
  refine ⟨calculateScore_mem_Icc, ?_⟩
  intro rt st f u db recs h r hr
  obtain ⟨sp, cards, -, -, hrecs, -, -⟩ := GenerateRecommendations_ok_inv rt st f u db recs h
  subst hrecs
  have h1 : r ∈ generateCandidates rt st (categorySpending sp) cards :=
    (rt.sortSlice_perm _).mem_iff.mp (List.mem_of_mem_take hr)
  obtain ⟨e, -, hre⟩ := (mem_generateCandidates rt st _ cards r).mp h1
  obtain ⟨cat, -, k, -, hcand⟩ := mem_calculateBestCardsForCategory st _ _ cards r hre
  obtain ⟨rule, -, rfl⟩ := cardCandidate_eq_some _ _ _ _ _ hcand
  exact calculateScore_mem_Icc _ _ _

/-- Witness of C3: the first candidate returned for user 1 has a score in the
interval. -/
theorem score_mem_Icc_witness :
    0 ≤ ((rankedCandidates stdRuntime demoStores demoSpendings [demoCard]).get
      ⟨0, by decide!⟩).Score ∧
    ((rankedCandidates stdRuntime demoStores demoSpendings [demoCard]).get
      ⟨0, by decide!⟩).Score ≤ 100 :=
  score_mem_Icc.2 stdRuntime demoStores noFaults 1 demoDb
    (rankedCandidates stdRuntime demoStores demoSpendings [demoCard]) (by decide!) _
    (by decide!)

/-- A spend of zero earns nothing, whatever the rule. -/
theorem calculateReward_zero (b : CardBenefit) : calculateReward 0 b = 0 := by
  unfold calculateReward
  have h : ¬ (b.Cap > 0 ∧ (0 : Float64) > b.Cap) := fun h => lt_asymm h.1 h.2
  simp only [h, if_false]
  split_ifs <;> simp only [fzero_mul]

/-- C10, as stated, fails: user 1 has a single Dining record of amount 0, so the
Dining total is zero, and `GenerateRecommendations` still returns a Dining
candidate for the card with a Dining rule (estimated reward 0, score 60). -/
theorem zero_spend_counterexample :
    categoryTotal zeroSpendings 1 = 0 ∧
    (GenerateRecommendations stdRuntime zeroStores noFaults 1 demoDb).1 =
      .ok [{ ID := 0, Card := demoCard, Category := dining, Score := 60, EstimatedReward := 0,
             Reason := "Earn 6.00% on this category. Expected monthly reward: $0.00, Net annual benefit: $0.00" }] := by
  decide!

/-- C10, amended: `GenerateRecommendations` returns no candidate for a category
without any spending record (every returned candidate carries the category looked
up for a category that has a record); a category whose recorded amounts sum to
zero is still evaluated: each active card with a rule for it yields a candidate
with estimated reward 0, which is returned whenever at most ten candidates were
generated. -/
theorem GenerateRecommendations_zero_spend (rt : Runtime) (st : Stores) (f : Faults) (u : Nat)
    (db : RecDb) (sp : List UserSpending) (cards : List CreditCard)
    (recs : List RecommendationResponse)
    (hs : st.spendingByUser u = .ok sp) (hc : st.activeCards = .ok cards)
    (h : (GenerateRecommendations rt st f u db).1 = .ok recs) :
    (∀ r ∈ recs, ∃ c ∈ sp.map (fun s => s.CategoryID), st.categoryByID c = .ok r.Category) ∧
    (∀ (c : Nat) (cat : Category) (k : CreditCard) (rule : CardBenefit),
      c ∈ sp.map (fun s => s.CategoryID) → categoryTotal sp c = 0 →
      st.categoryByID c = .ok cat → k ∈ cards →
      k.CardBenefits.find? (fun b => b.CategoryID = c) = some rule →
      (generateCandidates rt st (categorySpending sp) cards).length ≤ 10 →
      ({ ID := 0, Card := k, Category := cat,
         Score := calculateScore (-k.AnnualFee) k.AnnualFee rule, EstimatedReward := 0,
         Reason := generateReason rule 0 k.AnnualFee } : RecommendationResponse) ∈ recs) := by
  obtain ⟨sp', cards', hs', hc', hrecs, -, -⟩ := GenerateRecommendations_ok_inv rt st f u db recs h
  rw [hs] at hs'
  rw [hc] at hc'
  obtain rfl := Except.ok.inj hs'
  obtain rfl := Except.ok.inj hc'
  subst hrecs
  constructor
  · intro r hr
    have h1 : r ∈ generateCandidates rt st (categorySpending sp) cards :=
      (rt.sortSlice_perm _).mem_iff.mp (List.mem_of_mem_take hr)
    obtain ⟨e, he, hre⟩ := (mem_generateCandidates rt st _ cards r).mp h1
    obtain ⟨cat, hcat, k, -, hcand⟩ := mem_calculateBestCardsForCategory st _ _ cards r hre
    obtain ⟨rule, -, rfl⟩ := cardCandidate_eq_some _ _ _ _ _ hcand
    exact ⟨e.1, ((mem_categorySpending sp e.1 e.2).mp he).1, hcat⟩
  · intro c cat k rule hmem htot hcat hk hfind hlen
    have hlen' : (rankedCandidates rt st sp cards).length ≤ 10 := by
      unfold rankedCandidates
      rw [(rt.sortSlice_perm _).length_eq]
      exact hlen
    rw [List.take_of_length_le hlen']
    apply (rt.sortSlice_perm _).mem_iff.mpr
    rw [mem_generateCandidates]
    refine ⟨(c, 0), (mem_categorySpending sp c 0).mpr ⟨hmem, htot.symm⟩, ?_⟩
    simp only [calculateBestCardsForCategory, hcat, List.mem_filterMap]
    refine ⟨k, hk, ?_⟩
    simp [cardCandidate, bestBenefit, hfind, calculateReward_zero, fzero_mul, fzero_sub]

/-- Witness of the amended C10: the Dining record of amount 0 of user 1 yields the
Dining candidate of the card, with estimated reward 0. -/
theorem GenerateRecommendations_zero_spend_witness :
    ({ ID := 0, Card := demoCard, Category := dining,
       Score := calculateScore (-demoCard.AnnualFee) demoCard.AnnualFee diningRule,
       EstimatedReward := 0,
       Reason := generateReason diningRule 0 demoCard.AnnualFee } : RecommendationResponse) ∈
      rankedCandidates stdRuntime zeroStores zeroSpendings [demoCard] :=
  (GenerateRecommendations_zero_spend stdRuntime zeroStores noFaults 1 demoDb zeroSpendings
    [demoCard] (rankedCandidates stdRuntime zeroStores zeroSpendings [demoCard]) rfl rfl
    (by decide!)).2 1 dining demoCard diningRule (by decide!) (by decide!) rfl (by decide!)
    (by decide!) (by decide!)

/-! ## Ranking and truncation: theorems -/

/-- The ranked list is ordered by score, highest first. -/
theorem rankedCandidates_sorted (rt : Runtime) (st : Stores) (sp : List UserSpending)
    (cards : List CreditCard) :
    (rankedCandidates rt st sp cards).Pairwise fun a b => b.Score ≤ a.Score :=
  (rt.sortSlice_sorted _).imp fun h => not_lt.mp h

/-- The ranked list is a rearrangement of the generated candidates. -/
theorem rankedCandidates_perm (rt : Runtime) (st : Stores) (sp : List UserSpending)
    (cards : List CreditCard) :
    (rankedCandidates rt st sp cards).Perm (generateCandidates rt st (categorySpending sp) cards) :=
  rt.sortSlice_perm _

/-- What a successful call returns, once the loaded data is named: the first ten
ranked candidates. -/
theorem GenerateRecommendations_ok_eq (rt : Runtime) (st : Stores) (f : Faults) (u : Nat)
    (db : RecDb) (sp : List UserSpending) (cards : List CreditCard)
    (recs : List RecommendationResponse)
    (hs : st.spendingByUser u = .ok sp) (hc : st.activeCards = .ok cards)
    (h : (GenerateRecommendations rt st f u db).1 = .ok recs) :
    recs = (rankedCandidates rt st sp cards).take 10 := by
  obtain ⟨sp', cards', hs', hc', hrecs, -, -⟩ := GenerateRecommendations_ok_inv rt st f u db recs h
  rw [hs] at hs'
  rw [hc] at hc'
  obtain rfl := Except.ok.inj hs'
  obtain rfl := Except.ok.inj hc'
  exact hrecs

/-- C11: on every input on which `GenerateRecommendations` succeeds, the returned
sequence is ordered by score descending (for all positions `i < j` the score at
`i` is at least the score at `j`), and the ranked list it is cut from is a
permutation of the generated candidates: sorting neither drops nor duplicates a
candidate. -/
theorem GenerateRecommendations_sorted (rt : Runtime) (st : Stores) (f : Faults) (u : Nat)
    (db : RecDb) (sp : List UserSpending) (cards : List CreditCard)
    (recs : List RecommendationResponse)
    (hs : st.spendingByUser u = .ok sp) (hc : st.activeCards = .ok cards)
    (h : (GenerateRecommendations rt st f u db).1 = .ok recs) :
    (∀ (i j : Fin recs.length), i < j → (recs.get j).Score ≤ (recs.get i).Score) ∧
    recs = (rankedCandidates rt st sp cards).take 10 ∧
    (rankedCandidates rt st sp cards).Perm
      (generateCandidates rt st (categorySpending sp) cards) := by
  have hrecs := GenerateRecommendations_ok_eq rt st f u db sp cards recs hs hc h
  refine ⟨?_, hrecs, rankedCandidates_perm rt st sp cards⟩
  have hsorted : recs.Pairwise fun a b => b.Score ≤ a.Score := by
    rw [hrecs]
    exact (rankedCandidates_sorted rt st sp cards).sublist (List.take_sublist _ _)
  intro i j hij
  exact List.pairwise_iff_get.mp hsorted i j hij

/-- Witness of C11: of the two candidates returned for user 1, the second does not
score above the first. -/
theorem GenerateRecommendations_sorted_witness :
    ((rankedCandidates stdRuntime demoStores demoSpendings [demoCard]).get
        ⟨1, by decide!⟩).Score ≤
      ((rankedCandidates stdRuntime demoStores demoSpendings [demoCard]).get
        ⟨0, by decide!⟩).Score :=
  (GenerateRecommendations_sorted stdRuntime demoStores noFaults 1 demoDb demoSpendings
    [demoCard] (rankedCandidates stdRuntime demoStores demoSpendings [demoCard]) rfl rfl
    (by decide!)).1 ⟨0, by decide!⟩ ⟨1, by decide!⟩ (by decide)

/-- C12: on every input on which `GenerateRecommendations` succeeds with `n`
generated candidates, the returned sequence has length `min(10, n)` and is the top
of the ranking: the generated candidates split into the returned ones and the
rest, and every returned candidate has a score at least that of every candidate
of the rest. -/
theorem GenerateRecommendations_top_ten (rt : Runtime) (st : Stores) (f : Faults) (u : Nat)
    (db : RecDb) (sp : List UserSpending) (cards : List CreditCard)
    (recs : List RecommendationResponse)
    (hs : st.spendingByUser u = .ok sp) (hc : st.activeCards = .ok cards)
    (h : (GenerateRecommendations rt st f u db).1 = .ok recs) :
    recs.length = min 10 (generateCandidates rt st (categorySpending sp) cards).length ∧
    (recs ++ (rankedCandidates rt st sp cards).drop 10).Perm
      (generateCandidates rt st (categorySpending sp) cards) ∧
    (∀ r ∈ recs, ∀ r' ∈ (rankedCandidates rt st sp cards).drop 10, r'.Score ≤ r.Score) := by
  have hrecs := GenerateRecommendations_ok_eq rt st f u db sp cards recs hs hc h
  subst hrecs
  refine ⟨?_, ?_, ?_⟩
  · rw [List.length_take, (rankedCandidates_perm rt st sp cards).length_eq]
  · rw [List.take_append_drop]
    exact rankedCandidates_perm rt st sp cards
  · have hsorted := rankedCandidates_sorted rt st sp cards
    rw [← List.take_append_drop 10 (rankedCandidates rt st sp cards)] at hsorted
    exact fun r hr r' hr' => (List.pairwise_append.mp hsorted).2.2 r hr r' hr'

/-- Witness of C12: for user 1 two candidates are generated and both are returned. -/
theorem GenerateRecommendations_top_ten_witness :
    (rankedCandidates stdRuntime demoStores demoSpendings [demoCard]).length =
      min 10 (generateCandidates stdRuntime demoStores (categorySpending demoSpendings)
        [demoCard]).length :=
  (GenerateRecommendations_top_ten stdRuntime demoStores noFaults 1 demoDb demoSpendings
    [demoCard] (rankedCandidates stdRuntime demoStores demoSpendings [demoCard]) rfl rfl
    (by decide!)).1

/-! ## Reason strings: theorems -/

/-- C13 fails on the code: on a rule with 6% cashback and 2 miles the reward of a
spend of 600 is the cashback reward 36, while the reason string opens with the
miles unit; on a rule with 6% cashback and 3 points it opens with the points
unit. `generateReason` lets a later unit overwrite an earlier one, the reverse of
the priority of `calculateReward`. -/
theorem generateReason_unit_mismatch :
    calculateReward 600 cashbackMilesRule = 600 * (6 / 100) ∧
    generateReason cashbackMilesRule (calculateReward 600 cashbackMilesRule) 0 =
      "Earn 2.0x miles on this category. Expected monthly reward: $36.00, Net annual benefit: $432.00" ∧
    calculateReward 600 cashbackPointsRule = 600 * (6 / 100) ∧
    generateReason cashbackPointsRule (calculateReward 600 cashbackPointsRule) 0 =
      "Earn 3.0x points on this category. Expected monthly reward: $36.00, Net annual benefit: $432.00" := by
  decide!

/-- No digit character is the letter `A`. -/
theorem digitChar_ne_A (d : Nat) : Nat.digitChar d ≠ 'A' := by
  by_cases h : d < 16
  · interval_cases d <;> decide
  · have h0 : ∀ k, k < 16 → ¬ d = k := fun k hk he => h (he ▸ hk)
    simp only [Nat.digitChar, h0 0 (by decide), h0 1 (by decide), h0 2 (by decide),
      h0 3 (by decide), h0 4 (by decide), h0 5 (by decide), h0 6 (by decide),
      h0 7 (by decide), h0 8 (by decide), h0 9 (by decide), h0 10 (by decide),
      h0 11 (by decide), h0 12 (by decide), h0 13 (by decide), h0 14 (by decide),
      h0 15 (by decide), if_false]
    decide

/-- The digits of a number do not contain the letter `A`. -/
theorem toDigitsCore_no_A (b : Nat) (fuel n : Nat) (ds : List Char) (h : 'A' ∉ ds) :
    'A' ∉ Nat.toDigitsCore b fuel n ds := by
  induction fuel generalizing n ds with
  | zero => simpa [Nat.toDigitsCore] using h
  | succ fuel ih =>
    have hd : 'A' ∉ Nat.digitChar (n % b) :: ds := by
      intro hm
      rcases List.mem_cons.mp hm with h' | h'
      · exact digitChar_ne_A _ h'.symm
      · exact h h'
    simp only [Nat.toDigitsCore]
    split_ifs
    · exact hd
    · exact ih _ _ hd

/-- The decimal representation of a number does not contain the letter `A`. -/
theorem repr_no_A (n : Nat) : 'A' ∉ (toString n).data := by
  show 'A' ∉ (Nat.repr n).data
  unfold Nat.repr Nat.toDigits List.asString
  exact toDigitsCore_no_A 10 _ _ [] (by simp)

/-- Concatenation of strings without the letter `A`. -/
theorem no_A_append {s t : String} (hs : 'A' ∉ s.data) (ht : 'A' ∉ t.data) :
    'A' ∉ (s ++ t).data := by
  rw [String.data_append, List.mem_append]
  exact fun h => h.elim hs ht

/-- A formatted number does not contain the letter `A`. -/
theorem fmtFixed_no_A (prec : Nat) (x : Float64) : 'A' ∉ (fmtFixed prec x).data := by
  have hsign : 'A' ∉ (if x.val < 0 then "-" else "").data := by
    split_ifs <;> decide
  have hpad : ∀ (w : Nat) (s : String), 'A' ∉ s.data → 'A' ∉ (padZeros w s).data := by
    intro w s hs
    unfold padZeros
    apply no_A_append _ hs
    intro hm
    have := List.eq_of_mem_replicate hm
    exact absurd this (by decide)
  by_cases hp : prec = 0
  · simp only [fmtFixed, fmtFixedQ, hp, if_true]
    exact no_A_append hsign (repr_no_A _)
  · simp only [fmtFixed, fmtFixedQ, hp, if_false]
    exact no_A_append (no_A_append (no_A_append hsign (repr_no_A _)) (by decide))
      (hpad _ _ (repr_no_A _))

/-- The reason string as one concatenation. -/
theorem generateReason_eq (b : CardBenefit) (r f : Float64) :
    generateReason b r f =
      reasonUnit b ++ "on this category. Expected monthly reward: $" ++ fmtFixed 2 r ++
        (if f > 0 then ", Annual fee: $" ++ fmtFixed 0 f else "") ++
        ", Net annual benefit: $" ++ fmtFixed 2 (r * 12 - f) := by
  unfold generateReason reasonUnit
  by_cases hm : b.MilesRate > 0 <;> by_cases hp : b.PointsRate > 0 <;>
    by_cases hf : f > 0 <;>
    simp only [hm, hp, hf, if_true, if_false, String.append_assoc, String.append_empty,
      String.empty_append]

/-- The opening of the reason string does not contain the letter `A`. -/
theorem reasonUnit_no_A (b : CardBenefit) : 'A' ∉ (reasonUnit b).data := by
  unfold reasonUnit
  split_ifs
  · exact no_A_append (no_A_append (by decide) (fmtFixed_no_A _ _)) (by decide)
  · exact no_A_append (no_A_append (by decide) (fmtFixed_no_A _ _)) (by decide)
  · exact no_A_append (no_A_append (by decide) (fmtFixed_no_A _ _)) (by decide)

/-- C14, as stated, fails: with a monthly reward of 5764607523034235 / 2^62 (a
`float64` value near 0.00125) and no annual fee, twelve times the reward lies
above 0.015 and reads "0.02" to two decimals, while the code multiplies in
`float64`, where the product is rounded to a value below 0.015, and the reason
ends with "$0.01". -/
theorem generateReason_rounding_counterexample :
    rnd64 (5764607523034235 / 2 ^ 62) = 5764607523034235 / 2 ^ 62 ∧
    generateReason onePercentRule ⟨5764607523034235 / 2 ^ 62⟩ 0 =
      "Earn 1.00% on this category. Expected monthly reward: $0.00, Net annual benefit: $0.01" ∧
    fmtFixedQ 2 (12 * (5764607523034235 / 2 ^ 62) - 0) = "0.02" := by
  decide!

/-- C14, amended: for every rule, monthly reward `r` and annual fee `f`, the
reason string contains "on this category. Expected monthly reward: $" followed by
`r` to two decimals, contains the clause ", Annual fee: $" exactly when `f > 0`,
and ends with ", Net annual benefit: $" followed by the `float64` value of
`12 * r - f` (product and difference rounded as the code computes them) to two
decimals; and it depends on the rule through its three rates only. -/
theorem generateReason_template (b : CardBenefit) (r f : Float64) :
    containsStr (generateReason b r f)
      ("on this category. Expected monthly reward: $" ++ fmtFixed 2 r) ∧
    (containsStr (generateReason b r f) ", Annual fee: $" ↔ f > 0) ∧
    (∃ pre : String, generateReason b r f =
      pre ++ (", Net annual benefit: $" ++ fmtFixed 2 (12 * r - f))) ∧
    (∀ b' : CardBenefit, b'.CashbackRate = b.CashbackRate → b'.PointsRate = b.PointsRate →
      b'.MilesRate = b.MilesRate → generateReason b' r f = generateReason b r f) := by
  refine ⟨?_, ?_, ?_, ?_⟩
  · refine ⟨reasonUnit b, (if f > 0 then ", Annual fee: $" ++ fmtFixed 0 f else "") ++
      ", Net annual benefit: $" ++ fmtFixed 2 (r * 12 - f), ?_⟩
    rw [generateReason_eq]
    simp only [String.append_assoc]
  · constructor
    · rintro ⟨pre, post, h⟩
      by_contra hf
      have hno : 'A' ∉ (generateReason b r f).data := by
        rw [generateReason_eq]
        simp only [hf, if_false]
        exact no_A_append (no_A_append (no_A_append (no_A_append (no_A_append
          (reasonUnit_no_A b) (by decide)) (fmtFixed_no_A _ _)) (by decide)) (by decide))
          (fmtFixed_no_A _ _)
      apply hno
      rw [h, String.data_append, String.data_append]
      exact List.mem_append_left _ (List.mem_append_right _ (by decide))
    · intro hf
      refine ⟨reasonUnit b ++ "on this category. Expected monthly reward: $" ++ fmtFixed 2 r,
        fmtFixed 0 f ++ ", Net annual benefit: $" ++ fmtFixed 2 (r * 12 - f), ?_⟩
      rw [generateReason_eq]
      simp only [hf, if_true, String.append_assoc]
  · refine ⟨reasonUnit b ++ "on this category. Expected monthly reward: $" ++ fmtFixed 2 r ++
      (if f > 0 then ", Annual fee: $" ++ fmtFixed 0 f else ""), ?_⟩
    rw [generateReason_eq, fmul_comm 12 r]
    simp only [String.append_assoc]
  · intro b' h1 h2 h3
    simp only [generateReason, h1, h2, h3]

/-- Witness of the amended C14 on the Dining rule with monthly reward 30 and annual fee 120. -/
theorem generateReason_template_witness :
    generateReason { diningRule with Cap := 0, Description := "capless" } 30 120 =
      generateReason diningRule 30 120 :=
  (generateReason_template diningRule 30 120).2.2.2
    { diningRule with Cap := 0, Description := "capless" } rfl rfl rfl

/-! ## Scenarios and error paths: theorems -/

/-- The ranked list of the Dining scenario is its single candidate, whatever the
runtime does. -/
theorem rankedCandidates_dining (rt : Runtime) :
    rankedCandidates rt diningStores diningSpendings [diningOnlyCard] = [diningCandidate] := by
  have hmap : categorySpending diningSpendings = [(1, 600)] := by decide!
  have hrange : rt.rangeMap [(1, 600)] = [(1, 600)] :=
    List.perm_singleton.mp (rt.rangeMap_perm _)
  have hcalc : calculateBestCardsForCategory diningStores 1 600 [diningOnlyCard] =
      [diningCandidate] := by decide!
  have hgen : generateCandidates rt diningStores (categorySpending diningSpendings)
      [diningOnlyCard] = [diningCandidate] := by
    simp only [generateCandidates, hmap, hrange, List.map_cons, List.map_nil,
      List.flatten_cons, List.flatten_nil, List.append_nil, hcalc]
  unfold rankedCandidates
  rw [hgen]
  exact List.perm_singleton.mp (rt.sortSlice_perm _)

/-- C15: a user whose only spending is 600 on Dining, with a single active card of
annual fee 0 holding one Dining rule (6% cashback, cap 500, no minimum spend),
gets exactly one candidate, with estimated reward 30, score 100 and the reason
"Earn 6.00% on this category. Expected monthly reward: $30.00, Net annual
benefit: $360.00", whatever the runtime and the table, when the delete and the
insert succeed. -/
theorem GenerateRecommendations_dining_scenario (rt : Runtime) (f : Faults) (db : RecDb)
    (hd : f.deleteErr = none) (h0 : f.createErr 0 = none) :
    (GenerateRecommendations rt diningStores f 1 db).1 =
      .ok [{ ID := 0, Card := diningOnlyCard, Category := dining, Score := 100,
             EstimatedReward := 30,
             Reason := "Earn 6.00% on this category. Expected monthly reward: $30.00, Net annual benefit: $360.00" }] := by
  have hl : ∀ j, j < ([diningCandidate].take 10).length → f.createErr (0 + j) = none := by
    intro j hj
    have hj0 : j = 0 := by simpa using hj
    subst hj0
    simpa using h0
  rw [GenerateRecommendations_of_loaded rt diningStores f 1 db diningSpendings [diningOnlyCard]
    rfl rfl, rankedCandidates_dining, saveRecommendations_of_delete_ok f 1 _ db hd,
    saveLoop_of_no_fault f 1 _ 0 _ hl]
  rfl

/-- Witness of C15 with the reference runtime, no write failure and the example
table. -/
theorem GenerateRecommendations_dining_scenario_witness :
    (GenerateRecommendations stdRuntime diningStores noFaults 1 demoDb).1 =
      .ok [{ ID := 0, Card := diningOnlyCard, Category := dining, Score := 100,
             EstimatedReward := 30,
             Reason := "Earn 6.00% on this category. Expected monthly reward: $30.00, Net annual benefit: $360.00" }] :=
  GenerateRecommendations_dining_scenario stdRuntime noFaults demoDb rfl rfl

/-- C16: if the spending store or the card catalog store returns an error,
`GenerateRecommendations` returns an error and no candidate list, and the
recommendation table is left as it was: its rows are unchanged and neither
`DeleteByUserID` nor `Create` has been called. -/
theorem GenerateRecommendations_load_failure (rt : Runtime) (st : Stores) (f : Faults)
    (u : Nat) (db : RecDb)
    (h : (∃ e, st.spendingByUser u = .error e) ∨ (∃ e, st.activeCards = .error e)) :
    (∃ msg, (GenerateRecommendations rt st f u db).1 = .error msg) ∧
    (GenerateRecommendations rt st f u db).2 = db ∧
    (GenerateRecommendations rt st f u db).2.calls = db.calls ∧
    (GenerateRecommendations rt st f u db).2.rowsByUser u = db.rowsByUser u := by
  have key : (∃ msg, (GenerateRecommendations rt st f u db).1 = .error msg) ∧
      (GenerateRecommendations rt st f u db).2 = db := by
    cases hs : st.spendingByUser u with
    | error e => exact ⟨⟨"failed to get user spending: " ++ e,
        by simp [GenerateRecommendations, hs]⟩, by simp [GenerateRecommendations, hs]⟩
    | ok sp =>
      rcases h with ⟨e, he⟩ | ⟨e, he⟩
      · rw [hs] at he
        cases he
      · exact ⟨⟨"failed to get active cards: " ++ e,
          by simp [GenerateRecommendations, hs, he]⟩, by simp [GenerateRecommendations, hs, he]⟩
  exact ⟨key.1, key.2, by rw [key.2], by rw [key.2]⟩

/-- Witness of C16: with the spending store down, and with the card catalog down,
the call returns the wrapped error and leaves the example table untouched. -/
theorem GenerateRecommendations_load_failure_witness :
    (GenerateRecommendations stdRuntime spendingDown noFaults 1 demoDb).2 = demoDb ∧
    (GenerateRecommendations stdRuntime cardsDown noFaults 1 demoDb).2 = demoDb :=
  ⟨(GenerateRecommendations_load_failure stdRuntime spendingDown noFaults 1 demoDb
      (Or.inl ⟨"connection refused", rfl⟩)).2.1,
   (GenerateRecommendations_load_failure stdRuntime cardsDown noFaults 1 demoDb
      (Or.inr ⟨"connection refused", rfl⟩)).2.1⟩

/-- C17, as stated, fails: user 1 has spending on Dining and Groceries, the Dining
lookup fails, and `GenerateRecommendations` returns the Groceries candidate with
no error, after having called `DeleteByUserID` and `Create` on the table. -/
theorem category_failure_counterexample :
    diningLookupDown.categoryByID 1 = .error "record not found" ∧
    1 ∈ demoSpendings.map (fun s => s.CategoryID) ∧
    (GenerateRecommendations stdRuntime diningLookupDown noFaults 1 demoDb).1 =
      .ok [{ ID := 0, Card := demoCard, Category := groceries, Score := 100,
             EstimatedReward := 10,
             Reason := "Earn 5.00% on this category. Expected monthly reward: $10.00, Net annual benefit: $120.00" }] ∧
    (GenerateRecommendations stdRuntime diningLookupDown noFaults 1 demoDb).2.calls =
      [RecCall.deleteByUserID 1,
       RecCall.create ⟨0, 1, 2, 1, 100, 10,
         "Earn 5.00% on this category. Expected monthly reward: $10.00, Net annual benefit: $120.00",
         false⟩] ∧
    (GenerateRecommendations stdRuntime diningLookupDown noFaults 1 demoDb).2.rowsByUser 1 ≠
      demoDb.rowsByUser 1 := by
  decide!

/-- C17, amended: a failing category lookup does not abort the run. The category
contributes no candidate (the error is dropped), and when both loads and every
write succeed the call returns the first ten ranked candidates of the other
categories with no error, having called `DeleteByUserID` and stored their rows. -/
theorem GenerateRecommendations_category_failure (rt : Runtime) (st : Stores) (f : Faults)
    (u : Nat) (db : RecDb) (sp : List UserSpending) (cards : List CreditCard) (c : Nat)
    (e : String) (hs : st.spendingByUser u = .ok sp) (hc : st.activeCards = .ok cards)
    (hfail : st.categoryByID c = .error e)
    (hd : f.deleteErr = none) (hcr : ∀ j, f.createErr j = none) :
    (∀ t : Float64, calculateBestCardsForCategory st c t cards = []) ∧
    (GenerateRecommendations rt st f u db).1 = .ok ((rankedCandidates rt st sp cards).take 10) ∧
    RecCall.deleteByUserID u ∈ (GenerateRecommendations rt st f u db).2.calls ∧
    (GenerateRecommendations rt st f u db).2.rowsByUser u =
      storedAs u db.nextID ((rankedCandidates rt st sp cards).take 10) := by
  have hres : GenerateRecommendations rt st f u db =
      (.ok ((rankedCandidates rt st sp cards).take 10),
       { rows := db.rows.map (softDelete u) ++
           storedAs u db.nextID ((rankedCandidates rt st sp cards).take 10),
         nextID := db.nextID + ((rankedCandidates rt st sp cards).take 10).length,
         calls := db.calls ++ [RecCall.deleteByUserID u] ++
           ((rankedCandidates rt st sp cards).take 10).map fun r =>
             RecCall.create (newRecommendation u r) }) := by
    rw [GenerateRecommendations_of_loaded rt st f u db sp cards hs hc,
      saveRecommendations_of_delete_ok f u _ db hd,
      saveLoop_of_no_fault f u _ 0 _ (fun j _ => hcr _)]
  refine ⟨fun t => by simp [calculateBestCardsForCategory, hfail], ?_, ?_, ?_⟩
  · rw [hres]
  · rw [hres]
    simp
  · rw [hres]
    simp only [RecDb.rowsByUser, List.filter_append, softDelete_filter, storedAs_filter,
      List.nil_append]

/-- Witness of the amended C17: with the Dining lookup failing, user 1 gets the
first ten ranked candidates of the remaining category. -/
theorem GenerateRecommendations_category_failure_witness :
    (GenerateRecommendations stdRuntime diningLookupDown noFaults 1 demoDb).1 =
      .ok ((rankedCandidates stdRuntime diningLookupDown demoSpendings [demoCard]).take 10) :=
  (GenerateRecommendations_category_failure stdRuntime diningLookupDown noFaults 1 demoDb
    demoSpendings [demoCard] 1 "record not found" rfl rfl rfl rfl (fun _ => rfl)).2.1

/-- The insert loop returns no error only if no insert it issued failed. -/
theorem saveLoop_ok_no_fault (f : Faults) (u : Nat) (recs : List RecommendationResponse)
    (i : Nat) (db : RecDb) (h : (saveLoop f u i recs db).1 = none) :
    ∀ j, j < recs.length → f.createErr (i + j) = none := by
  induction recs generalizing i db with
  | nil => intro j hj; simp at hj
  | cons r rest ih =>
    cases h0 : f.createErr i with
    | some e => simp [saveLoop, RecDb.Create, h0] at h
    | none =>
      simp only [saveLoop, RecDb.Create, h0] at h
      intro j hj
      cases j with
      | zero => simpa using h0
      | succ j =>
        have := ih (i + 1) _ h j (by simpa using hj)
        rwa [show i + 1 + j = i + (j + 1) by omega] at this

/-- A successful call has made the delete and every insert it issued without error. -/
theorem GenerateRecommendations_ok_no_fault (rt : Runtime) (st : Stores) (f : Faults) (u : Nat)
    (db : RecDb) (recs : List RecommendationResponse)
    (h : (GenerateRecommendations rt st f u db).1 = .ok recs) :
    f.deleteErr = none ∧ ∀ j, j < recs.length → f.createErr j = none := by
  obtain ⟨sp, cards, hs, hc, hrecs, hd, -⟩ := GenerateRecommendations_ok_inv rt st f u db recs h
  refine ⟨hd, ?_⟩
  rw [GenerateRecommendations_of_loaded rt st f u db sp cards hs hc,
    saveRecommendations_of_delete_ok f u _ db hd] at h
  have key := saveLoop_ok_no_fault f u ((rankedCandidates rt st sp cards).take 10) 0
    { rows := db.rows.map (softDelete u), nextID := db.nextID,
      calls := db.calls ++ [RecCall.deleteByUserID u] }
  generalize saveLoop f u 0 ((rankedCandidates rt st sp cards).take 10) _ = res at h key
  obtain ⟨o, db'⟩ := res
  cases o with
  | some e => simp at h
  | none =>
    intro j hj
    have := key rfl j (by rw [← hrecs]; exact hj)
    simpa using this

/-- C18: when candidate computation succeeds but the replace step fails
(`DeleteByUserID` returns an error, or one of the issued `Create` calls does),
`GenerateRecommendations` returns an error and no candidate list; and it returns
a candidate list with no error only if the delete and every issued insert
succeeded. -/
theorem GenerateRecommendations_replace_failure (rt : Runtime) (st : Stores) (f : Faults)
    (u : Nat) (db : RecDb) (sp : List UserSpending) (cards : List CreditCard)
    (hs : st.spendingByUser u = .ok sp) (hc : st.activeCards = .ok cards) :
    ((f.deleteErr ≠ none ∨
        ∃ k, k < ((rankedCandidates rt st sp cards).take 10).length ∧ f.createErr k ≠ none) →
      ∃ msg, (GenerateRecommendations rt st f u db).1 = .error msg) ∧
    (∀ recs, (GenerateRecommendations rt st f u db).1 = .ok recs →
      f.deleteErr = none ∧ ∀ j, j < recs.length → f.createErr j = none) := by
  refine ⟨?_, fun recs h => GenerateRecommendations_ok_no_fault rt st f u db recs h⟩
  intro hfail
  cases hres : (GenerateRecommendations rt st f u db).1 with
  | error msg => exact ⟨msg, rfl⟩
  | ok recs =>
    exfalso
    obtain ⟨hd, hcr⟩ := GenerateRecommendations_ok_no_fault rt st f u db recs hres
    have hrecs := GenerateRecommendations_ok_eq rt st f u db sp cards recs hs hc hres
    rcases hfail with h | ⟨k, hk, hne⟩
    · exact h hd
    · exact hne (hcr k (by rw [hrecs]; exact hk))

/-- Witness of C18: with a failing delete, and with a failing second insert, the
call for user 1 returns an error. -/
theorem GenerateRecommendations_replace_failure_witness :
    (∃ msg, (GenerateRecommendations stdRuntime demoStores deleteFails 1 demoDb).1 =
      .error msg) ∧
    (∃ msg, (GenerateRecommendations stdRuntime demoStores secondInsertFails 1 demoDb).1 =
      .error msg) :=
  ⟨(GenerateRecommendations_replace_failure stdRuntime demoStores deleteFails 1 demoDb
      demoSpendings [demoCard] rfl rfl).1 (Or.inl (by decide)),
   (GenerateRecommendations_replace_failure stdRuntime demoStores secondInsertFails 1 demoDb
      demoSpendings [demoCard] rfl rfl).1 (Or.inr ⟨1, by decide!, by decide⟩)⟩

/-- Without a rule on any active card for any spent category, no candidate is
generated. -/
theorem generateCandidates_eq_nil (rt : Runtime) (st : Stores) (sp : List UserSpending)
    (cards : List CreditCard)
    (h : ∀ s ∈ sp, ∀ k ∈ cards, bestBenefit k s.CategoryID = none) :
    generateCandidates rt st (categorySpending sp) cards = [] := by
  rw [List.eq_nil_iff_forall_not_mem]
  intro r hr
  obtain ⟨e, he, hre⟩ := (mem_generateCandidates rt st _ cards r).mp hr
  obtain ⟨cat, -, k, hk, hcand⟩ := mem_calculateBestCardsForCategory st _ _ cards r hre
  obtain ⟨s, hs, hsc⟩ := List.mem_map.mp ((mem_categorySpending sp e.1 e.2).mp he).1
  have hnone := h s hs k hk
  rw [hsc] at hnone
  simp [cardCandidate, hnone] at hcand

/-- C19: absence of data is not an error. For a user with no spending records,
and for a user none of whose spent categories has a rule on any active card,
`GenerateRecommendations` returns the empty sequence with no error when the
stores succeed, and the user's stored recommendation set is empty afterwards. -/
theorem GenerateRecommendations_no_data (rt : Runtime) (st : Stores) (f : Faults) (u : Nat)
    (db : RecDb) (sp : List UserSpending) (cards : List CreditCard)
    (hs : st.spendingByUser u = .ok sp) (hc : st.activeCards = .ok cards)
    (hd : f.deleteErr = none)
    (h : sp = [] ∨ ∀ s ∈ sp, ∀ k ∈ cards, bestBenefit k s.CategoryID = none) :
    (GenerateRecommendations rt st f u db).1 = .ok [] ∧
    (GenerateRecommendations rt st f u db).2.rowsByUser u = [] := by
  have h' : ∀ s ∈ sp, ∀ k ∈ cards, bestBenefit k s.CategoryID = none := by
    rcases h with h | h
    · subst h
      intro s hs'
      simp at hs'
    · exact h
  have hranked : rankedCandidates rt st sp cards = [] := by
    have hp := rankedCandidates_perm rt st sp cards
    rw [generateCandidates_eq_nil rt st sp cards h'] at hp
    exact List.perm_nil.mp hp
  rw [GenerateRecommendations_of_loaded rt st f u db sp cards hs hc,
    saveRecommendations_of_delete_ok f u _ db hd, hranked]
  simp only [List.take_nil, saveLoop]
  exact ⟨trivial, softDelete_filter u db.rows⟩

/-- Witness of C19: user 2 has no spending records; the call returns the empty
sequence and leaves user 2 without stored recommendations. -/
theorem GenerateRecommendations_no_data_witness :
    (GenerateRecommendations stdRuntime demoStores noFaults 2 demoDb).1 = .ok [] ∧
    (GenerateRecommendations stdRuntime demoStores noFaults 2 demoDb).2.rowsByUser 2 = [] :=
  GenerateRecommendations_no_data stdRuntime demoStores noFaults 2 demoDb [] [demoCard]
    rfl rfl rfl (Or.inl rfl)

/-! ## Repeated runs: theorems -/

/-- C20, as stated, fails: twelve candidates tie on score 100, the first run visits
the spending map in insertion order and the second in reverse order. Both runs
succeed on unchanged data, yet the first stores the Dining tuple of card 5 and
not its Groceries tuple, and the second the other way round. -/
theorem idempotence_counterexample :
    Except.isOk (GenerateRecommendations stdRuntime tieStores noFaults 1 demoDb).1 = true ∧
    Except.isOk (GenerateRecommendations revRangeRuntime tieStores noFaults 1
      (GenerateRecommendations stdRuntime tieStores noFaults 1 demoDb).2).1 = true ∧
    storedTuples (GenerateRecommendations stdRuntime tieStores noFaults 1 demoDb).2 1 =
      [(1, 1, 100, 30), (2, 1, 100, 30), (3, 1, 100, 30), (4, 1, 100, 30), (5, 1, 100, 30),
       (6, 1, 100, 30), (1, 2, 100, 10), (2, 2, 100, 10), (3, 2, 100, 10), (4, 2, 100, 10)] ∧
    storedTuples (GenerateRecommendations revRangeRuntime tieStores noFaults 1
        (GenerateRecommendations stdRuntime tieStores noFaults 1 demoDb).2).2 1 =
      [(1, 2, 100, 10), (2, 2, 100, 10), (3, 2, 100, 10), (4, 2, 100, 10), (5, 2, 100, 10),
       (6, 2, 100, 10), (1, 1, 100, 30), (2, 1, 100, 30), (3, 1, 100, 30), (4, 1, 100, 30)] ∧
    (5, 1, 100, 30) ∈
      storedTuples (GenerateRecommendations stdRuntime tieStores noFaults 1 demoDb).2 1 ∧
    (5, 1, 100, 30) ∉
      storedTuples (GenerateRecommendations revRangeRuntime tieStores noFaults 1
        (GenerateRecommendations stdRuntime tieStores noFaults 1 demoDb).2).2 1 := by
  decide!

/-- In a list ordered by descending score, the elements selected by a predicate
that holds for every higher score once it holds for a score form a front
segment. -/
theorem filter_eq_take_of_sorted (P : RecommendationResponse → Bool)
    (hP : ∀ a a', P a = true → a.Score ≤ a'.Score → P a' = true)
    (l : List RecommendationResponse) (hl : l.Pairwise fun a b => b.Score ≤ a.Score) :
    l.filter P = l.take (l.filter P).length := by
  induction l with
  | nil => simp
  | cons x xs ih =>
    obtain ⟨hx, hxs⟩ := List.pairwise_cons.mp hl
    by_cases hpx : P x = true
    · simp only [List.filter_cons, hpx, if_true, List.length_cons, List.take_succ_cons]
      rw [← ih hxs]
    · have hnil : xs.filter P = [] := by
        rw [List.filter_eq_nil_iff]
        intro y hy hpy
        exact hpx (hP y x hpy (hx y hy))
      simp [List.filter_cons, hpx, hnil]

/-- Two descending rankings of the same candidates have the same first `n`
candidates, up to order, when in one of them every candidate after the first `n`
scores strictly below every candidate among the first `n`. -/
theorem take_perm_of_gap (l₁ l₂ : List RecommendationResponse) (n : Nat)
    (hperm : l₂.Perm l₁) (h₂ : l₂.Pairwise fun a b => b.Score ≤ a.Score)
    (hgap : ∀ a ∈ l₁.take n, ∀ b ∈ l₁.drop n, b.Score < a.Score) :
    (l₂.take n).Perm (l₁.take n) := by
  let P : RecommendationResponse → Bool :=
    fun a => (l₁.drop n).all fun b => decide (b.Score < a.Score)
  have hP : ∀ a a', P a = true → a.Score ≤ a'.Score → P a' = true := by
    intro a a' ha hle
    simp only [P, List.all_eq_true, decide_eq_true_eq] at ha ⊢
    exact fun b hb => lt_of_lt_of_le (ha b hb) hle
  have h1 : l₁.filter P = l₁.take n := by
    conv_lhs => rw [← List.take_append_drop n l₁]
    rw [List.filter_append]
    have ha : (l₁.take n).filter P = l₁.take n := by
      rw [List.filter_eq_self]
      intro a ha
      simp only [P, List.all_eq_true, decide_eq_true_eq]
      exact hgap a ha
    have hb : (l₁.drop n).filter P = [] := by
      rw [List.filter_eq_nil_iff]
      intro b hb hpb
      simp only [P, List.all_eq_true, decide_eq_true_eq] at hpb
      exact lt_irrefl _ (hpb b hb)
    rw [ha, hb, List.append_nil]
  have h2 : (l₂.filter P).Perm (l₁.take n) := h1 ▸ hperm.filter P
  have hlen : (l₂.filter P).length = min n l₂.length := by
    rw [h2.length_eq, List.length_take, hperm.length_eq]
  have h3 : l₂.filter P = l₂.take n := by
    rw [filter_eq_take_of_sorted P hP l₂ h₂, hlen]
    rcases Nat.le_total n l₂.length with h | h
    · rw [min_eq_left h]
    · rw [min_eq_right h, List.take_of_length_le (le_refl _), List.take_of_length_le h]
  rw [← h3]
  exact h2

/-- The generated candidates of two runs on the same data are the same up to
order, whatever order the spending map is visited in. -/
theorem generateCandidates_perm (rt₁ rt₂ : Runtime) (st : Stores) (m : List (Nat × Float64))
    (cards : List CreditCard) :
    (generateCandidates rt₂ st m cards).Perm (generateCandidates rt₁ st m cards) := by
  unfold generateCandidates
  exact (((rt₂.rangeMap_perm m).trans (rt₁.rangeMap_perm m).symm).map _).flatten

/-- The tuples of the rows built by the insert loop are those of the candidates. -/
theorem storedAs_tuples (u n : Nat) (recs : List RecommendationResponse) :
    (storedAs u n recs).map recTuple =
      recs.map fun r => (r.Card.ID, r.Category.ID, r.Score, r.EstimatedReward) := by
  induction recs generalizing n with
  | nil => simp [storedAs]
  | cons r rest ih => simp [storedAs, newRecommendation, recTuple, ih]

/-- The tuples stored for the user after a successful call are those of the
returned candidates. -/
theorem storedTuples_of_ok (rt : Runtime) (st : Stores) (f : Faults) (u : Nat) (db : RecDb)
    (recs : List RecommendationResponse)
    (h : (GenerateRecommendations rt st f u db).1 = .ok recs) :
    storedTuples (GenerateRecommendations rt st f u db).2 u =
      recs.map fun r => (r.Card.ID, r.Category.ID, r.Score, r.EstimatedReward) := by
  obtain ⟨sp, cards, -, -, -, -, hrows⟩ := GenerateRecommendations_ok_inv rt st f u db recs h
  simp only [storedTuples, RecDb.rowsByUser, hrows, List.filter_append, softDelete_filter,
    storedAs_filter, List.nil_append, storedAs_tuples]

/-- C20, amended: two successive successful runs of `GenerateRecommendations` on
unchanged spending and card data, whatever the order in which each run visits
the spending map and arranges equal scores, leave the same stored
(cardID, categoryID, score, estimatedReward) tuples, provided at most ten
candidates are generated or every candidate the first run left out scores
strictly below every candidate it stored. -/
theorem GenerateRecommendations_idempotent (rt₁ rt₂ : Runtime) (st : Stores) (f₁ f₂ : Faults)
    (u : Nat) (db : RecDb) (sp : List UserSpending) (cards : List CreditCard)
    (recs₁ recs₂ : List RecommendationResponse)
    (hs : st.spendingByUser u = .ok sp) (hc : st.activeCards = .ok cards)
    (h₁ : (GenerateRecommendations rt₁ st f₁ u db).1 = .ok recs₁)
    (h₂ : (GenerateRecommendations rt₂ st f₂ u (GenerateRecommendations rt₁ st f₁ u db).2).1 =
      .ok recs₂)
    (hgap : (generateCandidates rt₁ st (categorySpending sp) cards).length ≤ 10 ∨
      ∀ a ∈ recs₁, ∀ b ∈ (rankedCandidates rt₁ st sp cards).drop 10, b.Score < a.Score) :
    (storedTuples (GenerateRecommendations rt₂ st f₂ u
        (GenerateRecommendations rt₁ st f₁ u db).2).2 u).Perm
      (storedTuples (GenerateRecommendations rt₁ st f₁ u db).2 u) := by
  have e₁ := GenerateRecommendations_ok_eq rt₁ st f₁ u db sp cards recs₁ hs hc h₁
  have e₂ := GenerateRecommendations_ok_eq rt₂ st f₂ u _ sp cards recs₂ hs hc h₂
  rw [storedTuples_of_ok rt₂ st f₂ u _ recs₂ h₂, storedTuples_of_ok rt₁ st f₁ u db recs₁ h₁]
  apply List.Perm.map
  rw [e₁, e₂]
  have hperm : (rankedCandidates rt₂ st sp cards).Perm (rankedCandidates rt₁ st sp cards) :=
    ((rankedCandidates_perm rt₂ st sp cards).trans
      (generateCandidates_perm rt₁ rt₂ st _ cards)).trans
      (rankedCandidates_perm rt₁ st sp cards).symm
  apply take_perm_of_gap _ _ 10 hperm (rankedCandidates_sorted rt₂ st sp cards)
  rcases hgap with hlen | hgap
  · have hdrop : (rankedCandidates rt₁ st sp cards).drop 10 = [] := by
      apply List.drop_of_length_le
      rw [(rankedCandidates_perm rt₁ st sp cards).length_eq]
      exact hlen
    rw [hdrop]
    intro a _ b hb
    simp at hb
  · rw [← e₁]
    exact hgap

/-- Witness of the amended C20: for user 1 two candidates are generated; a run in
insertion order followed by a run in reverse order leaves the same tuples. -/
theorem GenerateRecommendations_idempotent_witness :
    (storedTuples (GenerateRecommendations revRangeRuntime demoStores noFaults 1
        (GenerateRecommendations stdRuntime demoStores noFaults 1 demoDb).2).2 1).Perm
      (storedTuples (GenerateRecommendations stdRuntime demoStores noFaults 1 demoDb).2 1) :=
  GenerateRecommendations_idempotent stdRuntime revRangeRuntime demoStores noFaults noFaults 1
    demoDb demoSpendings [demoCard]
    (rankedCandidates stdRuntime demoStores demoSpendings [demoCard])
    (rankedCandidates revRangeRuntime demoStores demoSpendings [demoCard])
    rfl rfl (by decide!) (by decide!) (Or.inl (by decide!))

/-! ## Bounds and monotonicity: theorems -/

/-- C25, as stated, fails: on the rule "7% cashback, cap 100" a spend of 600 earns
`100 * (7 / 100)` in `float64`, which is `7 + 2^-50`, more than the stated bound
`Cap * rate / 100 * unitValue = 7`, in exact arithmetic and in `float64` alike. -/
theorem calculateReward_cap_bound_counterexample :
    0 ≤ sevenPercentCapRule.CashbackRate ∧ 0 ≤ sevenPercentCapRule.PointsRate ∧
    0 ≤ sevenPercentCapRule.MilesRate ∧ sevenPercentCapRule.Cap > 0 ∧ (0 : Float64) ≤ 600 ∧
    calculateReward 600 sevenPercentCapRule = ⟨7 + 1 / 2 ^ 50⟩ ∧
    sevenPercentCapRule.Cap.val * sevenPercentCapRule.CashbackRate.val / 100 * 1 = 7 ∧
    sevenPercentCapRule.Cap * sevenPercentCapRule.CashbackRate / 100 * 1 = 7 ∧
    ¬ (calculateReward 600 sevenPercentCapRule).val ≤
      sevenPercentCapRule.Cap.val * sevenPercentCapRule.CashbackRate.val / 100 * 1 ∧
    ¬ calculateReward 600 sevenPercentCapRule ≤
      sevenPercentCapRule.Cap * sevenPercentCapRule.CashbackRate / 100 * 1 := by
  decide!

/-- C25, amended: for a rule with non-negative rates and a positive cap and every
spend `s ≥ 0`, the reward is non-negative and at most the reward the code computes
on the cap itself, the `float64` value of `Cap * (rate / 100)` for cashback, of
`Cap * (rate / 100) * 0.01` for points and of `Cap * (rate / 100) * 0.015` for
miles; a spend beyond the cap that meets the minimum spend earns exactly that
reward. -/
theorem calculateReward_cap_bound (b : CardBenefit) (hc : 0 ≤ b.CashbackRate)
    (hp : 0 ≤ b.PointsRate) (hm : 0 ≤ b.MilesRate) (hcap : b.Cap > 0) (s : Float64)
    (hs : 0 ≤ s) :
    0 ≤ calculateReward s b ∧
    calculateReward s b ≤
      (if b.CashbackRate > 0 then b.Cap * (b.CashbackRate / 100)
       else if b.PointsRate > 0 then b.Cap * (b.PointsRate / 100) * 0.01
       else if b.MilesRate > 0 then b.Cap * (b.MilesRate / 100) * 0.015
       else 0) ∧
    (s > b.Cap → b.MinSpend ≤ s → calculateReward s b =
      (if b.CashbackRate > 0 then b.Cap * (b.CashbackRate / 100)
       else if b.PointsRate > 0 then b.Cap * (b.PointsRate / 100) * 0.01
       else if b.MilesRate > 0 then b.Cap * (b.MilesRate / 100) * 0.015
       else 0)) := by
  have hform : (if b.CashbackRate > 0 then b.Cap * (b.CashbackRate / 100)
       else if b.PointsRate > 0 then b.Cap * (b.PointsRate / 100) * 0.01
       else if b.MilesRate > 0 then b.Cap * (b.MilesRate / 100) * 0.015
       else 0) = unitReward b.Cap b := rfl
  rw [hform]
  refine ⟨?_, ?_, ?_⟩
  · by_cases hmin : s < b.MinSpend
    · simp [calculateReward, hmin]
    · rw [calculateReward_of_min_met s b hmin]
      apply unitReward_nonneg b hc hp hm
      split_ifs
      · exact le_of_lt hcap
      · exact hs
  · by_cases hmin : s < b.MinSpend
    · have hz : calculateReward s b = 0 := by simp [calculateReward, hmin]
      rw [hz]
      exact unitReward_nonneg b hc hp hm (le_of_lt hcap)
    · rw [calculateReward_of_min_met s b hmin]
      apply unitReward_mono b hc hp hm
      split_ifs with h
      · exact le_refl _
      · exact not_lt.mp fun hlt => h ⟨hcap, hlt⟩
  · intro hsc hmin
    rw [calculateReward_of_min_met s b (not_lt.mpr hmin)]
    simp [hcap, hsc]

/-- Witness of the amended C25 on the Dining rule (6% cashback, cap 500) with a
spend of 600: the reward lies between 0 and the reward of the cap, and equals
it. -/
theorem calculateReward_cap_bound_witness :
    0 ≤ calculateReward 600 diningRule ∧
    calculateReward 600 diningRule ≤ 500 * (6 / 100) ∧
    calculateReward 600 diningRule = 500 * (6 / 100) :=
  ⟨(calculateReward_cap_bound diningRule (by decide!) (by decide!) (by decide!) (by decide!)
      600 (by decide!)).1,
   le_of_le_of_eq
    (calculateReward_cap_bound diningRule (by decide!) (by decide!) (by decide!) (by decide!)
      600 (by decide!)).2.1 (by decide!),
   ((calculateReward_cap_bound diningRule (by decide!) (by decide!) (by decide!) (by decide!)
      600 (by decide!)).2.2 (by decide!) (by decide!)).trans (by decide!)⟩

/-- Rounding to the nearest integer is monotone. -/
theorem roundHalfAway_mono {x y : ℚ} (h : x ≤ y) : roundHalfAway x ≤ roundHalfAway y := by
  unfold roundHalfAway
  split_ifs with hx hy hy
  · have : ⌊x + 1 / 2⌋ ≤ ⌊y + 1 / 2⌋ := Int.floor_mono (by linarith)
    exact_mod_cast this
  · exfalso
    linarith
  · have h1 : (0 : ℤ) ≤ ⌊-x + 1 / 2⌋ := Int.floor_nonneg.mpr (by linarith)
    have h2 : (0 : ℤ) ≤ ⌊y + 1 / 2⌋ := Int.floor_nonneg.mpr (by linarith)
    have h1q : (0 : ℚ) ≤ ((⌊-x + 1 / 2⌋ : ℤ) : ℚ) := by exact_mod_cast h1
    have h2q : (0 : ℚ) ≤ ((⌊y + 1 / 2⌋ : ℤ) : ℚ) := by exact_mod_cast h2
    linarith
  · have : ⌊-y + 1 / 2⌋ ≤ ⌊-x + 1 / 2⌋ := Int.floor_mono (by linarith)
    have hq : ((⌊-y + 1 / 2⌋ : ℤ) : ℚ) ≤ ((⌊-x + 1 / 2⌋ : ℤ) : ℚ) := by exact_mod_cast this
    linarith

/-- Adding a weighting bonus is monotone in the running score. -/
theorem addBonus_mono (rate weight : Float64) {x y : Float64} (h : x ≤ y) :
    addBonus x rate weight ≤ addBonus y rate weight := by
  unfold addBonus
  split_ifs
  · exact fadd_le_fadd h (le_refl _)
  · exact h

/-- The score in terms of the running score after the three bonuses. -/
theorem calculateScore_eq_addBonus (netBenefit annualFee : Float64) (b : CardBenefit) :
    calculateScore netBenefit annualFee b =
      mathRound (max 0 (min 100
        (addBonus (addBonus (addBonus netBenefit b.CashbackRate 10) b.PointsRate 8)
          b.MilesRate 12 - annualFee * 0.5)) * 100) / 100 := rfl

/-- Clamping to `[0, 100]` and rounding to two decimals is monotone. -/
theorem round_clamp_mono {x y : Float64} (h : x ≤ y) :
    mathRound (max 0 (min 100 x) * 100) / 100 ≤ mathRound (max 0 (min 100 y) * 100) / 100 := by
  have h100 : (0 : Float64) ≤ 100 := by decide!
  have hle : max 0 (min 100 x) ≤ max 0 (min 100 y) :=
    max_le_max (le_refl _) (min_le_min (le_refl _) h)
  have hmul : max 0 (min 100 x) * 100 ≤ max 0 (min 100 y) * 100 :=
    fmul_le_fmul_right hle h100
  have hround : mathRound (max 0 (min 100 x) * 100) ≤ mathRound (max 0 (min 100 y) * 100) :=
    Float64.le_def.mpr (roundHalfAway_mono (Float64.le_def.mp hmul))
  exact fdiv_le_fdiv_right hround h100

/-- The score is monotone in the net benefit and antitone in the fee penalty. -/
theorem calculateScore_mono (b : CardBenefit) {n₁ n₂ f₁ f₂ : Float64} (hn : n₁ ≤ n₂)
    (hf : f₂ ≤ f₁) : calculateScore n₁ f₁ b ≤ calculateScore n₂ f₂ b := by
  rw [calculateScore_eq_addBonus, calculateScore_eq_addBonus]
  apply round_clamp_mono
  apply fsub_le_fsub
  · exact addBonus_mono _ _ (addBonus_mono _ _ (addBonus_mono _ _ hn))
  · exact fmul_le_fmul_right hf (by decide!)

/-- C28: for every fixed rule, the candidate score `calculateScore(12*r - f, f, rule)`
is monotone non-decreasing in the monthly reward `r` and monotone non-increasing
in the annual fee `f`; the fee enters the unclamped score twice, once through the
net benefit `12*r - f` and once through the penalty `f * 0.5` (in exact arithmetic
1.5 per unit of fee; the code rounds each step to `float64`). -/
theorem candidateScore_mono (b : CardBenefit) :
    (∀ r₁ r₂ f : Float64, r₁ ≤ r₂ →
      calculateScore (12 * r₁ - f) f b ≤ calculateScore (12 * r₂ - f) f b) ∧
    (∀ r f₁ f₂ : Float64, f₁ ≤ f₂ →
      calculateScore (12 * r - f₂) f₂ b ≤ calculateScore (12 * r - f₁) f₁ b) ∧
    (∀ r f : Float64, calculateScore (12 * r - f) f b =
      mathRound (max 0 (min 100
        (addBonus (addBonus (addBonus (12 * r - f) b.CashbackRate 10) b.PointsRate 8)
          b.MilesRate 12 - f * 0.5)) * 100) / 100) := by
  have h12 : (0 : Float64) ≤ 12 := by decide!
  refine ⟨?_, ?_, fun r f => rfl⟩
  · intro r₁ r₂ f h
    exact calculateScore_mono b (fsub_le_fsub (fmul_le_fmul_left h h12) (le_refl _)) (le_refl _)
  · intro r f₁ f₂ h
    exact calculateScore_mono b (fsub_le_fsub (le_refl _) h) h

/-- Witness of C28 on the Dining rule: raising the monthly reward from 1 to 2 does
not lower the score, and raising the annual fee from 50 to 80 does not raise it. -/
theorem candidateScore_mono_witness :
    calculateScore (12 * 1 - 50) 50 diningRule ≤ calculateScore (12 * 2 - 50) 50 diningRule ∧
    calculateScore (12 * 2 - 80) 80 diningRule ≤ calculateScore (12 * 2 - 50) 50 diningRule :=
  ⟨(candidateScore_mono diningRule).1 1 2 50 (by decide!),
   (candidateScore_mono diningRule).2.1 2 50 80 (by decide!)⟩
/-! ## Candidates of a single card: theorems -/

/-- C26, as stated, fails: below the minimum spend, a card with annual fee 0.01
and a 1% cashback rule gets the score 9.99, while the stated formula gives
`10 - 1.5 * 0.01`, which lies below 9.985 and rounds to 9.98; a card with annual
fee 43.29 and a 7.1% cashback rule gets the score 6.07, while the stated formula
gives 6.06, in exact arithmetic and evaluated in `float64` alike; and a rule with
cashback rate -1 and points rate 5 gets the score 40 (a rate that is not positive
adds no bonus), while the formula gives -10 + 40 = 30. -/
theorem below_minSpend_score_counterexample :
    (1 : Float64) < (⟨10, 4, 1, 1, 0, 0, 0, 500, ""⟩ : CardBenefit).MinSpend ∧
    calculateBestCardsForCategory demoStores 1 1
        [⟨4, "Basic", "DBS", "visa", 0.01, true, [⟨10, 4, 1, 1, 0, 0, 0, 500, ""⟩]⟩] =
      [{ ID := 0, Card := ⟨4, "Basic", "DBS", "visa", 0.01, true, [⟨10, 4, 1, 1, 0, 0, 0, 500, ""⟩]⟩,
         Category := dining, Score := 9.99, EstimatedReward := 0,
         Reason := "Earn 1.00% on this category. Expected monthly reward: $0.00, Annual fee: $0, Net annual benefit: $-0.01" }] ∧
    round2 (clamp (10 * 1 + 8 * 0 + 12 * 0 - 1.5 * (0.01 : Float64).val) 0 100) = 998 / 100 ∧
    calculateBestCardsForCategory demoStores 1 1
        [⟨6, "Plus", "DBS", "visa", 43.29, true, [⟨12, 6, 1, 7.1, 0, 0, 0, 500, ""⟩]⟩] =
      [{ ID := 0, Card := ⟨6, "Plus", "DBS", "visa", 43.29, true, [⟨12, 6, 1, 7.1, 0, 0, 0, 500, ""⟩]⟩,
         Category := dining, Score := 6.07, EstimatedReward := 0,
         Reason := "Earn 7.10% on this category. Expected monthly reward: $0.00, Annual fee: $43, Net annual benefit: $-43.29" }] ∧
    round2 (clamp (10 * (7.1 : Float64).val + 8 * 0 + 12 * 0 - 1.5 * (43.29 : Float64).val)
      0 100) = 606 / 100 ∧
    mathRound (max 0 (min 100 ((10 : Float64) * 7.1 + 8 * 0 + 12 * 0 - 1.5 * 43.29)) * 100) / 100 =
      6.06 ∧
    calculateBestCardsForCategory demoStores 1 1
        [⟨5, "Odd", "DBS", "visa", 0, true, [⟨11, 5, 1, -1, 5, 0, 0, 500, ""⟩]⟩] =
      [{ ID := 0, Card := ⟨5, "Odd", "DBS", "visa", 0, true, [⟨11, 5, 1, -1, 5, 0, 0, 500, ""⟩]⟩,
         Category := dining, Score := 40, EstimatedReward := 0,
         Reason := "Earn 5.0x points on this category. Expected monthly reward: $0.00, Net annual benefit: $0.00" }] ∧
    round2 (clamp (10 * (-1) + 8 * 5 + 12 * 0 - 1.5 * 0) 0 100) = 30 := by
  refine ⟨by decide!, by decide!, by decide!, by decide!, by decide!, by decide!, by decide!,
    by decide!⟩

/-- C26, amended: a rule whose minimum spend is not met still yields a candidate.
For a card with a rule for the category and an aggregated spend below the rule's
minimum spend, `calculateBestCardsForCategory` emits the card's candidate with
estimated reward 0 and the score `calculateScore(-AnnualFee, AnnualFee, rule)`: the
`float64` value of minus the fee, plus `CashbackRate * 10`, `PointsRate * 8` and
`MilesRate * 12` for the rates that are positive, minus `AnnualFee * 0.5`,
restricted to `[0, 100]` and rounded to two decimals; with 10% cashback and no
annual fee the candidate has estimated reward 0 and the maximum score 100. -/
theorem calculateBestCardsForCategory_below_minSpend (st : Stores) (c : Nat) (cat : Category)
    (cards : List CreditCard) (k : CreditCard) (rule : CardBenefit) (s : Float64)
    (hcat : st.categoryByID c = .ok cat) (hk : k ∈ cards)
    (hrule : bestBenefit k c = some rule) (hs : s < rule.MinSpend) :
    ({ ID := 0, Card := k, Category := cat,
       Score := mathRound (max 0 (min 100
         (addBonus (addBonus (addBonus (-k.AnnualFee) rule.CashbackRate 10) rule.PointsRate 8)
           rule.MilesRate 12 - k.AnnualFee * 0.5)) * 100) / 100,
       EstimatedReward := 0,
       Reason := generateReason rule 0 k.AnnualFee } : RecommendationResponse) ∈
      calculateBestCardsForCategory st c s cards ∧
    calculateBestCardsForCategory demoStores 1 100 [thresholdCard] =
      [{ ID := 0, Card := thresholdCard, Category := dining, Score := 100,
         EstimatedReward := 0,
         Reason := "Earn 10.00% on this category. Expected monthly reward: $0.00, Net annual benefit: $0.00" }] := by
  refine ⟨?_, by decide!⟩
  simp only [calculateBestCardsForCategory, hcat, List.mem_filterMap]
  refine ⟨k, hk, ?_⟩
  have hz : calculateReward s rule = 0 := by simp [calculateReward, hs]
  simp only [cardCandidate, hrule, hz, fzero_mul, fzero_sub]
  rfl

/-- Witness of the amended C26: the card with the 10% rule and minimum spend 500,
at a spend of 100, yields its candidate with estimated reward 0. -/
theorem calculateBestCardsForCategory_below_minSpend_witness :
    ({ ID := 0, Card := thresholdCard, Category := dining,
       Score := mathRound (max 0 (min 100
         (addBonus (addBonus (addBonus (-thresholdCard.AnnualFee) thresholdRule.CashbackRate 10)
           thresholdRule.PointsRate 8) thresholdRule.MilesRate 12
           - thresholdCard.AnnualFee * 0.5)) * 100) / 100,
       EstimatedReward := 0,
       Reason := generateReason thresholdRule 0 thresholdCard.AnnualFee } :
        RecommendationResponse) ∈
      calculateBestCardsForCategory demoStores 1 100 [thresholdCard] :=
  (calculateBestCardsForCategory_below_minSpend demoStores 1 dining [thresholdCard]
    thresholdCard thresholdRule 100 rfl (by decide!) (by decide!) (by decide!)).1

/-- The first rule of a category in a list of rules, given the rules before it. -/
theorem find_first_rule (c : Nat) (pre post : List CardBenefit) (rule : CardBenefit)
    (hpre : ∀ b ∈ pre, b.CategoryID ≠ c) (hrule : rule.CategoryID = c) :
    (pre ++ rule :: post).find? (fun b => b.CategoryID = c) = some rule := by
  induction pre with
  | nil => simp [hrule]
  | cons b pre ih =>
    have hb : b.CategoryID ≠ c := hpre b (List.mem_cons_self _ _)
    have ih' := ih fun b' hb' => hpre b' (List.mem_cons_of_mem _ hb')
    simp [List.find?_cons, hb, ih']

/-- C27: the first matching rule wins. For a card whose rule list holds a rule for
the category after rules of other categories only, whatever rules follow it,
`calculateBestCardsForCategory` emits exactly one candidate for the card, and its
reward, score and reason are computed from that first rule. -/
theorem calculateBestCardsForCategory_first_rule (st : Stores) (c : Nat) (cat : Category)
    (t : Float64) (k : CreditCard) (pre post : List CardBenefit) (rule : CardBenefit)
    (hcat : st.categoryByID c = .ok cat) (hk : k.CardBenefits = pre ++ rule :: post)
    (hpre : ∀ b ∈ pre, b.CategoryID ≠ c) (hrule : rule.CategoryID = c) :
    calculateBestCardsForCategory st c t [k] =
      [{ ID := 0, Card := k, Category := cat,
         Score := calculateScore (12 * calculateReward t rule - k.AnnualFee) k.AnnualFee rule,
         EstimatedReward := calculateReward t rule,
         Reason := generateReason rule (calculateReward t rule) k.AnnualFee }] := by
  have hbest : bestBenefit k c = some rule := by
    unfold bestBenefit
    rw [hk]
    exact find_first_rule c pre post rule hpre hrule
  simp [calculateBestCardsForCategory, hcat, cardCandidate, hbest, fmul_comm]

/-- Witness of C27: on the card with two Dining rules, the candidate is computed
from the first one (6% cashback, cap 500), not from the later 1% rule. -/
theorem calculateBestCardsForCategory_first_rule_witness :
    calculateBestCardsForCategory demoStores 1 600 [twoRuleCard] =
      [{ ID := 0, Card := twoRuleCard, Category := dining,
         Score := calculateScore (12 * calculateReward 600 diningRule - twoRuleCard.AnnualFee)
           twoRuleCard.AnnualFee diningRule,
         EstimatedReward := calculateReward 600 diningRule,
         Reason := generateReason diningRule (calculateReward 600 diningRule)
           twoRuleCard.AnnualFee }] :=
  calculateBestCardsForCategory_first_rule demoStores 1 dining 600 twoRuleCard []
    [laterDiningRule] diningRule rfl rfl (by simp) rfl

/-! ## Aggregation, error wrapping and frame: theorems -/

/-- C21, as stated, fails: for two Dining records of amounts 2^53 and 1 the map
holds 2^53, the `float64` sum of the two amounts, and not their sum 2^53 + 1; and
the value depends on the order of the records: the amounts 2^53, 1, 1 give 2^53,
the amounts 1, 1, 2^53 give 2^53 + 2. -/
theorem categorySpending_sum_counterexample :
    mapGet (categorySpending largeSpendings) 1 = some 9007199254740992 ∧
    (largeSpendings.map fun s => s.Amount.val) = [9007199254740992, 1] ∧
    exactTotal largeSpendings 1 = 9007199254740993 ∧
    mapGet (categorySpending
      [⟨1, 1, 1, 9007199254740992, 3, 2024⟩, ⟨2, 1, 1, 1, 3, 2024⟩, ⟨3, 1, 1, 1, 3, 2024⟩]) 1 =
      some 9007199254740992 ∧
    mapGet (categorySpending
      [⟨2, 1, 1, 1, 3, 2024⟩, ⟨3, 1, 1, 1, 3, 2024⟩, ⟨1, 1, 1, 9007199254740992, 3, 2024⟩]) 1 =
      some 9007199254740994 := by
  decide!

/-- C21, amended: the per-category map built by `GenerateRecommendations` has one
key for each category ID that occurs in the records and no other key; the value
of a key is the running `float64` sum of the amounts of the records of that
category, added one by one from zero in record order, each addition rounded;
month and year play no part (records that differ in other fields only give the
same map); and the empty sequence gives the empty map. -/
theorem categorySpending_spec (sp : List UserSpending) :
    (∀ c, c ∈ (categorySpending sp).map Prod.fst ↔ c ∈ sp.map (fun s => s.CategoryID)) ∧
    ((categorySpending sp).map Prod.fst).Nodup ∧
    (∀ c, c ∈ sp.map (fun s => s.CategoryID) →
      mapGet (categorySpending sp) c =
        some (((sp.filter fun s => s.CategoryID = c).map fun s => s.Amount).foldl
          (fun total amount => total + amount) 0)) ∧
    (∀ g : UserSpending → UserSpending,
      (∀ s, (g s).CategoryID = s.CategoryID ∧ (g s).Amount = s.Amount) →
      categorySpending (sp.map g) = categorySpending sp) ∧
    categorySpending [] = [] := by
  refine ⟨?_, nodup_keys_categorySpending sp, ?_, ?_, rfl⟩
  · intro c
    rw [mem_keys_iff_mapGet, mapGet_categorySpending]
    split_ifs with h <;> simp [h]
  · intro c hc
    rw [mapGet_categorySpending, if_pos hc]
    rfl
  · intro g hg
    unfold categorySpending
    rw [List.foldl_map]
    congr 1
    funext m s
    rw [(hg s).1, (hg s).2]

/-- Witness of the amended C21: two Dining records of 600 and 150, from different
months and years, give the Dining total 750. -/
theorem categorySpending_spec_witness :
    mapGet (categorySpending repeatedSpendings) 1 = some 750 :=
  ((categorySpending_spec repeatedSpendings).2.2.1 1 (by decide!)).trans (by decide!)

/-- C23, as stated, fails: the error of the spending store, and that of the card
catalog store, reach the caller with a text put in front of their message. -/
theorem verbatim_error_counterexample :
    spendingDown.spendingByUser 1 = .error "connection refused" ∧
    (GenerateRecommendations stdRuntime spendingDown noFaults 1 demoDb).1 =
      .error "failed to get user spending: connection refused" ∧
    (GenerateRecommendations stdRuntime spendingDown noFaults 1 demoDb).1 ≠
      .error "connection refused" ∧
    cardsDown.activeCards = .error "connection refused" ∧
    (GenerateRecommendations stdRuntime cardsDown noFaults 1 demoDb).1 =
      .error "failed to get active cards: connection refused" ∧
    (GenerateRecommendations stdRuntime cardsDown noFaults 1 demoDb).1 ≠
      .error "connection refused" := by
  decide!

/-- C23, amended: an error `e` of the spending store reaches the caller wrapped as
"failed to get user spending: " followed by the message of `e`, and an error `e`
of the card catalog store wrapped as "failed to get active cards: " followed by
the message of `e`. -/
theorem GenerateRecommendations_load_error_wrapped (rt : Runtime) (st : Stores) (f : Faults)
    (u : Nat) (db : RecDb) :
    (∀ e, st.spendingByUser u = .error e →
      (GenerateRecommendations rt st f u db).1 =
        .error ("failed to get user spending: " ++ e)) ∧
    (∀ sp e, st.spendingByUser u = .ok sp → st.activeCards = .error e →
      (GenerateRecommendations rt st f u db).1 =
        .error ("failed to get active cards: " ++ e)) := by
  constructor
  · intro e he
    simp [GenerateRecommendations, he]
  · intro sp e hs he
    simp [GenerateRecommendations, hs, he]

/-- Witness of the amended C23 with the spending store down and with the card
catalog down. -/
theorem GenerateRecommendations_load_error_wrapped_witness :
    (GenerateRecommendations stdRuntime spendingDown noFaults 1 demoDb).1 =
      .error ("failed to get user spending: " ++ "connection refused") ∧
    (GenerateRecommendations stdRuntime cardsDown noFaults 1 demoDb).1 =
      .error ("failed to get active cards: " ++ "connection refused") :=
  ⟨(GenerateRecommendations_load_error_wrapped stdRuntime spendingDown noFaults 1 demoDb).1
      "connection refused" rfl,
   (GenerateRecommendations_load_error_wrapped stdRuntime cardsDown noFaults 1 demoDb).2
      demoSpendings "connection refused" rfl rfl⟩

/-- The rows of the table after the insert loop, whether or not an insert failed:
the earlier rows followed by rows built for the user. -/
theorem saveLoop_rows (f : Faults) (u : Nat) (recs : List RecommendationResponse) (i : Nat)
    (db : RecDb) :
    ∃ n, (saveLoop f u i recs db).2.rows = db.rows ++ storedAs u db.nextID (recs.take n) := by
  induction recs generalizing i db with
  | nil => exact ⟨0, by simp [saveLoop, storedAs]⟩
  | cons r rest ih =>
    cases h0 : f.createErr i with
    | some e => exact ⟨0, by simp [saveLoop, RecDb.Create, h0, storedAs]⟩
    | none =>
      obtain ⟨n, hn⟩ := ih (i + 1)
        { rows := db.rows ++ [{ newRecommendation u r with ID := db.nextID }],
          nextID := db.nextID + 1,
          calls := db.calls ++ [RecCall.create (newRecommendation u r)] }
      refine ⟨n + 1, ?_⟩
      simp only [saveLoop, RecDb.Create, h0]
      rw [hn]
      simp [storedAs, List.append_assoc]

/-- A delete for user `u` leaves the visible rows of any other user as they were. -/
theorem softDelete_filter_other (u v : Nat) (hv : v ≠ u) (rows : List Recommendation) :
    (rows.map (softDelete u)).filter (fun r => r.UserID = v ∧ r.Deleted = false) =
      rows.filter (fun r => r.UserID = v ∧ r.Deleted = false) := by
  induction rows with
  | nil => rfl
  | cons r rest ih =>
    have hr : (softDelete u r).UserID = v ∧ (softDelete u r).Deleted = false ↔
        r.UserID = v ∧ r.Deleted = false := by
      unfold softDelete
      split_ifs with h
      · constructor
        · rintro ⟨h1, -⟩
          exact absurd (h.1.symm.trans h1) (Ne.symm hv)
        · rintro ⟨h1, -⟩
          exact absurd (h.1.symm.trans h1) (Ne.symm hv)
      · exact Iff.rfl
    simp only [List.map_cons, List.filter_cons, hr, ih]
    split_ifs with hp
    · have hp' : r.UserID = v := (of_decide_eq_true hp).1
      have hne : ¬ (r.UserID = u ∧ r.Deleted = false) := fun h => hv (hp'.symm.trans h.1)
      rw [softDelete, if_neg hne]
    · rfl

/-- The rows built for user `u` are not visible to any other user. -/
theorem storedAs_filter_other (u v n : Nat) (hv : v ≠ u) (recs : List RecommendationResponse) :
    (storedAs u n recs).filter (fun r => r.UserID = v ∧ r.Deleted = false) = [] := by
  rw [List.filter_eq_nil_iff]
  intro r hr
  have hu : r.UserID = u := by
    have := storedAs_filter u n recs
    rw [List.filter_eq_self] at this
    exact (of_decide_eq_true (this r hr)).1
  simp only [decide_eq_true_eq, not_and]
  intro h
  exact absurd (hu.symm.trans h) (Ne.symm hv)

/-- The rows of the table after `GenerateRecommendations`, whatever happened: the
rows it had before, those of the user possibly deleted, followed by rows built
for the user. -/
theorem GenerateRecommendations_rows (rt : Runtime) (st : Stores) (f : Faults) (u : Nat)
    (db : RecDb) :
    ∃ recs n, (GenerateRecommendations rt st f u db).2.rows = db.rows ++ storedAs u n recs ∨
      (GenerateRecommendations rt st f u db).2.rows =
        db.rows.map (softDelete u) ++ storedAs u n recs := by
  cases hs : st.spendingByUser u with
  | error e => exact ⟨[], 0, Or.inl (by simp [GenerateRecommendations, hs, storedAs])⟩
  | ok sp =>
    cases hc : st.activeCards with
    | error e => exact ⟨[], 0, Or.inl (by simp [GenerateRecommendations, hs, hc, storedAs])⟩
    | ok cards =>
      rw [GenerateRecommendations_of_loaded rt st f u db sp cards hs hc]
      cases hd : f.deleteErr with
      | some e =>
        exact ⟨[], 0, Or.inl (by simp [saveRecommendations, RecDb.DeleteByUserID, hd, storedAs])⟩
      | none =>
        rw [saveRecommendations_of_delete_ok f u _ db hd]
        obtain ⟨n, hn⟩ := saveLoop_rows f u ((rankedCandidates rt st sp cards).take 10) 0
          { rows := db.rows.map (softDelete u), nextID := db.nextID,
            calls := db.calls ++ [RecCall.deleteByUserID u] }
        refine ⟨((rankedCandidates rt st sp cards).take 10).take n, db.nextID, Or.inr ?_⟩
        generalize saveLoop f u 0 ((rankedCandidates rt st sp cards).take 10) _ = res at hn ⊢
        obtain ⟨o, db'⟩ := res
        cases o <;> exact hn

/-- C29: `GenerateRecommendations(u)`, whether it succeeds or fails, leaves the
stored recommendation rows of every other user unchanged: the table afterwards
consists of the rows it had before, with at most the undeleted rows of `u` marked
deleted, followed by rows inserted for `u`. -/
theorem GenerateRecommendations_frame (rt : Runtime) (st : Stores) (f : Faults) (u : Nat)
    (db : RecDb) :
    (∀ v, v ≠ u → (GenerateRecommendations rt st f u db).2.rowsByUser v = db.rowsByUser v) ∧
    (∃ news : List Recommendation, (∀ r ∈ news, r.UserID = u) ∧
      ((GenerateRecommendations rt st f u db).2.rows = db.rows ++ news ∨
       (GenerateRecommendations rt st f u db).2.rows = db.rows.map (softDelete u) ++ news)) ∧
    (∀ r, r.UserID ≠ u → softDelete u r = r) := by
  obtain ⟨recs, n, h⟩ := GenerateRecommendations_rows rt st f u db
  refine ⟨?_, ⟨storedAs u n recs, ?_, h⟩, ?_⟩
  · intro v hv
    unfold RecDb.rowsByUser
    rcases h with h | h
    · rw [h, List.filter_append, storedAs_filter_other u v n hv, List.append_nil]
    · rw [h, List.filter_append, storedAs_filter_other u v n hv, List.append_nil,
        softDelete_filter_other u v hv]
  · intro r hr
    have := storedAs_filter u n recs
    rw [List.filter_eq_self] at this
    exact (of_decide_eq_true (this r hr)).1
  · intro r hr
    unfold softDelete
    rw [if_neg fun h => hr h.1]

/-- Witness of C29: a successful run and a failing run for user 1 both leave the
stored row of user 2 as it was. -/
theorem GenerateRecommendations_frame_witness :
    (GenerateRecommendations stdRuntime demoStores noFaults 1 demoDb).2.rowsByUser 2 =
      demoDb.rowsByUser 2 ∧
    (GenerateRecommendations stdRuntime demoStores secondInsertFails 1 demoDb).2.rowsByUser 2 =
      demoDb.rowsByUser 2 :=
  ⟨(GenerateRecommendations_frame stdRuntime demoStores noFaults 1 demoDb).1 2 (by decide),
   (GenerateRecommendations_frame stdRuntime demoStores secondInsertFails 1 demoDb).1 2
     (by decide)⟩

/-! ## Reader: theorems -/

/-- C22: `GetRecommendationsByUser` returns an error exactly when the store's
`GetByUserID` does, and then that error; otherwise it returns one element per
stored row, in the same order, element `i` copying `ID`, `Card`, `Category`,
`Score`, `EstimatedReward` and `Reason` of row `i`; it leaves the table as it was;
and for a user without stored rows it returns the empty sequence with no error. -/
theorem GetRecommendationsByUser_spec (err : Option String) (cat : Catalog) (u : Nat)
    (db : RecDb) :
    ((∃ e, (GetRecommendationsByUser err cat u db).1 = .error e) ↔
      ∃ e, db.GetByUserID err cat u = .error e) ∧
    (∀ e, db.GetByUserID err cat u = .error e →
      (GetRecommendationsByUser err cat u db).1 = .error e) ∧
    (∀ rows, db.GetByUserID err cat u = .ok rows →
      ∃ out, (GetRecommendationsByUser err cat u db).1 = .ok out ∧
        out.length = rows.length ∧
        out = rows.map fun rec =>
          { ID := rec.row.ID, Card := rec.Card, Category := rec.Category,
            Score := rec.row.Score, EstimatedReward := rec.row.EstimatedReward,
            Reason := rec.row.Reason }) ∧
    (GetRecommendationsByUser err cat u db).2 = db ∧
    (err = none → db.rowsByUser u = [] → (GetRecommendationsByUser err cat u db).1 = .ok []) := by
  refine ⟨?_, ?_, ?_, ?_, ?_⟩
  · unfold GetRecommendationsByUser
    cases h : db.GetByUserID err cat u with
    | error e => simp
    | ok rows => simp
  · intro e he
    simp [GetRecommendationsByUser, he]
  · intro rows hrows
    exact ⟨_, by simp only [GetRecommendationsByUser, hrows], by simp, rfl⟩
  · unfold GetRecommendationsByUser
    cases db.GetByUserID err cat u <;> rfl
  · intro herr hrows
    simp [GetRecommendationsByUser, RecDb.GetByUserID, herr, hrows]

/-- Witness of C22: reading the example table for user 1 returns its one stored row,
and the table is unchanged. -/
theorem GetRecommendationsByUser_spec_witness :
    (GetRecommendationsByUser none demoCatalog 1 demoDb).1 =
      .ok [{ ID := 1, Card := ⟨0, "", "", "", 0, false, []⟩, Category := groceries,
             Score := 55, EstimatedReward := 4, Reason := "old" }] ∧
    (GetRecommendationsByUser (some "connection refused") demoCatalog 1 demoDb).1 =
      .error "connection refused" :=
  ⟨by
    obtain ⟨out, h1, -, h3⟩ := (GetRecommendationsByUser_spec none demoCatalog 1 demoDb).2.2.1
      _ rfl
    rw [h1, h3]
    decide!,
   (GetRecommendationsByUser_spec (some "connection refused") demoCatalog 1 demoDb).2.1
     "connection refused" rfl⟩

/-! ## Benefit patterns: theorems -/

/-- Reading a pattern map after the statement `patterns[k] = v`. -/
theorem patternGet_patternSet (m : List (String × BenefitPattern)) (k : String)
    (v : BenefitPattern) (c : String) :
    patternGet (patternSet m k v) c = if k = c then some v else patternGet m c := by
  induction m with
  | nil => simp [patternSet, patternGet]
  | cons e rest ih =>
    obtain ⟨k', v'⟩ := e
    by_cases h : k' = k
    · subst h
      by_cases hc : k' = c <;> simp [patternSet, patternGet, hc]
    · by_cases hc : k' = c
      · subst hc
        have : ¬ k = k' := fun h' => h h'.symm
        simp [patternSet, patternGet, h, this]
      · simp [patternSet, patternGet, h, hc, ih]

/-- A key that is not among the keys of a list of assignments is not set by it. -/
theorem patternGet_eq_none (l : List (String × BenefitPattern)) (c : String)
    (h : c ∉ l.map Prod.fst) : patternGet l c = none := by
  induction l with
  | nil => rfl
  | cons e rest ih =>
    obtain ⟨k', v'⟩ := e
    simp only [List.map_cons, List.mem_cons, not_or] at h
    have hne : ¬ k' = c := fun h' => h.1 h'.symm
    simp [patternGet, hne, ih h.2]

/-- Reading a pattern map after a sequence of assignments with distinct keys: an
assigned key holds the assigned value, any other key what it held before. -/
theorem patternGet_assignAll (l m : List (String × BenefitPattern)) (c : String)
    (hl : (l.map Prod.fst).Nodup) :
    patternGet (assignAll m l) c =
      match patternGet l c with
      | some p => some p
      | none => patternGet m c := by
  induction l generalizing m with
  | nil => simp [assignAll, patternGet]
  | cons e rest ih =>
    obtain ⟨k', v'⟩ := e
    simp only [List.map_cons, List.nodup_cons] at hl
    have ih' := ih (patternSet m k' v') hl.2
    simp only [assignAll, List.foldl_cons] at ih' ⊢
    rw [ih', patternGet_patternSet]
    by_cases hc : k' = c
    · subst hc
      simp [patternGet, patternGet_eq_none rest k' hl.1]
    · simp [patternGet, hc]

/-- Reading a pattern map after the filling loop over a list of categories. -/
theorem patternGet_foldl_fill (base : Float64) (cats : List String)
    (m : List (String × BenefitPattern)) (c : String) :
    patternGet (cats.foldl
      (fun m category =>
        if (patternGet m category).isSome then m
        else patternSet m category ⟨base, 0, 1000, 0⟩) m) c =
      if c ∈ cats then some ((patternGet m c).getD ⟨base, 0, 1000, 0⟩) else patternGet m c := by
  induction cats generalizing m with
  | nil => simp
  | cons k rest ih =>
    rw [List.foldl_cons, ih]
    by_cases hk : k = c
    · subst hk
      cases hm : patternGet m k with
      | none => simp [hm, patternGet_patternSet]
      | some p =>
        simp only [hm, Option.isSome_some, if_true, List.mem_cons, true_or, Option.getD_some]
        split_ifs <;> rfl
    · have hk' : ¬ c = k := fun h => hk h.symm
      cases hm : patternGet m k with
      | none => simp [hm, patternGet_patternSet, hk, hk']
      | some p => simp [hm, hk']

/-- The first `switch` assigns each category at most once. -/
theorem nodup_namePatterns (toLower : String → String) (cd : ScrapedCard) (base : Float64) :
    ((namePatterns toLower cd base).map Prod.fst).Nodup := by
  unfold namePatterns
  split_ifs <;> simp only [List.map_cons, List.map_nil] <;> decide

/-- The second `switch` assigns each category at most once. -/
theorem nodup_bankPatterns (cd : ScrapedCard) : ((bankPatterns cd).map Prod.fst).Nodup := by
  unfold bankPatterns
  split_ifs <;> decide

/-- The entry `getBenefitPatterns` returns for one of the ten categories: the bank
pattern if there is one, else the card-name pattern if there is one, else the
base-rate pattern. -/
theorem patternGet_getBenefitPatterns (toLower : String → String) (cd : ScrapedCard)
    (c : String) (hc : c ∈ allCategories) :
    patternGet (getBenefitPatterns toLower cd) c =
      some (match patternGet (bankPatterns cd) c with
        | some p => p
        | none =>
          match patternGet (namePatterns toLower cd (patternBaseRate cd)) c with
          | some p => p
          | none => ⟨patternBaseRate cd, 0, 1000, 0⟩) := by
  unfold getBenefitPatterns fillPatterns
  rw [patternGet_foldl_fill, if_pos hc, patternGet_assignAll _ _ _ (nodup_bankPatterns cd),
    patternGet_assignAll _ _ _ (nodup_namePatterns toLower cd _)]
  cases patternGet (bankPatterns cd) c with
  | some p => rfl
  | none =>
    cases patternGet (namePatterns toLower cd (patternBaseRate cd)) c with
    | some p => rfl
    | none => rfl

/-- The entry of a category that the bank pattern sets. -/
theorem patternGet_of_bank (toLower : String → String) (cd : ScrapedCard) (c : String)
    (p : BenefitPattern) (hc : c ∈ allCategories) (h : patternGet (bankPatterns cd) c = some p) :
    patternGet (getBenefitPatterns toLower cd) c = some p := by
  rw [patternGet_getBenefitPatterns toLower cd c hc, h]

/-- The entry of a category that the card-name pattern sets and the bank pattern
does not. -/
theorem patternGet_of_name (toLower : String → String) (cd : ScrapedCard) (c : String)
    (p : BenefitPattern) (hc : c ∈ allCategories) (hb : patternGet (bankPatterns cd) c = none)
    (h : patternGet (namePatterns toLower cd (patternBaseRate cd)) c = some p) :
    patternGet (getBenefitPatterns toLower cd) c = some p := by
  rw [patternGet_getBenefitPatterns toLower cd c hc, hb, h]

/-- The entry of a category that neither pattern sets. -/
theorem patternGet_of_none (toLower : String → String) (cd : ScrapedCard) (c : String)
    (hc : c ∈ allCategories) (hb : patternGet (bankPatterns cd) c = none)
    (h : patternGet (namePatterns toLower cd (patternBaseRate cd)) c = none) :
    patternGet (getBenefitPatterns toLower cd) c =
      some ⟨if cd.CashbackRate > 0 then cd.CashbackRate else 1.0, 0, 1000, 0⟩ := by
  rw [patternGet_getBenefitPatterns toLower cd c hc, hb, h]
  rfl

/-- C30: for every scraped card, the map returned by `getBenefitPatterns` has an
entry for each of the ten categories. A category set neither by the card-name
pattern nor by the bank pattern gets `{Rate: baseRate, Cap: 1000, MinSpend: 0}`,
with `baseRate` the card's cashback rate when positive and 1.0 otherwise: always
so for Shopping, Entertainment, Healthcare and Bills, and for all ten categories
when the name holds none of the keywords and the bank is none of the four. A
category set by the pattern of the bank (OCBC, HSBC, UOB, Maybank) holds the
bank's value, whatever the card name, also when the card-name pattern sets it
too. A category set by the card-name pattern (first matching keyword among
"dining", "travel" or "miles", "cashback" in the lower-cased name) holds that
value when the bank pattern does not set it. -/
theorem getBenefitPatterns_spec (toLower : String → String) (cd : ScrapedCard) :
    (∀ c ∈ ["Dining", "Groceries", "Petrol", "Shopping", "Transport", "Travel",
        "Entertainment", "Healthcare", "Bills", "Online"],
      (patternGet (getBenefitPatterns toLower cd) c).isSome = true) ∧
    (∀ c ∈ ["Shopping", "Entertainment", "Healthcare", "Bills"],
      patternGet (getBenefitPatterns toLower cd) c =
        some ⟨if cd.CashbackRate > 0 then cd.CashbackRate else 1.0, 0, 1000, 0⟩) ∧
    (stringsContains (toLower cd.Name) "dining" = false →
      stringsContains (toLower cd.Name) "travel" = false →
      stringsContains (toLower cd.Name) "miles" = false →
      stringsContains (toLower cd.Name) "cashback" = false →
      cd.Bank ≠ "OCBC" → cd.Bank ≠ "HSBC" → cd.Bank ≠ "UOB" → cd.Bank ≠ "Maybank" →
      ∀ c ∈ ["Dining", "Groceries", "Petrol", "Shopping", "Transport", "Travel",
        "Entertainment", "Healthcare", "Bills", "Online"],
        patternGet (getBenefitPatterns toLower cd) c =
          some ⟨if cd.CashbackRate > 0 then cd.CashbackRate else 1.0, 0, 1000, 0⟩) ∧
    (cd.Bank = "OCBC" →
      patternGet (getBenefitPatterns toLower cd) "Dining" = some ⟨6.0, 0, 2000, 0⟩ ∧
      patternGet (getBenefitPatterns toLower cd) "Groceries" = some ⟨3.0, 0, 2000, 0⟩ ∧
      patternGet (getBenefitPatterns toLower cd) "Petrol" = some ⟨6.0, 0, 1000, 0⟩) ∧
    (cd.Bank = "HSBC" →
      patternGet (getBenefitPatterns toLower cd) "Online" = some ⟨4.0, 0, 2500, 0⟩ ∧
      patternGet (getBenefitPatterns toLower cd) "Dining" = some ⟨4.0, 0, 2000, 0⟩ ∧
      patternGet (getBenefitPatterns toLower cd) "Groceries" = some ⟨4.0, 0, 2000, 0⟩) ∧
    (cd.Bank = "UOB" →
      patternGet (getBenefitPatterns toLower cd) "Online" = some ⟨5.0, 0, 2000, 500⟩ ∧
      patternGet (getBenefitPatterns toLower cd) "Dining" = some ⟨5.0, 0, 2000, 500⟩) ∧
    (cd.Bank = "Maybank" →
      patternGet (getBenefitPatterns toLower cd) "Dining" = some ⟨5.0, 0, 1500, 0⟩ ∧
      patternGet (getBenefitPatterns toLower cd) "Groceries" = some ⟨5.0, 0, 1500, 0⟩ ∧
      patternGet (getBenefitPatterns toLower cd) "Petrol" = some ⟨8.0, 0, 1000, 0⟩) ∧
    (stringsContains (toLower cd.Name) "dining" = true →
      (cd.Bank ≠ "OCBC" → cd.Bank ≠ "HSBC" → cd.Bank ≠ "UOB" → cd.Bank ≠ "Maybank" →
        patternGet (getBenefitPatterns toLower cd) "Dining" =
          some ⟨(if cd.CashbackRate > 0 then cd.CashbackRate else 1.0) * 3, 0, 2000, 0⟩) ∧
      (cd.Bank ≠ "OCBC" → cd.Bank ≠ "HSBC" → cd.Bank ≠ "Maybank" →
        patternGet (getBenefitPatterns toLower cd) "Groceries" =
          some ⟨(if cd.CashbackRate > 0 then cd.CashbackRate else 1.0) * 1.5, 0, 1500, 0⟩)) ∧
    (stringsContains (toLower cd.Name) "dining" = false →
      stringsContains (toLower cd.Name) "travel" = true ∨
        stringsContains (toLower cd.Name) "miles" = true →
      patternGet (getBenefitPatterns toLower cd) "Travel" = some ⟨0, 2.0, 0, 0⟩ ∧
      patternGet (getBenefitPatterns toLower cd) "Transport" = some ⟨0, 2.0, 1000, 0⟩ ∧
      (cd.Bank ≠ "HSBC" → cd.Bank ≠ "UOB" →
        patternGet (getBenefitPatterns toLower cd) "Online" = some ⟨0, 2.0, 2000, 0⟩)) ∧
    (stringsContains (toLower cd.Name) "dining" = false →
      stringsContains (toLower cd.Name) "travel" = false →
      stringsContains (toLower cd.Name) "miles" = false →
      stringsContains (toLower cd.Name) "cashback" = true →
      (cd.Bank ≠ "OCBC" → cd.Bank ≠ "HSBC" → cd.Bank ≠ "UOB" → cd.Bank ≠ "Maybank" →
        patternGet (getBenefitPatterns toLower cd) "Dining" =
          some ⟨(if cd.CashbackRate > 0 then cd.CashbackRate else 1.0) * 2, 0, 1500, 0⟩) ∧
      (cd.Bank ≠ "OCBC" → cd.Bank ≠ "HSBC" → cd.Bank ≠ "Maybank" →
        patternGet (getBenefitPatterns toLower cd) "Groceries" =
          some ⟨(if cd.CashbackRate > 0 then cd.CashbackRate else 1.0) * 2, 0, 1500, 0⟩) ∧
      (cd.Bank ≠ "HSBC" → cd.Bank ≠ "UOB" →
        patternGet (getBenefitPatterns toLower cd) "Online" =
          some ⟨(if cd.CashbackRate > 0 then cd.CashbackRate else 1.0) * 2, 0, 2000, 0⟩)) := by
  have hall : ∀ c ∈ ["Dining", "Groceries", "Petrol", "Shopping", "Transport", "Travel",
      "Entertainment", "Healthcare", "Bills", "Online"], c ∈ allCategories := fun c hc => hc
  have hbank : ∀ c : String, c ≠ "Dining" → c ≠ "Groceries" → c ≠ "Petrol" → c ≠ "Online" →
      patternGet (bankPatterns cd) c = none := by
    intro c h1 h2 h3 h4
    unfold bankPatterns
    split_ifs <;> simp [patternGet, Ne.symm h1, Ne.symm h2, Ne.symm h3, Ne.symm h4]
  have hname : ∀ c : String, c ≠ "Dining" → c ≠ "Groceries" → c ≠ "Travel" →
      c ≠ "Transport" → c ≠ "Online" →
      patternGet (namePatterns toLower cd (patternBaseRate cd)) c = none := by
    intro c h1 h2 h3 h4 h5
    unfold namePatterns
    split_ifs <;>
      simp [patternGet, Ne.symm h1, Ne.symm h2, Ne.symm h3, Ne.symm h4, Ne.symm h5]
  refine ⟨?_, ?_, ?_, ?_, ?_, ?_, ?_, ?_, ?_, ?_⟩
  · intro c hc
    rw [patternGet_getBenefitPatterns toLower cd c (hall c hc)]
    rfl
  · intro c hc
    have hc' : c ∈ allCategories := by
      simp only [List.mem_cons, List.mem_singleton, List.not_mem_nil, or_false] at hc
      rcases hc with rfl | rfl | rfl | rfl <;> decide
    simp only [List.mem_cons, List.mem_singleton, List.not_mem_nil, or_false] at hc
    apply patternGet_of_none toLower cd c hc'
    · rcases hc with rfl | rfl | rfl | rfl <;> exact hbank _ (by decide) (by decide) (by decide) (by decide)
    · rcases hc with rfl | rfl | rfl | rfl <;>
        exact hname _ (by decide) (by decide) (by decide) (by decide) (by decide)
  · intro n1 n2 n3 n4 b1 b2 b3 b4 c hc
    apply patternGet_of_none toLower cd c (hall c hc)
    · simp [bankPatterns, b1, b2, b3, b4, patternGet]
    · simp [namePatterns, n1, n2, n3, n4, patternGet]
  · intro hb
    refine ⟨patternGet_of_bank toLower cd _ _ (by decide) ?_,
      patternGet_of_bank toLower cd _ _ (by decide) ?_,
      patternGet_of_bank toLower cd _ _ (by decide) ?_⟩ <;>
      simp [bankPatterns, hb, patternGet]
  · intro hb
    refine ⟨patternGet_of_bank toLower cd _ _ (by decide) ?_,
      patternGet_of_bank toLower cd _ _ (by decide) ?_,
      patternGet_of_bank toLower cd _ _ (by decide) ?_⟩ <;>
      simp [bankPatterns, hb, patternGet]
  · intro hb
    refine ⟨patternGet_of_bank toLower cd _ _ (by decide) ?_,
      patternGet_of_bank toLower cd _ _ (by decide) ?_⟩ <;>
      simp [bankPatterns, hb, patternGet]
  · intro hb
    refine ⟨patternGet_of_bank toLower cd _ _ (by decide) ?_,
      patternGet_of_bank toLower cd _ _ (by decide) ?_,
      patternGet_of_bank toLower cd _ _ (by decide) ?_⟩ <;>
      simp [bankPatterns, hb, patternGet]
  · intro n1
    constructor
    · intro b1 b2 b3 b4
      apply patternGet_of_name toLower cd _ _ (by decide)
      · simp [bankPatterns, b1, b2, b3, b4, patternGet]
      · simp [namePatterns, n1, patternGet, patternBaseRate]
    · intro b1 b2 b4
      apply patternGet_of_name toLower cd _ _ (by decide)
      · simp only [bankPatterns, b1, b2, b4, if_false]
        split_ifs <;> simp [patternGet]
      · simp [namePatterns, n1, patternGet, patternBaseRate]
  · intro n1 n23
    have hn : (stringsContains (toLower cd.Name) "travel" ||
        stringsContains (toLower cd.Name) "miles") = true := by
      rcases n23 with h | h <;> simp [h]
    refine ⟨?_, ?_, ?_⟩
    · apply patternGet_of_name toLower cd _ _ (by decide)
      · exact hbank _ (by decide) (by decide) (by decide) (by decide)
      · simp [namePatterns, n1, hn, patternGet]
    · apply patternGet_of_name toLower cd _ _ (by decide)
      · exact hbank _ (by decide) (by decide) (by decide) (by decide)
      · simp [namePatterns, n1, hn, patternGet]
    · intro b2 b3
      apply patternGet_of_name toLower cd _ _ (by decide)
      · simp only [bankPatterns, b2, b3, if_false]
        split_ifs <;> simp [patternGet]
      · simp [namePatterns, n1, hn, patternGet]
  · intro n1 n2 n3 n4
    refine ⟨?_, ?_, ?_⟩
    · intro b1 b2 b3 b4
      apply patternGet_of_name toLower cd _ _ (by decide)
      · simp [bankPatterns, b1, b2, b3, b4, patternGet]
      · simp [namePatterns, n1, n2, n3, n4, patternGet, patternBaseRate]
    · intro b1 b2 b4
      apply patternGet_of_name toLower cd _ _ (by decide)
      · simp only [bankPatterns, b1, b2, b4, if_false]
        split_ifs <;> simp [patternGet]
      · simp [namePatterns, n1, n2, n3, n4, patternGet, patternBaseRate]
    · intro b2 b3
      apply patternGet_of_name toLower cd _ _ (by decide)
      · simp only [bankPatterns, b2, b3, if_false]
        split_ifs <;> simp [patternGet]
      · simp [namePatterns, n1, n2, n3, n4, patternGet, patternBaseRate]

/-- Witness of C30 on an HSBC card named "HSBC Dining Card" with cashback rate 2
and on a Citibank card named "Citi PremierMiles" without cashback rate: for the
first the card-name pattern sets Dining to rate 6 and the bank pattern to rate 4,
and the map holds the bank's value; Shopping holds the base rate; for the second
Travel holds the card-name pattern and Petrol the base rate 1.0. -/
theorem getBenefitPatterns_spec_witness :
    patternGet (namePatterns asciiToLower hsbcDiningCard (patternBaseRate hsbcDiningCard))
      "Dining" = some ⟨6, 0, 2000, 0⟩ ∧
    patternGet (getBenefitPatterns asciiToLower hsbcDiningCard) "Dining" =
      some ⟨4.0, 0, 2000, 0⟩ ∧
    patternGet (getBenefitPatterns asciiToLower hsbcDiningCard) "Shopping" =
      some ⟨if hsbcDiningCard.CashbackRate > 0 then hsbcDiningCard.CashbackRate else 1.0,
        0, 1000, 0⟩ ∧
    patternGet (getBenefitPatterns asciiToLower citiMilesCard) "Travel" =
      some ⟨0, 2.0, 0, 0⟩ ∧
    patternGet (getBenefitPatterns asciiToLower citiMilesCard) "Petrol" = some ⟨1, 0, 1000, 0⟩ :=
  ⟨by decide!,
   ((getBenefitPatterns_spec asciiToLower hsbcDiningCard).2.2.2.2.1 rfl).2.1,
   (getBenefitPatterns_spec asciiToLower hsbcDiningCard).2.1 "Shopping" (by decide),
   ((getBenefitPatterns_spec asciiToLower citiMilesCard).2.2.2.2.2.2.2.2.1 (by decide!)
     (Or.inr (by decide!))).1,
   by decide!⟩
/-! ## Concurrent runs for one user: theorems -/

/-- The insert loop of a run without failing write is the sequence of its insert
calls, executed one at a time. -/
theorem saveLoop_eq_runCalls (u : Nat) (recs : List RecommendationResponse) (i : Nat)
    (db : RecDb) :
    saveLoop noFaults u i recs db =
      (none, runCalls (recs.map fun r => RecCall.create (newRecommendation u r)) db) := by
  induction recs generalizing i db with
  | nil => rfl
  | cons r rest ih =>
    simp only [saveLoop, RecDb.Create, noFaults, List.map_cons, runCalls, List.foldl_cons,
      applyCall]
    exact ih (i + 1) _

/-- The replace step of a run without failing write is the sequence of its write
calls, executed one at a time: nothing ties the calls of one run together. -/
theorem saveRecommendations_eq_runCalls (u : Nat) (recs : List RecommendationResponse)
    (db : RecDb) :
    saveRecommendations noFaults u recs db = (none, runCalls (replaceCalls u recs) db) := by
  rw [saveRecommendations_of_delete_ok noFaults u recs db rfl, saveLoop_eq_runCalls]
  rfl

/-- An interleaving holds the calls of both runs, each once. -/
theorem interleave_perm (schedule : List Bool) (callsA callsB : List RecCall) :
    (interleave schedule callsA callsB).Perm (callsA ++ callsB) := by
  induction schedule generalizing callsA callsB with
  | nil =>
    cases callsA with
    | nil => simp [interleave]
    | cons a as =>
      cases callsB with
      | nil => simp [interleave]
      | cons b bs => simp [interleave]
  | cons t schedule ih =>
    cases callsA with
    | nil => simp [interleave]
    | cons a as =>
      cases callsB with
      | nil => simp [interleave]
      | cons b bs =>
        cases t with
        | true =>
          simp only [interleave, List.cons_append]
          exact (ih as (b :: bs)).cons a
        | false =>
          simp only [interleave]
          exact ((ih (a :: as) bs).cons b).trans
            (List.perm_middle.symm.trans (by simp))

/-- An interleaving in which the delete of the first run and then the delete of
the second run come first. -/
theorem interleave_deletes_first (schedule : List Bool) (u : Nat)
    (recsA recsB : List RecommendationResponse) :
    interleave (true :: false :: schedule) (replaceCalls u recsA) (replaceCalls u recsB) =
      RecCall.deleteByUserID u :: RecCall.deleteByUserID u ::
        interleave schedule (createCalls u recsA) (createCalls u recsB) := by
  unfold replaceCalls
  cases h : createCalls u recsA with
  | nil =>
    cases createCalls u recsB <;> cases schedule <;> simp [interleave]
  | cons a as => simp [interleave]

/-- The stored tuples of a user after insert calls for that user: those stored
before, followed by the tuples of the inserted rows. -/
theorem storedTuples_runCalls_creates (u : Nat) (calls : List RecCall) (db : RecDb)
    (h : ∀ c ∈ calls, ∃ r, c = RecCall.create (newRecommendation u r)) :
    storedTuples (runCalls calls db) u = storedTuples db u ++ calls.filterMap callTuple := by
  induction calls generalizing db with
  | nil => simp [runCalls]
  | cons c rest ih =>
    obtain ⟨r, rfl⟩ := h c (List.mem_cons_self _ _)
    have ih' := ih (applyCall db (RecCall.create (newRecommendation u r)))
      fun c' hc' => h c' (List.mem_cons_of_mem _ hc')
    simp only [runCalls, List.foldl_cons] at ih' ⊢
    rw [ih']
    simp [storedTuples, RecDb.rowsByUser, applyCall, RecDb.Create, List.filter_append,
      newRecommendation, callTuple, recTuple]

/-- After a delete for a user no tuple of the user is stored. -/
theorem storedTuples_delete (u : Nat) (db : RecDb) :
    storedTuples (applyCall db (RecCall.deleteByUserID u)) u = [] := by
  show ((db.rows.map (softDelete u)).filter fun r => r.UserID = u ∧ r.Deleted = false).map
    recTuple = []
  rw [softDelete_filter]
  rfl

/-- The insert calls of a run are inserts of rows built for the user. -/
theorem createCalls_spec (u : Nat) (recs : List RecommendationResponse) :
    (∀ c ∈ createCalls u recs, ∃ r, c = RecCall.create (newRecommendation u r)) ∧
    (createCalls u recs).filterMap callTuple = (recs.take 10).map candidateTuple := by
  unfold createCalls
  constructor
  · intro c hc
    obtain ⟨r, -, rfl⟩ := List.mem_map.mp hc
    exact ⟨r, rfl⟩
  · induction recs.take 10 with
    | nil => rfl
    | cons r rest ih =>
      simp only [List.map_cons, List.filterMap_cons, callTuple, ih]
      rfl

/-- C24, as stated, fails: `saveRecommendations` issues its delete and its inserts
as separate calls, with no lock around them. Two runs for user 1 on unchanged
data return the same two candidates; when their calls alternate (delete of the
first run, delete of the second, then the inserts in turn) user 1 is left with
four stored rows, each candidate twice, which is the output of neither run. When
the data changed between the two requests (the second run returns the single
candidate of a Dining spend of zero) and the second run executes between the
first and the second insert of the first, user 1 is left with the row of the
second run and the second row of the first, a mix of both outputs. -/
theorem replace_serialization_counterexample :
    (GenerateRecommendations stdRuntime demoStores noFaults 1 demoDb).1 = .ok demoRanked ∧
    (GenerateRecommendations stdRuntime zeroStores noFaults 1 demoDb).1 = .ok zeroRanked ∧
    interleave [true, false, true, false, true, false] (replaceCalls 1 demoRanked)
        (replaceCalls 1 demoRanked) =
      [RecCall.deleteByUserID 1, RecCall.deleteByUserID 1,
       RecCall.create (newRecommendation 1 (demoRanked.get ⟨0, by decide⟩)),
       RecCall.create (newRecommendation 1 (demoRanked.get ⟨0, by decide⟩)),
       RecCall.create (newRecommendation 1 (demoRanked.get ⟨1, by decide⟩)),
       RecCall.create (newRecommendation 1 (demoRanked.get ⟨1, by decide⟩))] ∧
    storedTuples (runCalls (interleave [true, false, true, false, true, false]
        (replaceCalls 1 demoRanked) (replaceCalls 1 demoRanked)) demoDb) 1 =
      [(1, 1, 100, 30), (1, 1, 100, 30), (1, 2, 100, 10), (1, 2, 100, 10)] ∧
    demoRanked.map candidateTuple = [(1, 1, 100, 30), (1, 2, 100, 10)] ∧
    storedTuples (runCalls (interleave [true, false, true, false, true, false]
        (replaceCalls 1 demoRanked) (replaceCalls 1 demoRanked)) demoDb) 1 ≠
      demoRanked.map candidateTuple ∧
    interleave [true, true, false, false, true] (replaceCalls 1 demoRanked)
        (replaceCalls 1 zeroRanked) =
      [RecCall.deleteByUserID 1,
       RecCall.create (newRecommendation 1 (demoRanked.get ⟨0, by decide⟩)),
       RecCall.deleteByUserID 1,
       RecCall.create (newRecommendation 1 (zeroRanked.get ⟨0, by decide⟩)),
       RecCall.create (newRecommendation 1 (demoRanked.get ⟨1, by decide⟩))] ∧
    storedTuples (runCalls (interleave [true, true, false, false, true]
        (replaceCalls 1 demoRanked) (replaceCalls 1 zeroRanked)) demoDb) 1 =
      [(1, 1, 60, 0), (1, 2, 100, 10)] ∧
    zeroRanked.map candidateTuple = [(1, 1, 60, 0)] ∧
    storedTuples (runCalls (interleave [true, true, false, false, true]
        (replaceCalls 1 demoRanked) (replaceCalls 1 zeroRanked)) demoDb) 1 ≠
      demoRanked.map candidateTuple ∧
    storedTuples (runCalls (interleave [true, true, false, false, true]
        (replaceCalls 1 demoRanked) (replaceCalls 1 zeroRanked)) demoDb) 1 ≠
      zeroRanked.map candidateTuple := by
  refine ⟨by decide!, by decide!, by decide!, by decide!, by decide!, by decide!, by decide!,
    by decide!, by decide!, by decide!, by decide!⟩

/-- C24, amended: the replace step of a run is its delete call followed by its
insert calls, each executed on its own, and no mutual exclusion ties them
together. When two runs for the same user execute their replace steps one after
the other, the stored tuples of the user are those of the output of the later
run. When the calls of the two runs interleave with both deletes first, whatever
the order of the inserts, the rows of both runs stay stored: the stored tuples of
the user are those of both outputs together. -/
theorem concurrent_replace (u : Nat) (recsA recsB : List RecommendationResponse) (db : RecDb) :
    saveRecommendations noFaults u recsA db = (none, runCalls (replaceCalls u recsA) db) ∧
    storedTuples (runCalls (replaceCalls u recsA ++ replaceCalls u recsB) db) u =
      (recsB.take 10).map candidateTuple ∧
    (∀ schedule : List Bool,
      (storedTuples (runCalls (interleave (true :: false :: schedule)
          (replaceCalls u recsA) (replaceCalls u recsB)) db) u).Perm
        ((recsA.take 10).map candidateTuple ++ (recsB.take 10).map candidateTuple)) := by
  refine ⟨saveRecommendations_eq_runCalls u recsA db, ?_, ?_⟩
  · have h : runCalls (replaceCalls u recsA ++ replaceCalls u recsB) db =
        runCalls (createCalls u recsB)
          (applyCall (runCalls (replaceCalls u recsA) db) (RecCall.deleteByUserID u)) := by
      simp [runCalls, replaceCalls, List.foldl_append]
    rw [h, storedTuples_runCalls_creates u _ _ (createCalls_spec u recsB).1,
      storedTuples_delete, (createCalls_spec u recsB).2, List.nil_append]
  · intro schedule
    rw [interleave_deletes_first]
    have h : runCalls (RecCall.deleteByUserID u :: RecCall.deleteByUserID u ::
          interleave schedule (createCalls u recsA) (createCalls u recsB)) db =
        runCalls (interleave schedule (createCalls u recsA) (createCalls u recsB))
          (applyCall (applyCall db (RecCall.deleteByUserID u)) (RecCall.deleteByUserID u)) := by
      simp [runCalls]
    have hperm := interleave_perm schedule (createCalls u recsA) (createCalls u recsB)
    have hall : ∀ c ∈ interleave schedule (createCalls u recsA) (createCalls u recsB),
        ∃ r, c = RecCall.create (newRecommendation u r) := by
      intro c hc
      rcases List.mem_append.mp (hperm.mem_iff.mp hc) with h' | h'
      · exact (createCalls_spec u recsA).1 c h'
      · exact (createCalls_spec u recsB).1 c h'
    rw [h, storedTuples_runCalls_creates u _ _ hall, storedTuples_delete, List.nil_append]
    have := hperm.filterMap callTuple
    rwa [List.filterMap_append, (createCalls_spec u recsA).2, (createCalls_spec u recsB).2]
      at this
end GoToCard
